import Mathlib

/-!
# Postgres dialect of the RDS data-API driver

A shallow embedding of `dialect_postgres.go`: the query migrator
(`MigrateQuery`), the column-type registry (`GetFieldConverter`) and the
isolation-level gate (`IsIsolationLevelSupported`), followed by theorems
about them.

Conventions of the embedding.

* A Go `string` is a Lean `String`; text algorithms work on its list of
  characters.  The characters the code inspects (`$`, `:`, the decimal digits,
  the ASCII letters) are one byte each, so character positions and byte
  positions of these agree.
* Go's `int`, `int64` are `Int`; no arithmetic is done on them here.
* A Go result pair `(v, err)` is a Lean pair whose second component is an
  `Option Error` (`none` is the nil error); a pointer result is an `Option`.
* Functions defined outside this file which the code calls (the value encoder
  `ConvertNamedValues`, `strconv.ParseFloat`, `time.Parse`, `Time.Format`,
  the Unicode case table) are parameters of the definitions that use them.
  For the date and timestamp converters the time parser and formatter are
  then taken to be `goTimeParse` and `goTimeFormat`, which follow package
  `time` for the two layouts of the dialect and for `time.RFC3339`; for the
  numeric converter the float parser is then taken to be `goParseFloat`,
  which follows package `strconv` for bit size 64.
* A converter is applied to a non-nil `*Field`, as the driver does for the
  fields of a response record.
-/

set_option autoImplicit false

namespace RDS

/-! ## Data model -/

/-- A `float64`, kept as its IEEE-754 bit pattern. -/
structure Float64 where
  bits : Nat
  deriving DecidableEq, Repr

/-- An instant as `time.Parse` returns it for a layout without a zone: civil
fields in UTC. -/
structure Time where
  year : Int
  month : Int
  day : Int
  hour : Int
  minute : Int
  second : Int
  nanosecond : Int
  deriving DecidableEq, Repr

/-- Go `error` values met by the dialect. -/
inductive Error where
  /-- the package-level sentinel `ErrNoMixedParams` -/
  | ErrNoMixedParams
  /-- an error built by `fmt.Errorf`, with its message -/
  | errorf (msg : String)
  /-- an error made by a collaborator (encoder, `strconv`, `time`) -/
  | foreign (msg : String)
  deriving DecidableEq, Repr

/-- A `driver.Value`: the scalar bound to a parameter. -/
inductive DriverValue where
  | null
  | int64 (i : Int)
  | float64 (f : Float64)
  | bool (b : Bool)
  | bytes (b : List Nat)
  | string (s : String)
  | time (t : Time)
  deriving DecidableEq, Repr

/-- The struct `driver.NamedValue`. -/
structure NamedValue where
  Name : String
  Ordinal : Int
  Value : DriverValue
  deriving DecidableEq, Repr

/-- The struct `rdsdataservice.ArrayValue`. -/
inductive ArrayValue where
  | mk (ArrayValues : List ArrayValue) (BooleanValues : List Bool)
      (DoubleValues : List Float64) (LongValues : List Int)
      (StringValues : List String)

/-- The struct `rdsdataservice.Field`: every member is a pointer (or a slice),
`none` when it is not set. -/
structure Field where
  ArrayValue : Option ArrayValue
  BlobValue : Option (List Nat)
  BooleanValue : Option Bool
  DoubleValue : Option Float64
  IsNull : Option Bool
  LongValue : Option Int
  StringValue : Option String

/-- The struct `rdsdataservice.SqlParameter`. -/
structure SqlParameter where
  Name : Option String
  TypeHint : Option String
  Value : Option Field

/-- The struct `rdsdataservice.ExecuteStatementInput`, restricted to the two
members `MigrateQuery` sets. -/
structure ExecuteStatementInput where
  Parameters : List SqlParameter
  Sql : String

/-- The signature of `ConvertNamedValues`, the value wire encoder. -/
abbrev Encoder := List NamedValue → List SqlParameter × Option Error

/-! ## Library functions used by `MigrateQuery` -/

/-- The function `strconv.Itoa`. -/
def Itoa : Int → String
  | Int.ofNat n => Nat.repr n
  | Int.negSucc n => "-" ++ Nat.repr (n + 1)

/-- The character class `[0-9]`. -/
def isDigit (c : Char) : Bool := decide ('0'.toNat ≤ c.toNat) && decide (c.toNat ≤ '9'.toNat)

/-- Length of the longest prefix made of `[0-9]`: what a greedy `[0-9]*`
consumes. -/
def digitRun : List Char → Nat
  | [] => 0
  | c :: rest => if isDigit c then digitRun rest + 1 else 0

/-- The compiled pattern `\$([0-9]+)`, as the matcher anchored at the head of
the text: the length of the match starting there, if there is one.  The
match is a `$` followed by all the digits that follow, at least one. -/
def postgresRegex : List Char → Option Nat
  | [] => none
  | c :: rest =>
    if c = '$' then
      if 1 ≤ digitRun rest then some (digitRun rest + 1) else none
    else none

/-- The function `strings.Replace s old new n` for a one-character `old` and
`n ≥ 0`: the first `n` occurrences of `old` are replaced by `new`. -/
def Replace : List Char → Char → List Char → Nat → List Char
  | [], _, _, _ => []
  | c :: rest, _, _, 0 => c :: rest
  | c :: rest, old, new, n + 1 =>
    if c = old then new ++ Replace rest old new n
    else c :: Replace rest old new (n + 1)

/-- The loop of `Regexp.ReplaceAllStringFunc` for a pattern that never matches
the empty text.  `skip` counts the characters still covered by the match
replaced last; with `skip = 0` the pattern is tried at the current position:
on a match the replacement of the matched text is emitted and the scan resumes
after the match, otherwise the character is copied. -/
def replaceAllFrom (re : List Char → Option Nat) (repl : List Char → List Char) :
    List Char → Nat → List Char
  | [], _ => []
  | _ :: rest, skip + 1 => replaceAllFrom re repl rest skip
  | c :: rest, 0 =>
    match re (c :: rest) with
    | some (n + 1) => repl ((c :: rest).take (n + 1)) ++ replaceAllFrom re repl rest n
    | _ => c :: replaceAllFrom re repl rest 0

/-- The method `Regexp.ReplaceAllStringFunc`. -/
def ReplaceAllStringFunc (re : List Char → Option Nat) (src : String)
    (repl : List Char → List Char) : String :=
  String.mk (replaceAllFrom re repl src.data 0)

/-! ## MigrateQuery -/

/-- The style-check loop of `MigrateQuery`: `none` when the loop returns
`ErrNoMixedParams`, otherwise the final values of `ordinal` and `named`. -/
def scanArgs : List NamedValue → Bool → Bool → Option (Bool × Bool)
  | [], ordinal, named => some (ordinal, named)
  | arg :: rest, ordinal, named =>
    let named := if arg.Name ≠ "" then true else named
    let ordinal := if arg.Ordinal > 0 then true else ordinal
    if named && ordinal then none else scanArgs rest ordinal named

/-- The loop that builds `namedArgs`: the name is the decimal ordinal, the
value is kept, and `Ordinal` is left at its zero value. -/
def renameArgs (args : List NamedValue) : List NamedValue :=
  args.map fun v => { Name := Itoa v.Ordinal, Ordinal := 0, Value := v.Value }

/-- The method `DialectPostgres.MigrateQuery`, with `ConvertNamedValues` as the
parameter `enc`.  The result is the Go pair (request pointer, error). -/
def MigrateQuery (enc : Encoder) (query : String) (args : List NamedValue) :
    Option ExecuteStatementInput × Option Error :=
  match scanArgs args false false with
  | none => (none, some Error.ErrNoMixedParams)
  | some (ordinal, _) =>
    if ordinal then
      let namedArgs := renameArgs args
      let query := ReplaceAllStringFunc postgresRegex query (fun s => Replace s '$' [':'] 1)
      let (params, err) := enc namedArgs
      (some { Parameters := params, Sql := query }, err)
    else
      let (params, err) := enc args
      (some { Parameters := params, Sql := query }, err)

/-! ## GetFieldConverter -/

/-- A Go `interface{}` value as the converters return it. -/
inductive Any where
  | nil
  | int64 (i : Int)
  | bool (b : Bool)
  | string (s : String)
  | float64 (f : Float64)
  deriving DecidableEq, Repr

/-- The type `FieldConverter`: from a field to the Go pair (value, error). -/
abbrev FieldConverter := Field → Any × Option Error

/-- What the code uses of the Go standard library and cannot be written out
here: the Unicode lower-case mapping of the runes from `0x80` on, the decimal
to `float64` parser, and the layout-driven time parser and formatter. -/
structure Stdlib where
  /-- the case table behind `unicode.ToLower`, used for runes `≥ 0x80` -/
  caseTable : Char → Char
  /-- the function `strconv.ParseFloat s bitSize` -/
  ParseFloat : String → Nat → Float64 × Option Error
  /-- the function `time.Parse layout value` -/
  timeParse : String → String → Time × Option Error
  /-- the method `Time.Format layout` -/
  timeFormat : Time → String → String

/-- The constant `time.RFC3339`. -/
def RFC3339 : String := "2006-01-02T15:04:05Z07:00"

/-- The helper `aws.Int64Value`: the pointee, or 0 for a nil pointer. -/
def Int64Value : Option Int → Int
  | some v => v
  | none => 0

/-- The helper `aws.BoolValue`: the pointee, or false for a nil pointer. -/
def BoolValue : Option Bool → Bool
  | some v => v
  | none => false

/-- The helper `aws.StringValue`: the pointee, or "" for a nil pointer. -/
def StringValue : Option String → String
  | some v => v
  | none => ""

/-- The helper `aws.Float64Value`: the pointee, or 0 for a nil pointer. -/
def Float64Value : Option Float64 → Float64
  | some v => v
  | none => { bits := 0 }

/-- The function `unicode.ToLower`: ASCII letters are shifted, other ASCII
runes are kept, and the runes above ASCII go through the case table. -/
def unicodeToLower (caseTable : Char → Char) (r : Char) : Char :=
  if r.toNat ≤ 0x7F then
    if 'A'.toNat ≤ r.toNat ∧ r.toNat ≤ 'Z'.toNat then Char.ofNat (r.toNat + ('a'.toNat - 'A'.toNat))
    else r
  else caseTable r

/-- The function `strings.ToLower`: an ASCII-only text is returned as it is
when it has no upper-case letter and has its upper-case letters shifted
otherwise; any other text is mapped rune by rune through `unicode.ToLower`. -/
def ToLower (caseTable : Char → Char) (s : String) : String :=
  let isASCII := s.data.all fun c => decide (c.toNat < 0x80)
  let hasUpper := s.data.any fun c => decide ('A'.toNat ≤ c.toNat ∧ c.toNat ≤ 'Z'.toNat)
  if isASCII then
    if !hasUpper then s
    else String.mk (s.data.map fun c =>
      if 'A'.toNat ≤ c.toNat ∧ c.toNat ≤ 'Z'.toNat then Char.ofNat (c.toNat + ('a'.toNat - 'A'.toNat))
      else c)
  else String.mk (s.data.map (unicodeToLower caseTable))

/-- The method `DialectPostgres.GetFieldConverter`. -/
def GetFieldConverter (std : Stdlib) (columnType : String) : FieldConverter :=
  match ToLower std.caseTable columnType with
  | "serial" => fun field => (Any.int64 (Int64Value field.LongValue), none)
  | "bool" => fun field => (Any.bool (BoolValue field.BooleanValue), none)
  | "bpchar" | "varchar" | "text" =>
    fun field => (Any.string (StringValue field.StringValue), none)
  | "int2" | "int4" | "int8" => fun field => (Any.int64 (Int64Value field.LongValue), none)
  | "numeric" => fun field =>
    let (f, err) := std.ParseFloat (StringValue field.StringValue) 64
    (Any.float64 f, err)
  | "float4" => fun field => (Any.float64 (Float64Value field.DoubleValue), none)
  | "date" => fun field =>
    let (t, err) := std.timeParse "2006-01-02" (StringValue field.StringValue)
    if err ≠ none then (Any.nil, err)
    else (Any.string (std.timeFormat t RFC3339), none)
  | "time" => fun field => (Any.string (StringValue field.StringValue), none)
  | "timestamp" => fun field =>
    let (t, err) := std.timeParse "2006-01-02 15:04:05" (StringValue field.StringValue)
    if err ≠ none then (Any.nil, err)
    else (Any.string (std.timeFormat t RFC3339), none)
  | _ => fun _ =>
    (Any.nil, some (Error.errorf ("unknown type " ++ columnType ++ ", please submit a PR")))

/-! ## IsIsolationLevelSupported -/

/-- The type `driver.IsolationLevel`, a Go `int`. -/
abbrev IsolationLevel := Int

/-- The constants of `database/sql`, in their `iota` order. -/
def LevelDefault : IsolationLevel := 0
def LevelReadUncommitted : IsolationLevel := 1
def LevelReadCommitted : IsolationLevel := 2
def LevelWriteCommitted : IsolationLevel := 3
def LevelRepeatableRead : IsolationLevel := 4
def LevelSnapshot : IsolationLevel := 5
def LevelSerializable : IsolationLevel := 6
def LevelLinearizable : IsolationLevel := 7

/-- The map literal `SupportedIsolationLevels`, as its list of entries. -/
def SupportedIsolationLevels : List (IsolationLevel × Bool) :=
  [ (LevelDefault, true),
    (LevelRepeatableRead, true),
    (LevelReadCommitted, true),
    (LevelReadUncommitted, true),
    (LevelSerializable, true) ]

/-- The method `DialectPostgres.IsIsolationLevelSupported`: whether the map
has the key. -/
def IsIsolationLevelSupported (level : IsolationLevel) : Bool :=
  match SupportedIsolationLevels.lookup level with
  | some _ => true
  | none => false

/-! ## Auxiliary facts: the style check -/

/-- Some parameter carries a name. -/
def hasNamed (args : List NamedValue) : Bool := args.any fun a => decide (a.Name ≠ "")

/-- Some parameter carries a positive ordinal. -/
def hasOrdinal (args : List NamedValue) : Bool := args.any fun a => decide (a.Ordinal > 0)

/-! ## Auxiliary definitions: type names and their spellings -/

/-- The case labels of the switch in `GetFieldConverter`, in source order. -/
def columnTypes : List String :=
  ["serial", "bool", "bpchar", "varchar", "text", "int2", "int4", "int8", "numeric",
   "float4", "date", "time", "timestamp"]

/-- Two characters that are equal, or are the upper-case and the lower-case
form of one ASCII letter (the codes differ by 32). -/
def sameLetter (a b : Char) : Bool :=
  a == b
    || (decide ('A'.toNat ≤ a.toNat ∧ a.toNat ≤ 'Z'.toNat) && b.toNat == a.toNat + 32)
    || (decide ('A'.toNat ≤ b.toNat ∧ b.toNat ≤ 'Z'.toNat) && a.toNat == b.toNat + 32)

/-- Two texts of the same length that differ at most in the case of their
letters. -/
def caseVariant : List Char → List Char → Bool
  | [], [] => true
  | a :: s, b :: t => sameLetter a b && caseVariant s t
  | _, _ => false

/-! ## Auxiliary definitions: the rewrite, position by position -/

/-- The text in which every `$` that is directly followed by a digit has become
a `:`, all other characters kept.  It is shown below to be what
`ReplaceAllStringFunc` computes for `postgresRegex`. -/
def colonAt : List Char → List Char
  | [] => []
  | c :: rest => (if c = '$' ∧ 1 ≤ digitRun rest then ':' else c) :: colonAt rest

/-! ## The standard library's time parser and formatter

The parts of package `time` that `time.Parse` and `Time.Format` run for the
two layouts of the dialect (`2006-01-02`, `2006-01-02 15:04:05`) and for
`time.RFC3339`.  A parse error is one error value; the text of a
`*time.ParseError` is not modelled. -/

/-- The value of a decimal digit: `c - '0'`. -/
def digitVal (c : Char) : Nat := c.toNat - '0'.toNat

/-- The function `leadingInt` of package `time`: the leading digits as a
number and the rest, or nothing on overflow. -/
def leadingInt : List Char → Nat → Option (Nat × List Char)
  | [], x => some (x, [])
  | c :: rest, x =>
    if isDigit c then
      if x > 9223372036854775808 / 10 then none
      else if x * 10 + digitVal c > 9223372036854775808 then none
      else leadingInt rest (x * 10 + digitVal c)
    else some (x, c :: rest)

/-- The function `atoi` of package `time`: an optional sign, then digits up to
the end of the text. -/
def atoi (s : List Char) : Option Int :=
  let neg := decide (s.head? = some '-')
  let s := if s.head? = some '-' ∨ s.head? = some '+' then s.tail else s
  match leadingInt s 0 with
  | some (q, []) => some (if neg then -(q : Int) else (q : Int))
  | _ => none

/-- The function `getnum`: a one- or two-digit number at the head of the text;
with `fixed` two digits are required. -/
def getnum (s : List Char) (fixed : Bool) : Option (Int × List Char) :=
  match s with
  | [] => none
  | a :: rest =>
    if isDigit a then
      match rest with
      | [] => if fixed then none else some ((digitVal a : Int), rest)
      | b :: rest2 =>
        if isDigit b then some ((digitVal a : Int) * 10 + (digitVal b : Int), rest2)
        else if fixed then none else some ((digitVal a : Int), rest)
    else none

/-- The function `cutspace`: the text without its leading spaces. -/
def cutspace : List Char → List Char
  | [] => []
  | c :: rest => if c = ' ' then cutspace rest else c :: rest

/-- The function `skip value prefix`: the value after the literal text of the
layout, where a run of spaces of the layout matches the spaces at the head of
the value (none only if the value has ended).  `cut` is set while the scan is
inside a run of layout spaces that has been matched already. -/
def skipFrom : Bool → List Char → List Char → Option (List Char)
  | _, value, [] => some value
  | cut, value, p :: rest =>
    if p = ' ' then
      if cut then skipFrom true value rest
      else
        match value with
        | [] => skipFrom true [] rest
        | v :: _ => if v ≠ ' ' then none else skipFrom true (cutspace value) rest
    else
      match value with
      | [] => none
      | v :: vrest => if v = p then skipFrom false vrest rest else none

/-- The layout elements that occur in the two layouts. -/
inductive StdChunk where
  | stdLongYear
  | stdZeroMonth
  | stdZeroDay
  | stdHour
  | stdZeroMinute
  | stdZeroSecond
  deriving DecidableEq, Repr

/-- The successive results of `nextStdChunk` on the layout `2006-01-02`: each
element with the literal text before it. -/
def dateChunks : List (List Char × StdChunk) :=
  [([], StdChunk.stdLongYear), (['-'], StdChunk.stdZeroMonth), (['-'], StdChunk.stdZeroDay)]

/-- The successive results of `nextStdChunk` on `2006-01-02 15:04:05`. -/
def timestampChunks : List (List Char × StdChunk) :=
  dateChunks ++
    [([' '], StdChunk.stdHour), ([':'], StdChunk.stdZeroMinute), ([':'], StdChunk.stdZeroSecond)]

/-- The elements of a layout and the literal text after the last one; only the
two layouts of the dialect are covered. -/
def layoutChunks (layout : String) : Option (List (List Char × StdChunk) × List Char) :=
  if layout = "2006-01-02" then some (dateChunks, [])
  else if layout = "2006-01-02 15:04:05" then some (timestampChunks, [])
  else none

/-- The local variables of `parse` that the two layouts can set, with their
initial values. -/
structure ParseFields where
  year : Int := 0
  month : Int := -1
  day : Int := -1
  hour : Int := 0
  min : Int := 0
  sec : Int := 0
  nsec : Int := 0
  deriving DecidableEq, Repr

/-- The function `commaOrPeriod`. -/
def commaOrPeriod (c : Char) : Bool := c = '.' || c = ','

/-- The function `parseNanoseconds value nbytes`: the digits after the
separator, at most nine of them, scaled to nanoseconds. -/
def parseNanoseconds (value : List Char) (nbytes : Nat) : Option Int :=
  match value with
  | [] => none
  | c :: _ =>
    if commaOrPeriod c then
      let nbytes := if nbytes > 10 then 10 else nbytes
      match atoi ((value.take nbytes).drop 1) with
      | some ns => if ns < 0 then none else some (ns * 10 ^ (10 - nbytes))
      | none => none
    else none

/-- One turn of the loop of `parse`, after the literal text has been skipped:
the case of the `switch` for the element.  `none` stands for a return with a
`*ParseError` (bad syntax or a value out of range). -/
def parseStd (std : StdChunk) (f : ParseFields) (value : List Char) :
    Option (ParseFields × List Char) :=
  match std with
  | StdChunk.stdLongYear =>
    if value.length < 4 ∨ ¬ (value.head?.any isDigit = true) then none
    else
      match atoi (value.take 4) with
      | some y => some ({ f with year := y }, value.drop 4)
      | none => none
  | StdChunk.stdZeroMonth =>
    match getnum value true with
    | some (m, value) => if m ≤ 0 ∨ 12 < m then none else some ({ f with month := m }, value)
    | none => none
  | StdChunk.stdZeroDay =>
    match getnum value true with
    | some (d, value) => some ({ f with day := d }, value)
    | none => none
  | StdChunk.stdHour =>
    match getnum value false with
    | some (h, value) => if h < 0 ∨ 24 ≤ h then none else some ({ f with hour := h }, value)
    | none => none
  | StdChunk.stdZeroMinute =>
    match getnum value true with
    | some (m, value) => if m < 0 ∨ 60 ≤ m then none else some ({ f with min := m }, value)
    | none => none
  | StdChunk.stdZeroSecond =>
    match getnum value true with
    | none => none
    | some (sec, value) =>
      if sec < 0 ∨ 60 ≤ sec then none
      else
        match value with
        | c :: d :: rest =>
          if commaOrPeriod c && isDigit d then
            -- a fractional second in the input that the layout does not have
            let n := 2 + digitRun rest
            match parseNanoseconds value n with
            | some ns => some ({ f with sec := sec, nsec := ns }, value.drop n)
            | none => none
          else some ({ f with sec := sec }, value)
        | _ => some ({ f with sec := sec }, value)

/-- The loop of `parse` over the elements of the layout. -/
def parseLoop : List (List Char × StdChunk) → ParseFields → List Char →
    Option (ParseFields × List Char)
  | [], f, value => some (f, value)
  | (lit, std) :: rest, f, value =>
    match skipFrom false value lit with
    | none => none
    | some value =>
      match parseStd std f value with
      | none => none
      | some (f, value) => parseLoop rest f value

/-- The function `isLeap`. -/
def isLeap (year : Int) : Bool :=
  year % 4 == 0 && (year % 100 != 0 || year % 400 == 0)

/-- The table `daysBefore`. -/
def daysBefore : List Int := [0, 31, 59, 90, 120, 151, 181, 212, 243, 273, 304, 334, 365]

/-- The function `daysIn`, for a month between 1 and 12. -/
def daysIn (m : Int) (year : Int) : Int :=
  if m = 2 ∧ isLeap year = true then 29
  else daysBefore.getD m.toNat 0 - daysBefore.getD (m.toNat - 1) 0

/-- The zero `Time`: January 1 of year 1, 00:00:00 UTC. -/
def zeroTime : Time :=
  { year := 1, month := 1, day := 1, hour := 0, minute := 0, second := 0, nanosecond := 0 }

/-- The error of a failed `time.Parse`. -/
def parseError : Error := Error.foreign "parsing time: cannot parse"

/-- The function `time.Parse layout value` for the two layouts: the loop over
the layout, the check that no text is left, the check of the day against the
month, and `Date` in UTC (no normalisation happens, the fields being in
range). -/
def goTimeParse (layout value : String) : Time × Option Error :=
  match layoutChunks layout with
  | none => (zeroTime, some (Error.foreign "layout outside the model"))
  | some (chunks, tail) =>
    match parseLoop chunks {} value.data with
    | none => (zeroTime, some parseError)
    | some (f, rest) =>
      match skipFrom false rest tail with
      | none => (zeroTime, some parseError)
      | some rest =>
        if rest ≠ [] then (zeroTime, some parseError)
        else if f.day < 1 ∨ f.day > daysIn f.month f.year then (zeroTime, some parseError)
        else
          ({ year := f.year, month := f.month, day := f.day, hour := f.hour,
             minute := f.min, second := f.sec, nanosecond := f.nsec }, none)

/-- The digit character of a number below ten: `'0' + u`. -/
def utod (u : Nat) : Char := Char.ofNat ('0'.toNat + u)

/-- The function `appendInt x width`: the decimal form of `x`, zero-padded to
`width`, with the two short cuts for widths 2 and 4. -/
def appendInt (x : Int) (width : Nat) : List Char :=
  let sign : List Char := if x < 0 then ['-'] else []
  let u := x.natAbs
  if width = 2 ∧ u < 100 then sign ++ [utod (u / 10), utod (u % 10)]
  else if width = 4 ∧ u < 10000 then
    sign ++ [utod (u / 1000), utod (u / 100 % 10), utod (u / 10 % 10), utod (u % 10)]
  else sign ++ List.replicate (width - (Nat.repr u).length) '0' ++ (Nat.repr u).data

/-- The method `Time.Format layout` for `time.RFC3339` and a time in UTC:
year, month and day, `T`, hour, minute and second, and `Z` for the zero
offset.  Other layouts are outside the model. -/
def goTimeFormat (t : Time) (layout : String) : String :=
  if layout = RFC3339 then
    String.mk (appendInt t.year 4 ++ ['-'] ++ appendInt t.month 2 ++ ['-'] ++ appendInt t.day 2
      ++ ['T'] ++ appendInt t.hour 2 ++ [':'] ++ appendInt t.minute 2 ++ [':']
      ++ appendInt t.second 2 ++ ['Z'])
  else ""

/-- A standard library whose time parser and formatter are the ones above. -/
def withGoTime (std : Stdlib) : Stdlib :=
  { std with timeParse := goTimeParse, timeFormat := goTimeFormat }

/-! ## The standard library's float parser

The parts of package `strconv` that `ParseFloat(s, 64)` runs: `special`,
`readFloat`, `underscoreOK`, `atofHex`, and the conversion of a decimal to the
bits of a `float64`.  Go reaches the bits of a decimal through a fast path and
a multiprecision fallback that both give the `float64` nearest to the decimal
value, ties to even; here that value is computed with exact integer
arithmetic from all the digits of the text (the fallback of Go keeps the first
800 significant digits and notes whether a later one is non-zero).  A
`*NumError` is one of two error values (syntax, range); its text is not
modelled. -/

/-- The function `lower` of package `strconv`: `c | ('x' - 'X')`, as a code. -/
def lowerCode (c : Char) : Nat := c.toNat ||| 0x20

/-- The function `commonPrefixLenIgnoreCase s pre`, for a lower-case `pre`. -/
def commonPrefixLenIgnoreCase : List Char → List Char → Nat
  | [], _ => 0
  | _, [] => 0
  | c :: s, p :: pre =>
    let c := if 'A'.toNat ≤ c.toNat ∧ c.toNat ≤ 'Z'.toNat then Char.ofNat (c.toNat + 32) else c
    if c = p then commonPrefixLenIgnoreCase s pre + 1 else 0

/-- The bits of `math.Inf(sign)`. -/
def infBits (neg : Bool) : Nat :=
  if neg then 0xFFF0000000000000 else 0x7FF0000000000000

/-- The bits of `math.NaN()`. -/
def nanBits : Nat := 0x7FF8000000000001

/-- The case `'i', 'I'` of `special`: the text starts with `inf` or with
`infinity`; the result is the infinity and the text left over. -/
def specialInf (neg : Bool) (s : List Char) : Option (Float64 × List Char) :=
  let n := commonPrefixLenIgnoreCase s "infinity".data
  let n := if 3 < n ∧ n < 8 then 3 else n
  if n = 3 ∨ n = 8 then some ({ bits := infBits neg }, s.drop n) else none

/-- The function `special`: an optionally signed infinity or a NaN at the head
of the text, with the text left over. -/
def special (s : List Char) : Option (Float64 × List Char) :=
  match s with
  | [] => none
  | c :: rest =>
    if c = '+' ∨ c = '-' then specialInf (decide (c = '-')) rest
    else if c = 'i' ∨ c = 'I' then specialInf false (c :: rest)
    else if c = 'n' ∨ c = 'N' then
      if commonPrefixLenIgnoreCase (c :: rest) "nan".data = 3 then
        some ({ bits := nanBits }, rest.drop 2)
      else none
    else none

/-- The loop of `underscoreOK`; `saw` is the class of the last character:
`'0'` a digit or the base mark, `'_'` an underscore, `'!'` anything else,
`'^'` the start. -/
def underscoreScan (hex : Bool) : Char → List Char → Bool
  | saw, [] => saw ≠ '_'
  | saw, c :: rest =>
    if isDigit c = true ∨
        (hex = true ∧ 'a'.toNat ≤ lowerCode c ∧ lowerCode c ≤ 'f'.toNat) then
      underscoreScan hex '0' rest
    else if c = '_' then
      if saw ≠ '0' then false else underscoreScan hex '_' rest
    else if saw = '_' then false
    else underscoreScan hex '!' rest

/-- The function `underscoreOK`: underscores stand only between digits, or
between the base mark and a digit. -/
def underscoreOK (s : List Char) : Bool :=
  let s := if s.head? = some '-' ∨ s.head? = some '+' then s.tail else s
  match s with
  | c0 :: c1 :: rest =>
    if c0 = '0' ∧ (lowerCode c1 = 'b'.toNat ∨ lowerCode c1 = 'o'.toNat ∨
        lowerCode c1 = 'x'.toNat) then
      underscoreScan (decide (lowerCode c1 = 'x'.toNat)) '0' rest
    else underscoreScan false '^' s
  | _ => underscoreScan false '^' s

/-- The local variables of the digit loop of `readFloat`; `full` is the number
written by all the digits counted in `nd` (what `decimal.set` keeps in its
digit buffer). -/
structure FloatScan where
  mantissa : Nat := 0
  full : Nat := 0
  nd : Nat := 0
  ndMant : Nat := 0
  dp : Int := 0
  trunc : Bool := false
  sawdot : Bool := false
  sawdigits : Bool := false
  underscores : Bool := false
  deriving DecidableEq, Repr

/-- The digit loop of `readFloat`, up to the first character that is not part
of the mantissa; the result is the state and the text from that character
on. -/
def scanMantissa (base maxMantDigits : Nat) : FloatScan → List Char → FloatScan × List Char
  | st, [] => (st, [])
  | st, c :: rest =>
    if c = '_' then scanMantissa base maxMantDigits { st with underscores := true } rest
    else if c = '.' then
      if st.sawdot then (st, c :: rest)
      else scanMantissa base maxMantDigits { st with sawdot := true, dp := st.nd } rest
    else if isDigit c then
      if c = '0' ∧ st.nd = 0 then
        scanMantissa base maxMantDigits { st with sawdigits := true, dp := st.dp - 1 } rest
      else if st.ndMant < maxMantDigits then
        scanMantissa base maxMantDigits
          { st with sawdigits := true, nd := st.nd + 1, full := st.full * base + digitVal c,
                    mantissa := st.mantissa * base + digitVal c, ndMant := st.ndMant + 1 } rest
      else
        scanMantissa base maxMantDigits
          { st with sawdigits := true, nd := st.nd + 1, full := st.full * base + digitVal c,
                    trunc := st.trunc || decide (c ≠ '0') } rest
    else if base = 16 ∧ 'a'.toNat ≤ lowerCode c ∧ lowerCode c ≤ 'f'.toNat then
      if st.ndMant < maxMantDigits then
        scanMantissa base maxMantDigits
          { st with sawdigits := true, nd := st.nd + 1,
                    full := st.full * base + (lowerCode c - 'a'.toNat + 10),
                    mantissa := st.mantissa * 16 + (lowerCode c - 'a'.toNat + 10),
                    ndMant := st.ndMant + 1 } rest
      else
        scanMantissa base maxMantDigits
          { st with sawdigits := true, nd := st.nd + 1,
                    full := st.full * base + (lowerCode c - 'a'.toNat + 10),
                    trunc := true } rest
    else (st, c :: rest)

/-- The exponent loop of `readFloat`: digits and underscores; the exponent
stops growing once it has reached 10000.  The result is the exponent, whether
an underscore was seen, and the text left over. -/
def scanExponent : Nat → Bool → List Char → Nat × Bool × List Char
  | e, u, [] => (e, u, [])
  | e, u, c :: rest =>
    if c = '_' then scanExponent e true rest
    else if isDigit c then scanExponent (if e < 10000 then e * 10 + digitVal c else e) u rest
    else (e, u, c :: rest)

/-- The results of `readFloat`, with the text left over in place of the count
of characters read, and with `full`, `nd` and `dp` for the decimal
conversion. -/
structure FloatRead where
  mantissa : Nat
  exp : Int
  neg : Bool
  trunc : Bool
  hex : Bool
  full : Nat
  nd : Nat
  dp : Int
  rest : List Char
  deriving DecidableEq, Repr

/-- The function `readFloat`; `none` when it reports `ok = false`. -/
def readFloat (s : List Char) : Option FloatRead :=
  match s with
  | [] => none
  | c0 :: _ =>
    let neg := decide (c0 = '-')
    let s1 := if c0 = '+' ∨ c0 = '-' then s.tail else s
    let hex : Bool :=
      match s1 with
      | a :: b :: _ :: _ => decide (a = '0' ∧ lowerCode b = 'x'.toNat)
      | _ => false
    let base : Nat := if hex then 16 else 10
    let maxMantDigits : Nat := if hex then 16 else 19
    let expCode : Nat := if hex then 'p'.toNat else 'e'.toNat
    let s2 := if hex then s1.drop 2 else s1
    let (st, rest) := scanMantissa base maxMantDigits {} s2
    if !st.sawdigits then none
    else
      let dp0 : Int := if st.sawdot then st.dp else st.nd
      let dp1 : Int := if hex then dp0 * 4 else dp0
      let ndMant : Nat := if hex then st.ndMant * 4 else st.ndMant
      -- the optional exponent
      let tail : Option (Int × Bool × List Char) :=
        match rest with
        | c :: r =>
          if lowerCode c = expCode then
            match r with
            | [] => none
            | d :: r2 =>
              let esign : Int := if d = '-' then -1 else 1
              let r3 := if d = '+' ∨ d = '-' then r2 else d :: r2
              match r3 with
              | [] => none
              | x :: _ =>
                if isDigit x then
                  let (e, u, r4) := scanExponent 0 st.underscores r3
                  some (dp1 + (e : Int) * esign, u, r4)
                else none
          else if hex then none
          else some (dp1, st.underscores, rest)
        | [] => if hex then none else some (dp1, st.underscores, rest)
      match tail with
      | none => none
      | some (dp, underscores, rest) =>
        if underscores ∧ underscoreOK (s.take (s.length - rest.length)) = false then none
        else
          some { mantissa := st.mantissa,
                 exp := if st.mantissa ≠ 0 then dp - ndMant else 0,
                 neg := neg, trunc := st.trunc, hex := hex,
                 full := st.full, nd := st.nd, dp := dp, rest := rest }

/-- The quotient of `a` by `b` rounded to the nearest integer, a tie going to
the even one. -/
def divRoundEven (a b : Nat) : Nat :=
  let q := a / b
  let r := a % b
  if 2 * r > b ∨ (2 * r = b ∧ q % 2 = 1) then q + 1 else q

/-- The number of binary digits of `n`; `fuel` bounds the number of
halvings. -/
def bitLength : Nat → Nat → Nat
  | 0, _ => 0
  | fuel + 1, n => if n = 0 then 0 else bitLength fuel (n / 2) + 1

/-- The bits, without the sign, of the `float64` nearest to the positive
rational `num / den` (ties to even), and whether it overflows to infinity. -/
def nearestFloat64 (num den : Nat) : Nat × Bool :=
  -- position of the leading bit of the quotient: 2^fl ≤ num/den < 2^(fl+1)
  let l : Int := (bitLength num num : Int) - (bitLength den den : Int)
  let ge : Bool := if l ≥ 0 then decide (num ≥ den * 2 ^ l.toNat)
                   else decide (num * 2 ^ (-l).toNat ≥ den)
  let fl : Int := if ge then l else l - 1
  -- exponent of the last place, not below that of the denormals
  let e : Int := if fl - 52 < -1074 then -1074 else fl - 52
  let q : Nat := if e ≥ 0 then divRoundEven num (den * 2 ^ e.toNat)
                 else divRoundEven (num * 2 ^ (-e).toNat) den
  let (q, e) : Nat × Int := if q = 2 ^ 53 then (2 ^ 52, e + 1) else (q, e)
  if q < 2 ^ 52 then (q, false)
  else if e + 1075 ≥ 2047 then (infBits false, true)
  else ((e + 1075).toNat * 2 ^ 52 + (q - 2 ^ 52), false)

/-- The bits of the decimal that `readFloat` has read, as `decimal.floatBits`
gives them: zero for no digits, infinity or zero beyond the obvious bounds,
and the nearest `float64` otherwise; with the overflow flag. -/
def decimalBits (r : FloatRead) : Nat × Bool :=
  let sign : Nat := if r.neg then 2 ^ 63 else 0
  if r.nd = 0 then (sign, false)
  else if r.dp > 310 then (sign + infBits false, true)
  else if r.dp < -330 then (sign, false)
  else
    let e10 : Int := r.dp - r.nd
    let (b, ovf) := if e10 ≥ 0 then nearestFloat64 (r.full * 10 ^ e10.toNat) 1
                    else nearestFloat64 r.full (10 ^ (-e10).toNat)
    (sign + b, ovf)

/-- The first loop of `atofHex`: shift left until the leading 1 stands at bit
54. -/
def hexShiftUp : Nat → Nat → Int → Nat × Int
  | 0, m, e => (m, e)
  | fuel + 1, m, e =>
    if m ≠ 0 ∧ m >>> 54 = 0 then hexShiftUp fuel (m <<< 1) (e - 1) else (m, e)

/-- The second loop of `atofHex`: shift right, keeping a sticky low bit, until
nothing stands above bit 54. -/
def hexShiftDown : Nat → Nat → Int → Nat × Int
  | 0, m, e => (m, e)
  | fuel + 1, m, e =>
    if m >>> 55 ≠ 0 then hexShiftDown fuel (m >>> 1 ||| m &&& 1) (e + 1) else (m, e)

/-- The third loop of `atofHex`: denormalize while the exponent is too small. -/
def hexDenormalize : Nat → Nat → Int → Nat × Int
  | 0, m, e => (m, e)
  | fuel + 1, m, e =>
    if m > 1 ∧ e < -1022 - 2 then hexDenormalize fuel (m >>> 1 ||| m &&& 1) (e + 1)
    else (m, e)

/-- The function `atofHex` for `float64`: the bits and the overflow flag. -/
def atofHex (r : FloatRead) : Nat × Bool :=
  let exp0 : Int := r.exp + 52
  let (m1, e1) := hexShiftUp 64 r.mantissa exp0
  let m2 := if r.trunc then m1 ||| 1 else m1
  let (m3, e3) := hexShiftDown 64 m2 e1
  let (m4, e4) := hexDenormalize 64 m3 e3
  let round := (m4 &&& 3) ||| ((m4 >>> 2) &&& 1)
  let m5 := m4 >>> 2
  let e5 := e4 + 2
  let (m6, e6) : Nat × Int :=
    if round = 3 then
      if m5 + 1 = 2 ^ 53 then ((m5 + 1) >>> 1, e5 + 1) else (m5 + 1, e5)
    else (m5, e5)
  let e7 : Int := if m6 >>> 52 = 0 then -1023 else e6
  let ovf : Bool := decide (e7 > 1023)
  let m8 : Nat := if ovf then 2 ^ 52 else m6
  let e8 : Int := if ovf then 1024 else e7
  let sign : Nat := if r.neg then 2 ^ 63 else 0
  (sign + ((e8 + 1023).toNat % 2 ^ 11) * 2 ^ 52 + m8 % 2 ^ 52, ovf)

/-- The error of `ParseFloat` for a text that is not a number. -/
def errSyntax : Error := Error.foreign "strconv.ParseFloat: invalid syntax"

/-- The error of `ParseFloat` for a number too large for a `float64`. -/
def errRange : Error := Error.foreign "strconv.ParseFloat: value out of range"

/-- The function `strconv.ParseFloat s bitSize` for the 64-bit case (every
`bitSize` but 32): a special value, or the number read by `readFloat`, and a
syntax error unless the whole text was read. -/
def goParseFloat (s : String) (bitSize : Nat) : Float64 × Option Error :=
  if bitSize = 32 then ({ bits := 0 }, some (Error.foreign "strconv.ParseFloat: bit size 32 is not modelled"))
  else
    match special s.data with
    | some (f, rest) => if rest = [] then (f, none) else ({ bits := 0 }, some errSyntax)
    | none =>
      match readFloat s.data with
      | none => ({ bits := 0 }, some errSyntax)
      | some r =>
        if r.rest ≠ [] then ({ bits := 0 }, some errSyntax)
        else
          let (bits, ovf) := if r.hex then atofHex r else decimalBits r
          ({ bits := bits }, if ovf then some errRange else none)

/-- The sign bit of a `float64`. -/
def Float64.negative (f : Float64) : Bool := decide (f.bits / 2 ^ 63 % 2 = 1)

/-- The exponent field of a `float64`: 11 bits. -/
def Float64.exponentField (f : Float64) : Nat := f.bits / 2 ^ 52 % 2 ^ 11

/-- The integer significand of a finite `float64`: the 52 fraction bits, with
the implicit leading 1 unless the number is denormal. -/
def Float64.significand (f : Float64) : Nat :=
  if f.exponentField = 0 then f.bits % 2 ^ 52 else 2 ^ 52 + f.bits % 2 ^ 52

/-- The exponent of the last place of a finite `float64`: its magnitude is
`significand * 2 ^ exponent`. -/
def Float64.exponent (f : Float64) : Int :=
  (if f.exponentField = 0 then 1 else (f.exponentField : Int)) - 1075

/-- A standard library whose float parser is the one above. -/
def withGoFloat (std : Stdlib) : Stdlib :=
  { std with ParseFloat := goParseFloat }

/-! ## Auxiliary definitions: dates and times as the claims word them -/

/-- The number of days of a month in the Gregorian calendar. -/
def monthLength (year month : Nat) : Nat :=
  if month = 2 then
    if (year % 4 = 0 ∧ year % 100 ≠ 0) ∨ year % 400 = 0 then 29 else 28
  else if month = 4 ∨ month = 6 ∨ month = 9 ∨ month = 11 then 30
  else 31

/-- A valid calendar date written as `YYYY-MM-DD`: ten characters, digits
around two hyphens, a month from 01 to 12 and a day of that month. -/
def isCalendarDate (s : List Char) : Bool :=
  match s with
  | [y1, y2, y3, y4, h1, m1, m2, h2, d1, d2] =>
    isDigit y1 && isDigit y2 && isDigit y3 && isDigit y4 && h1 == '-' &&
    isDigit m1 && isDigit m2 && h2 == '-' && isDigit d1 && isDigit d2 &&
    decide (1 ≤ digitVal m1 * 10 + digitVal m2 ∧ digitVal m1 * 10 + digitVal m2 ≤ 12 ∧
      1 ≤ digitVal d1 * 10 + digitVal d2 ∧
      digitVal d1 * 10 + digitVal d2 ≤
        monthLength (((digitVal y1 * 10 + digitVal y2) * 10 + digitVal y3) * 10 + digitVal y4)
          (digitVal m1 * 10 + digitVal m2))
  | _ => false

/-- A valid time of day written as `HH:MM:SS`: an hour from 00 to 23, a minute
and a second from 00 to 59. -/
def isClockTime (s : List Char) : Bool :=
  match s with
  | [h1, h2, c1, m1, m2, c2, s1, s2] =>
    isDigit h1 && isDigit h2 && c1 == ':' && isDigit m1 && isDigit m2 && c2 == ':' &&
    isDigit s1 && isDigit s2 &&
    decide (digitVal h1 * 10 + digitVal h2 ≤ 23 ∧ digitVal m1 * 10 + digitVal m2 ≤ 59 ∧
      digitVal s1 * 10 + digitVal s2 ≤ 59)
  | _ => false

/-- A valid date and time written as `YYYY-MM-DD HH:MM:SS`: a calendar date,
one space and a time of day. -/
def isTimestamp (s : List Char) : Bool :=
  isCalendarDate (s.take 10) && (s.drop 10).head? == some ' ' && isClockTime (s.drop 11)

/-! ## Auxiliary definitions: placeholders in a text -/

/-- The number of the placeholder that starts at position `i` of a text: the
digits that follow the marker (`$` in a query, `:` in the rewritten text) when
the marker stands at `i` and at least one digit follows it. -/
def placeholderAt (marker : Char) (s : List Char) (i : Nat) : Option (List Char) :=
  match s.drop i with
  | [] => none
  | c :: rest =>
    if c = marker ∧ 1 ≤ digitRun rest then some (rest.take (digitRun rest)) else none

/-- What `time.Parse` lets follow the seconds: nothing, or a period or a comma
and one or more digits. -/
def isFraction (s : List Char) : Bool :=
  match s with
  | [] => true
  | c :: rest => (c == '.' || c == ',') && !rest.isEmpty && rest.all isDigit

/-- A minute and a second from 00 to 59 written as `MM:SS`, with a fraction of
a second or nothing after them. -/
def isMinuteSecond (s : List Char) : Bool :=
  match s with
  | m1 :: m2 :: c :: s1 :: s2 :: frac =>
    isDigit m1 && isDigit m2 && c == ':' && isDigit s1 && isDigit s2 &&
    decide (digitVal m1 * 10 + digitVal m2 ≤ 59 ∧ digitVal s1 * 10 + digitVal s2 ≤ 59) &&
    isFraction frac
  | _ => false

/-- A time of day in the wider form that `time.Parse` takes for `15:04:05`: an
hour of one or two digits, at most 23, a colon, and `MM:SS` with an optional
fraction of a second. -/
def isLenientClock (s : List Char) : Bool :=
  match s with
  | h1 :: c :: rest =>
    if c = ':' then isDigit h1 && isMinuteSecond rest
    else
      match rest with
      | c2 :: rest2 =>
        isDigit h1 && isDigit c && c2 == ':' && decide (digitVal h1 * 10 + digitVal c ≤ 23) &&
        isMinuteSecond rest2
      | [] => false
  | _ => false

/-- A date and time in the wider form that `time.Parse` takes for
`2006-01-02 15:04:05`: a calendar date, one or more spaces, and a time of day
as above. -/
def isGoTimestamp (s : List Char) : Bool :=
  isCalendarDate (s.take 10) && (s.drop 10).head? == some ' ' &&
    isLenientClock (cutspace (s.drop 10))

/-- The `HH:MM:SS` of a time of day in the wider form: the hour on two digits,
the minute and the second as written, the fraction left out. -/
def clockText (s : List Char) : List Char :=
  match s with
  | h1 :: c :: rest =>
    if c = ':' then '0' :: h1 :: ':' :: rest.take 5 else h1 :: c :: rest.take 6
  | _ => []

/-! ## Concrete data for instantiating the theorems -/

/-- A field with no member set. -/
def emptyField : Field :=
  { ArrayValue := none, BlobValue := none, BooleanValue := none, DoubleValue := none,
    IsNull := none, LongValue := none, StringValue := none }

/-- The wire form of one scalar, `none` for a kind that has none (here: a
time). -/
def exampleEncodeValue : DriverValue → Option Field
  | DriverValue.null => some { emptyField with IsNull := some true }
  | DriverValue.int64 i => some { emptyField with LongValue := some i }
  | DriverValue.float64 f => some { emptyField with DoubleValue := some f }
  | DriverValue.bool b => some { emptyField with BooleanValue := some b }
  | DriverValue.bytes b => some { emptyField with BlobValue := some b }
  | DriverValue.string s => some { emptyField with StringValue := some s }
  | DriverValue.time _ => none

/-- An encoder in the shape of `ConvertNamedValues`: it keeps the names and
fails as soon as a value has no wire form. -/
def exampleEncoder : Encoder
  | [] => ([], none)
  | a :: rest =>
    match exampleEncodeValue a.Value with
    | none => ([], some (Error.foreign "unsupported type"))
    | some f =>
      match exampleEncoder rest with
      | (ps, none) => ({ Name := some a.Name, TypeHint := none, Value := some f } :: ps, none)
      | (_, some e) => ([], some e)

/-- A named parameter and a nameless one of negative ordinal: no positive
ordinal at all. -/
def exampleUnnumberedArgs : List NamedValue :=
  [{ Name := "id", Ordinal := 0, Value := DriverValue.int64 7 },
   { Name := "", Ordinal := -1, Value := DriverValue.string "x" }]

/-- Two nameless parameters with the ordinals 1 and 2. -/
def exampleOrdinalArgs : List NamedValue :=
  [{ Name := "", Ordinal := 1, Value := DriverValue.int64 7 },
   { Name := "", Ordinal := 2, Value := DriverValue.string "x" }]

/-- A stand-in for the standard library, used only where a theorem is applied
to concrete data: the case table leaves the runes above ASCII alone, and the
parsers reject every text. -/
def exampleStdlib : Stdlib :=
  { caseTable := fun c => c
    ParseFloat := fun _ _ => ({ bits := 0 }, some (Error.foreign "invalid syntax"))
    timeParse := fun _ _ =>
      ({ year := 1, month := 1, day := 1, hour := 0, minute := 0, second := 0, nanosecond := 0 },
       some (Error.foreign "cannot parse"))
    timeFormat := fun _ _ => "" }

/-- A field holding the integer 42. -/
def exampleLongField : Field := { emptyField with LongValue := some 42 }

/-- The field of a SQL NULL: `IsNull` is true and no value member is set. -/
def nullField : Field := { emptyField with IsNull := some true }

/-- Three nameless parameters with the ordinals 1, 0 and -1. -/
def exampleSparseArgs : List NamedValue :=
  [{ Name := "", Ordinal := 1, Value := DriverValue.int64 7 },
   { Name := "", Ordinal := 0, Value := DriverValue.string "x" },
   { Name := "", Ordinal := -1, Value := DriverValue.bool true }]

theorem hasNamed_iff (args : List NamedValue) :
    hasNamed args = true ↔ ∃ a ∈ args, a.Name ≠ "" := by
  simp [hasNamed]

theorem hasOrdinal_iff (args : List NamedValue) :
    hasOrdinal args = true ↔ ∃ a ∈ args, a.Ordinal > 0 := by
  simp [hasOrdinal]

theorem scanArgs_cons_flags (a : NamedValue) (rest : List NamedValue) (o n : Bool) :
    scanArgs (a :: rest) o n =
      if ((n || decide (a.Name ≠ "")) && (o || decide (a.Ordinal > 0))) = true then none
      else scanArgs rest (o || decide (a.Ordinal > 0)) (n || decide (a.Name ≠ "")) := by
  by_cases h1 : a.Name = "" <;> by_cases h2 : a.Ordinal > 0 <;>
    cases o <;> cases n <;> simp [scanArgs, h1, h2]

theorem scanArgs_eq (args : List NamedValue) (o n : Bool) :
    scanArgs args o n =
      if (!args.isEmpty && (n || hasNamed args) && (o || hasOrdinal args)) = true then none
      else some (o || hasOrdinal args, n || hasNamed args) := by
  induction args generalizing o n with
  | nil => simp [scanArgs, hasNamed, hasOrdinal]
  | cons a rest ih =>
    rw [scanArgs_cons_flags, ih]
    have hN : hasNamed (a :: rest) = (decide (a.Name ≠ "") || hasNamed rest) := by
      simp [hasNamed]
    have hO : hasOrdinal (a :: rest) = (decide (a.Ordinal > 0) || hasOrdinal rest) := by
      simp [hasOrdinal]
    rw [hN, hO]
    cases rest with
    | nil =>
      have h1 : hasNamed [] = false := rfl
      have h2 : hasOrdinal [] = false := rfl
      rw [h1, h2]
      generalize decide (a.Name ≠ "") = x
      generalize decide (a.Ordinal > 0) = y
      cases o <;> cases n <;> cases x <;> cases y <;> rfl
    | cons b rest2 =>
      generalize hasNamed (b :: rest2) = u
      generalize hasOrdinal (b :: rest2) = v
      generalize decide (a.Name ≠ "") = x
      generalize decide (a.Ordinal > 0) = y
      cases o <;> cases n <;> cases x <;> cases y <;> cases u <;> cases v <;> rfl

theorem scanArgs_start (args : List NamedValue) :
    scanArgs args false false =
      if (hasNamed args && hasOrdinal args) = true then none
      else some (hasOrdinal args, hasNamed args) := by
  rw [scanArgs_eq]
  cases args with
  | nil => simp [hasNamed, hasOrdinal]
  | cons a rest => simp

/-- The early return of the style check. -/
theorem MigrateQuery_mixed (enc : Encoder) (query : String) (args : List NamedValue)
    (hn : hasNamed args = true) (ho : hasOrdinal args = true) :
    MigrateQuery enc query args = (none, some Error.ErrNoMixedParams) := by
  simp [MigrateQuery, scanArgs_start, hn, ho]

/-- The branch `if ordinal`. -/
theorem MigrateQuery_ordinal (enc : Encoder) (query : String) (args : List NamedValue)
    (hn : hasNamed args = false) (ho : hasOrdinal args = true) :
    MigrateQuery enc query args =
      (some { Parameters := (enc (renameArgs args)).1,
              Sql := ReplaceAllStringFunc postgresRegex query (fun s => Replace s '$' [':'] 1) },
       (enc (renameArgs args)).2) := by
  simp [MigrateQuery, scanArgs_start, hn, ho]

/-- The final return, reached when no parameter has a positive ordinal. -/
theorem MigrateQuery_plain (enc : Encoder) (query : String) (args : List NamedValue)
    (ho : hasOrdinal args = false) :
    MigrateQuery enc query args =
      (some { Parameters := (enc args).1, Sql := query }, (enc args).2) := by
  simp [MigrateQuery, scanArgs_start, ho]

theorem exampleEncoder_err (l : List NamedValue) :
    (exampleEncoder l).2 ≠ some Error.ErrNoMixedParams := by
  induction l with
  | nil => simp [exampleEncoder]
  | cons a rest ih =>
    unfold exampleEncoder
    cases exampleEncodeValue a.Value with
    | none => simp
    | some f =>
      rcases h : exampleEncoder rest with ⟨ps, _ | e⟩
      · simp
      · rw [h] at ih
        simpa using ih

theorem hasOrdinal_eq_false (args : List NamedValue) (h : ∀ a ∈ args, ¬ a.Ordinal > 0) :
    hasOrdinal args = false := by
  cases hb : hasOrdinal args with
  | false => rfl
  | true =>
    obtain ⟨a, ha, hpos⟩ := (hasOrdinal_iff args).1 hb
    exact absurd hpos (h a ha)

theorem hasNamed_eq_false (args : List NamedValue) (h : ∀ a ∈ args, a.Name = "") :
    hasNamed args = false := by
  cases hb : hasNamed args with
  | false => rfl
  | true =>
    obtain ⟨a, ha, hne⟩ := (hasNamed_iff args).1 hb
    exact absurd (h a ha) hne

theorem renameArgs_length (args : List NamedValue) :
    (renameArgs args).length = args.length := by
  simp [renameArgs]

theorem renameArgs_names (args : List NamedValue) :
    (renameArgs args).map (fun a => a.Name) = args.map (fun a => Itoa a.Ordinal) := by
  simp [renameArgs]

theorem renameArgs_values (args : List NamedValue) :
    (renameArgs args).map (fun a => a.Value) = args.map (fun a => a.Value) := by
  simp [renameArgs]

/-! ## MigrateQuery: the style check -/

/-- C1: a parameter list with at least one named parameter and at least one
parameter of positive ordinal makes `MigrateQuery` return no request and the
error `ErrNoMixedParams`, whatever the query text and the encoder are. -/
theorem MigrateQuery_mixed_rejected (enc : Encoder) (query : String) (args : List NamedValue)
    (hnamed : ∃ a ∈ args, a.Name ≠ "") (hord : ∃ b ∈ args, b.Ordinal > 0) :
    MigrateQuery enc query args = (none, some Error.ErrNoMixedParams) :=
  MigrateQuery_mixed enc query args ((hasNamed_iff args).2 hnamed) ((hasOrdinal_iff args).2 hord)

theorem MigrateQuery_mixed_rejected_witness :
    (∃ a ∈ [({ Name := "id", Ordinal := 0, Value := DriverValue.int64 7 } : NamedValue),
            { Name := "", Ordinal := 2, Value := DriverValue.string "x" }], a.Name ≠ "") ∧
    (∃ b ∈ [({ Name := "id", Ordinal := 0, Value := DriverValue.int64 7 } : NamedValue),
            { Name := "", Ordinal := 2, Value := DriverValue.string "x" }], b.Ordinal > 0) ∧
    MigrateQuery exampleEncoder "SELECT * FROM t WHERE a=:id AND b=$2"
      [{ Name := "id", Ordinal := 0, Value := DriverValue.int64 7 },
       { Name := "", Ordinal := 2, Value := DriverValue.string "x" }]
      = (none, some Error.ErrNoMixedParams) :=
  ⟨by decide, by decide,
   MigrateQuery_mixed_rejected exampleEncoder "SELECT * FROM t WHERE a=:id AND b=$2"
     [{ Name := "id", Ordinal := 0, Value := DriverValue.int64 7 },
      { Name := "", Ordinal := 2, Value := DriverValue.string "x" }] (by decide) (by decide)⟩

theorem MigrateQuery_named_numbered_rejected (enc : Encoder) (query : String)
    (args : List NamedValue) (hne : args ≠ [])
    (h : ∀ a ∈ args, a.Name ≠ "" ∧ a.Ordinal > 0) :
    MigrateQuery enc query args = (none, some Error.ErrNoMixedParams) := by
  cases args with
  | nil => exact absurd rfl hne
  | cons a rest =>
    have ha := h a (List.mem_cons_self a rest)
    exact MigrateQuery_mixed enc query (a :: rest)
      ((hasNamed_iff _).2 ⟨a, List.mem_cons_self a rest, ha.1⟩)
      ((hasOrdinal_iff _).2 ⟨a, List.mem_cons_self a rest, ha.2⟩)

/-- C2: the code departs from the claim on named parameters that also carry
their position.  The one-element list whose parameter is named "id" and has
ordinal 1 (what `database/sql` builds for a first argument
`sql.Named("id", 7)`) has every element named, mixes nothing, and still
`MigrateQuery` returns no request and `ErrNoMixedParams`, for every encoder:
the one parameter sets both flags of the style check. -/
theorem MigrateQuery_named_with_ordinal_rejected :
    (∀ a ∈ [({ Name := "id", Ordinal := 1, Value := DriverValue.int64 7 } : NamedValue)],
        a.Name ≠ "") ∧
    (∀ a ∈ [({ Name := "id", Ordinal := 1, Value := DriverValue.int64 7 } : NamedValue)],
        a.Ordinal > 0) ∧
    (∀ l, (exampleEncoder l).2 ≠ some Error.ErrNoMixedParams) ∧
    (MigrateQuery exampleEncoder "SELECT * FROM t WHERE a=:id"
      [{ Name := "id", Ordinal := 1, Value := DriverValue.int64 7 }]).2
      = some Error.ErrNoMixedParams ∧
    (∀ enc : Encoder,
      MigrateQuery enc "SELECT * FROM t WHERE a=:id"
          [{ Name := "id", Ordinal := 1, Value := DriverValue.int64 7 }]
        = (none, some Error.ErrNoMixedParams)) :=
  ⟨by decide, by decide, exampleEncoder_err, by decide,
   fun enc => MigrateQuery_named_numbered_rejected enc _ _ (by decide) (by decide)⟩

/-- The lists that the style check lets through: when every parameter has a
non-empty name and a non-positive ordinal, or every parameter has an empty
name and a positive ordinal, `MigrateQuery` returns a request, and its error
is not `ErrNoMixedParams` as long as the encoder does not produce that error
itself. -/
theorem MigrateQuery_consistent_not_mixed (enc : Encoder) (query : String)
    (args : List NamedValue)
    (henc : ∀ l, (enc l).2 ≠ some Error.ErrNoMixedParams)
    (hstyle : (∀ a ∈ args, a.Name ≠ "" ∧ a.Ordinal ≤ 0) ∨
              (∀ a ∈ args, a.Name = "" ∧ a.Ordinal > 0)) :
    (MigrateQuery enc query args).1 ≠ none ∧
    (MigrateQuery enc query args).2 ≠ some Error.ErrNoMixedParams := by
  rcases hstyle with h | h
  · have ho : hasOrdinal args = false :=
      hasOrdinal_eq_false args (fun a ha => not_lt.mpr (h a ha).2)
    rw [MigrateQuery_plain enc query args ho]
    exact ⟨by simp, henc args⟩
  · have hn : hasNamed args = false := hasNamed_eq_false args (fun a ha => (h a ha).1)
    cases ho : hasOrdinal args with
    | false =>
      rw [MigrateQuery_plain enc query args ho]
      exact ⟨by simp, henc args⟩
    | true =>
      rw [MigrateQuery_ordinal enc query args hn ho]
      exact ⟨by simp, henc (renameArgs args)⟩

theorem MigrateQuery_consistent_not_mixed_witness :
    (∀ l, (exampleEncoder l).2 ≠ some Error.ErrNoMixedParams) ∧
    ((∀ a ∈ [({ Name := "", Ordinal := 1, Value := DriverValue.int64 7 } : NamedValue),
             { Name := "", Ordinal := 2, Value := DriverValue.string "x" }],
        a.Name ≠ "" ∧ a.Ordinal ≤ 0) ∨
     (∀ a ∈ [({ Name := "", Ordinal := 1, Value := DriverValue.int64 7 } : NamedValue),
             { Name := "", Ordinal := 2, Value := DriverValue.string "x" }],
        a.Name = "" ∧ a.Ordinal > 0)) ∧
    (MigrateQuery exampleEncoder "SELECT * FROM t WHERE a=$1 AND b=$2"
      [{ Name := "", Ordinal := 1, Value := DriverValue.int64 7 },
       { Name := "", Ordinal := 2, Value := DriverValue.string "x" }]).1 ≠ none ∧
    (MigrateQuery exampleEncoder "SELECT * FROM t WHERE a=$1 AND b=$2"
      [{ Name := "", Ordinal := 1, Value := DriverValue.int64 7 },
       { Name := "", Ordinal := 2, Value := DriverValue.string "x" }]).2
      ≠ some Error.ErrNoMixedParams :=
  ⟨exampleEncoder_err, Or.inr (by decide),
   MigrateQuery_consistent_not_mixed exampleEncoder "SELECT * FROM t WHERE a=$1 AND b=$2"
     [{ Name := "", Ordinal := 1, Value := DriverValue.int64 7 },
      { Name := "", Ordinal := 2, Value := DriverValue.string "x" }]
     exampleEncoder_err (Or.inr (by decide))⟩

/-! ## MigrateQuery: what the encoder receives -/

/-- C3: when every parameter has an empty name and a positive ordinal, there
is one list `L` that `MigrateQuery` passes to the encoder (for every encoder
and query, the request holds the encoder's parameters for `L` and the error is
the encoder's error for `L`); `L` is as long as the input, and its i-th element
is named by the decimal string of the i-th ordinal and carries the i-th
value. -/
theorem MigrateQuery_ordinal_renamed (args : List NamedValue)
    (h : ∀ a ∈ args, a.Name = "" ∧ a.Ordinal > 0) :
    ∃ L : List NamedValue,
      (∀ (enc : Encoder) (query : String), ∃ sql : String,
        MigrateQuery enc query args
          = (some { Parameters := (enc L).1, Sql := sql }, (enc L).2)) ∧
      L.length = args.length ∧
      L.map (fun a => a.Name) = args.map (fun a => Itoa a.Ordinal) ∧
      L.map (fun a => a.Value) = args.map (fun a => a.Value) ∧
      ∀ (i : Nat) (hL : i < L.length) (hA : i < args.length),
        (L.get ⟨i, hL⟩).Name = Itoa (args.get ⟨i, hA⟩).Ordinal ∧
        (L.get ⟨i, hL⟩).Value = (args.get ⟨i, hA⟩).Value := by
  refine ⟨renameArgs args, ?_, renameArgs_length args, renameArgs_names args,
    renameArgs_values args, ?_⟩
  · intro enc query
    have hn : hasNamed args = false := hasNamed_eq_false args (fun a ha => (h a ha).1)
    cases ho : hasOrdinal args with
    | true => exact ⟨_, MigrateQuery_ordinal enc query args hn ho⟩
    | false =>
      cases args with
      | nil => exact ⟨query, MigrateQuery_plain enc query [] ho⟩
      | cons a rest =>
        have hpos : hasOrdinal (a :: rest) = true :=
          (hasOrdinal_iff _).2 ⟨a, List.mem_cons_self a rest, (h a (List.mem_cons_self a rest)).2⟩
        rw [ho] at hpos
        exact absurd hpos (by decide)
  · intro i hL hA
    simp [renameArgs]

theorem MigrateQuery_ordinal_renamed_witness :
    (∀ a ∈ [({ Name := "", Ordinal := 1, Value := DriverValue.int64 7 } : NamedValue),
            { Name := "", Ordinal := 2, Value := DriverValue.string "x" }],
        a.Name = "" ∧ a.Ordinal > 0) ∧
    ∃ L : List NamedValue,
      (∀ (enc : Encoder) (query : String), ∃ sql : String,
        MigrateQuery enc query
            [{ Name := "", Ordinal := 1, Value := DriverValue.int64 7 },
             { Name := "", Ordinal := 2, Value := DriverValue.string "x" }]
          = (some { Parameters := (enc L).1, Sql := sql }, (enc L).2)) ∧
      L.length = 2 ∧
      L.map (fun a => a.Name) = ["1", "2"] ∧
      L.map (fun a => a.Value) = [DriverValue.int64 7, DriverValue.string "x"] := by
  refine ⟨by decide, ?_⟩
  obtain ⟨L, hcall, hlen, hnames, hvalues, _⟩ :=
    MigrateQuery_ordinal_renamed
      [{ Name := "", Ordinal := 1, Value := DriverValue.int64 7 },
       { Name := "", Ordinal := 2, Value := DriverValue.string "x" }] (by decide)
  exact ⟨L, hcall, hlen, hnames.trans (by decide), hvalues⟩

/-- C5: when no parameter has a positive ordinal (all named, no parameter at
all, or nameless parameters of ordinal `≤ 0`), `MigrateQuery` returns a request
whose SQL is the query itself and whose parameters are the encoder's result on
the unchanged parameter list, together with the encoder's error; for the empty
list the encoder is applied to the empty list. -/
theorem MigrateQuery_no_ordinal_untouched (enc : Encoder) (query : String)
    (args : List NamedValue) (h : ∀ a ∈ args, a.Ordinal ≤ 0) :
    MigrateQuery enc query args
        = (some { Parameters := (enc args).1, Sql := query }, (enc args).2) ∧
    (args = [] →
      MigrateQuery enc query args
        = (some { Parameters := (enc []).1, Sql := query }, (enc []).2)) := by
  have ho : hasOrdinal args = false :=
    hasOrdinal_eq_false args (fun a ha => not_lt.mpr (h a ha))
  refine ⟨MigrateQuery_plain enc query args ho, ?_⟩
  intro he
  subst he
  exact MigrateQuery_plain enc query [] ho

theorem MigrateQuery_no_ordinal_untouched_witness :
    (∀ a ∈ exampleUnnumberedArgs, a.Ordinal ≤ 0) ∧
    MigrateQuery exampleEncoder "SELECT $1 FROM t WHERE a=:id" exampleUnnumberedArgs
      = (some { Parameters := (exampleEncoder exampleUnnumberedArgs).1
                Sql := "SELECT $1 FROM t WHERE a=:id" },
         (exampleEncoder exampleUnnumberedArgs).2) :=
  ⟨by decide,
   (MigrateQuery_no_ordinal_untouched exampleEncoder "SELECT $1 FROM t WHERE a=:id"
      exampleUnnumberedArgs (by decide)).1⟩

/-- C6: when `MigrateQuery` does not reject the input as mixed-style, the
encoder is applied to one list, the parameter list itself or its renamed copy,
and its outcome is passed on as it is: for every encoder the request's
parameters are the encoder's result on that list and the returned error is the
encoder's error on that list (so there is an error exactly when the encoder
gives one, and it is that one). -/
theorem MigrateQuery_encoder_outcome (enc0 : Encoder) (query : String)
    (args : List NamedValue)
    (h : MigrateQuery enc0 query args ≠ (none, some Error.ErrNoMixedParams)) :
    ∃ (L : List NamedValue) (sql : String),
      (L = args ∨ L = renameArgs args) ∧
      ∀ enc : Encoder,
        MigrateQuery enc query args
            = (some { Parameters := (enc L).1, Sql := sql }, (enc L).2) ∧
        ((MigrateQuery enc query args).2.isSome ↔ (enc L).2.isSome) := by
  cases ho : hasOrdinal args with
  | false =>
    refine ⟨args, query, Or.inl rfl, fun enc => ?_⟩
    rw [MigrateQuery_plain enc query args ho]
    exact ⟨rfl, Iff.rfl⟩
  | true =>
    cases hn : hasNamed args with
    | true => exact absurd (MigrateQuery_mixed enc0 query args hn ho) h
    | false =>
      refine ⟨renameArgs args,
        ReplaceAllStringFunc postgresRegex query (fun s => Replace s '$' [':'] 1),
        Or.inr rfl, fun enc => ?_⟩
      rw [MigrateQuery_ordinal enc query args hn ho]
      exact ⟨rfl, Iff.rfl⟩

theorem MigrateQuery_encoder_outcome_witness :
    MigrateQuery exampleEncoder "SELECT $1"
        [{ Name := "", Ordinal := 1, Value := DriverValue.int64 7 }]
      ≠ (none, some Error.ErrNoMixedParams) ∧
    ∃ (L : List NamedValue) (sql : String),
      (L = [{ Name := "", Ordinal := 1, Value := DriverValue.int64 7 }] ∨
       L = renameArgs [{ Name := "", Ordinal := 1, Value := DriverValue.int64 7 }]) ∧
      ∀ enc : Encoder,
        MigrateQuery enc "SELECT $1" [{ Name := "", Ordinal := 1, Value := DriverValue.int64 7 }]
            = (some { Parameters := (enc L).1, Sql := sql }, (enc L).2) ∧
        ((MigrateQuery enc "SELECT $1"
            [{ Name := "", Ordinal := 1, Value := DriverValue.int64 7 }]).2.isSome
          ↔ (enc L).2.isSome) :=
  have hne : MigrateQuery exampleEncoder "SELECT $1"
        [{ Name := "", Ordinal := 1, Value := DriverValue.int64 7 }]
      ≠ (none, some Error.ErrNoMixedParams) := by
    rw [MigrateQuery_ordinal exampleEncoder _ _ (by decide) (by decide)]
    simp
  ⟨hne, MigrateQuery_encoder_outcome exampleEncoder "SELECT $1"
      [{ Name := "", Ordinal := 1, Value := DriverValue.int64 7 }] hne⟩

/-! ## The placeholder rewrite -/

theorem replaceAllFrom_skip (re : List Char → Option Nat) (repl : List Char → List Char)
    (s : List Char) (k : Nat) :
    replaceAllFrom re repl s k = replaceAllFrom re repl (s.drop k) 0 := by
  induction s generalizing k with
  | nil => simp [replaceAllFrom]
  | cons c rest ih =>
    cases k with
    | zero => simp
    | succ k => simp [replaceAllFrom, ih k]

theorem Replace_zero (s : List Char) (old : Char) (new : List Char) :
    Replace s old new 0 = s := by
  cases s <;> simp [Replace]

theorem isDigit_ne_dollar (c : Char) (h : isDigit c = true) : c ≠ '$' := by
  intro hc
  subst hc
  exact absurd h (by decide)

theorem digitRun_pos_iff (s : List Char) :
    1 ≤ digitRun s ↔ ∃ d, s[0]? = some d ∧ isDigit d = true := by
  cases s with
  | nil => simp [digitRun]
  | cons c rest =>
    by_cases h : isDigit c = true <;> simp [digitRun, h]

theorem colonAt_digitRun (s : List Char) :
    colonAt s = s.take (digitRun s) ++ colonAt (s.drop (digitRun s)) := by
  induction s with
  | nil => simp [colonAt, digitRun]
  | cons c rest ih =>
    by_cases h : isDigit c = true
    · have hc : c ≠ '$' := isDigit_ne_dollar c h
      simp only [digitRun, h, if_true, List.take_succ_cons, List.drop_succ_cons,
        List.cons_append]
      rw [← ih]
      simp [colonAt, hc]
    · simp [digitRun, h]

theorem replaceAllFrom_postgres_aux (n : Nat) :
    ∀ s : List Char, s.length ≤ n →
      replaceAllFrom postgresRegex (fun m => Replace m '$' [':'] 1) s 0 = colonAt s := by
  induction n with
  | zero =>
    intro s hs
    have : s = [] := List.length_eq_zero.mp (Nat.le_zero.mp hs)
    subst this
    simp [replaceAllFrom, colonAt]
  | succ n ih =>
    intro s hs
    cases s with
    | nil => simp [replaceAllFrom, colonAt]
    | cons c rest =>
      have hrest : rest.length ≤ n := by simpa using hs
      by_cases hc : c = '$'
      · by_cases hd : 1 ≤ digitRun rest
        · subst hc
          have hdrop : (rest.drop (digitRun rest)).length ≤ n := by
            rw [List.length_drop]; omega
          simp only [replaceAllFrom, postgresRegex, hd, if_true, List.take_succ_cons, Replace,
            Replace_zero, colonAt, true_and, List.singleton_append]
          rw [replaceAllFrom_skip, ih _ hdrop, List.cons_append, ← colonAt_digitRun]
        · simp [replaceAllFrom, postgresRegex, hc, hd, colonAt, ih rest hrest]
      · simp [replaceAllFrom, postgresRegex, hc, colonAt, ih rest hrest]

theorem replaceAllFrom_postgres (s : List Char) :
    replaceAllFrom postgresRegex (fun m => Replace m '$' [':'] 1) s 0 = colonAt s :=
  replaceAllFrom_postgres_aux s.length s (Nat.le_refl _)

theorem colonAt_length (s : List Char) : (colonAt s).length = s.length := by
  induction s with
  | nil => rfl
  | cons c rest ih => simp [colonAt, ih]

theorem colonAt_get_placeholder (s : List Char) (i : Nat) (d : Char)
    (h0 : s[i]? = some '$') (h1 : s[i + 1]? = some d) (hd : isDigit d = true) :
    (colonAt s)[i]? = some ':' := by
  induction s generalizing i with
  | nil => simp at h0
  | cons c rest ih =>
    cases i with
    | zero =>
      have hc : c = '$' := by simpa using h0
      have hr : 1 ≤ digitRun rest := (digitRun_pos_iff rest).2 ⟨d, by simpa using h1, hd⟩
      simp [colonAt, hc, hr]
    | succ i =>
      have h0r : rest[i]? = some '$' := by simpa using h0
      have h1r : rest[i + 1]? = some d := by simpa using h1
      simpa [colonAt] using ih i h0r h1r

theorem colonAt_get_other (s : List Char) (i : Nat)
    (h : ¬ (s[i]? = some '$' ∧ ∃ d, s[i + 1]? = some d ∧ isDigit d = true)) :
    (colonAt s)[i]? = s[i]? := by
  induction s generalizing i with
  | nil => simp [colonAt]
  | cons c rest ih =>
    cases i with
    | zero =>
      have hn : ¬ (c = '$' ∧ 1 ≤ digitRun rest) := by
        intro hc
        apply h
        refine ⟨by simp [hc.1], ?_⟩
        obtain ⟨d, hd0, hd⟩ := (digitRun_pos_iff rest).1 hc.2
        exact ⟨d, by simpa using hd0, hd⟩
      simp [colonAt, hn]
    | succ i =>
      have hr : ¬ (rest[i]? = some '$' ∧ ∃ d, rest[i + 1]? = some d ∧ isDigit d = true) := by
        intro hc
        apply h
        simpa using hc
      simpa [colonAt] using ih i hr

/-- C4: on the ordinal path (no parameter is named, some ordinal is positive)
the SQL of the returned request has the length of the query, has `:` at every
position where the query has `$` directly followed by a decimal digit, and has
the query's own character at every other position; so each `$` with its digits
becomes `:` with the same digits, placeholders of several digits included. -/
theorem MigrateQuery_ordinal_rewrite (enc : Encoder) (query : String) (args : List NamedValue)
    (hnames : ∀ a ∈ args, a.Name = "") (hord : ∃ a ∈ args, a.Ordinal > 0) :
    ∃ r : ExecuteStatementInput,
      (MigrateQuery enc query args).1 = some r ∧
      r.Sql.length = query.length ∧
      (∀ (i : Nat) (d : Char), query.data[i]? = some '$' → query.data[i + 1]? = some d →
          isDigit d = true → r.Sql.data[i]? = some ':') ∧
      (∀ i : Nat,
          ¬ (query.data[i]? = some '$' ∧ ∃ d, query.data[i + 1]? = some d ∧ isDigit d = true) →
          r.Sql.data[i]? = query.data[i]?) ∧
      (query = "SELECT * FROM t WHERE a=$1 AND b=$2" →
          r.Sql = "SELECT * FROM t WHERE a=:1 AND b=:2") ∧
      (query = "x=$10 AND y=$123" → r.Sql = "x=:10 AND y=:123") := by
  have hn : hasNamed args = false := hasNamed_eq_false args hnames
  have ho : hasOrdinal args = true := (hasOrdinal_iff args).2 hord
  refine ⟨_, congrArg Prod.fst (MigrateQuery_ordinal enc query args hn ho), ?_, ?_, ?_, ?_, ?_⟩
  · show (replaceAllFrom postgresRegex (fun m => Replace m '$' [':'] 1) query.data 0).length
      = query.data.length
    rw [replaceAllFrom_postgres, colonAt_length]
  · intro i d h0 h1 hd
    show (replaceAllFrom postgresRegex (fun m => Replace m '$' [':'] 1) query.data 0)[i]?
      = some ':'
    rw [replaceAllFrom_postgres]
    exact colonAt_get_placeholder query.data i d h0 h1 hd
  · intro i h
    show (replaceAllFrom postgresRegex (fun m => Replace m '$' [':'] 1) query.data 0)[i]?
      = query.data[i]?
    rw [replaceAllFrom_postgres]
    exact colonAt_get_other query.data i h
  · intro hq
    subst hq
    show ReplaceAllStringFunc postgresRegex "SELECT * FROM t WHERE a=$1 AND b=$2"
      (fun m => Replace m '$' [':'] 1) = "SELECT * FROM t WHERE a=:1 AND b=:2"
    decide
  · intro hq
    subst hq
    show ReplaceAllStringFunc postgresRegex "x=$10 AND y=$123"
      (fun m => Replace m '$' [':'] 1) = "x=:10 AND y=:123"
    decide

theorem MigrateQuery_ordinal_rewrite_witness :
    (∀ a ∈ exampleOrdinalArgs, a.Name = "") ∧ (∃ a ∈ exampleOrdinalArgs, a.Ordinal > 0) ∧
    ∃ r : ExecuteStatementInput,
      (MigrateQuery exampleEncoder "SELECT * FROM t WHERE a=$1 AND b=$2" exampleOrdinalArgs).1
        = some r ∧
      r.Sql = "SELECT * FROM t WHERE a=:1 AND b=:2" := by
  refine ⟨by decide, by decide, ?_⟩
  obtain ⟨r, hr, _, _, _, hex, _⟩ :=
    MigrateQuery_ordinal_rewrite exampleEncoder "SELECT * FROM t WHERE a=$1 AND b=$2"
      exampleOrdinalArgs (by decide) (by decide)
  exact ⟨r, hr, hex rfl⟩

/-! ## IsIsolationLevelSupported -/

/-- C7: for every integer level, `IsIsolationLevelSupported` is true exactly
for default (0), read-uncommitted (1), read-committed (2), repeatable-read (4)
and serializable (6); it is false for write-committed (3), snapshot (5),
linearizable (7) and for integers outside the range of the constants. -/
theorem IsIsolationLevelSupported_iff :
    (∀ level : IsolationLevel,
      IsIsolationLevelSupported level = true ↔
        (level = LevelDefault ∨ level = LevelReadUncommitted ∨ level = LevelReadCommitted ∨
         level = LevelRepeatableRead ∨ level = LevelSerializable)) ∧
    (∀ level : IsolationLevel,
      IsIsolationLevelSupported level = false ↔
        (level ≠ 0 ∧ level ≠ 1 ∧ level ≠ 2 ∧ level ≠ 4 ∧ level ≠ 6)) ∧
    [LevelDefault, LevelReadUncommitted, LevelReadCommitted, LevelRepeatableRead,
      LevelSerializable] = [0, 1, 2, 4, 6] ∧
    [LevelWriteCommitted, LevelSnapshot, LevelLinearizable] = [3, 5, 7] ∧
    IsIsolationLevelSupported LevelWriteCommitted = false ∧
    IsIsolationLevelSupported LevelSnapshot = false ∧
    IsIsolationLevelSupported LevelLinearizable = false ∧
    IsIsolationLevelSupported (-1) = false ∧
    IsIsolationLevelSupported 8 = false := by
  have key : ∀ level : IsolationLevel,
      IsIsolationLevelSupported level = true ↔
        (level = 0 ∨ level = 1 ∨ level = 2 ∨ level = 4 ∨ level = 6) := by
    intro level
    simp only [IsIsolationLevelSupported, SupportedIsolationLevels, List.lookup, LevelDefault,
      LevelRepeatableRead, LevelReadCommitted, LevelReadUncommitted, LevelSerializable]
    by_cases h0 : level = 0
    · subst h0; decide
    by_cases h1 : level = 1
    · subst h1; decide
    by_cases h2 : level = 2
    · subst h2; decide
    by_cases h4 : level = 4
    · subst h4; decide
    by_cases h6 : level = 6
    · subst h6; decide
    have e0 : (level == 0) = false := by simpa using h0
    have e1 : (level == 1) = false := by simpa using h1
    have e2 : (level == 2) = false := by simpa using h2
    have e4 : (level == 4) = false := by simpa using h4
    have e6 : (level == 6) = false := by simpa using h6
    simp [e0, e1, e2, e4, e6, h0, h1, h2, h4, h6]
  refine ⟨?_, ?_, rfl, rfl, by decide, by decide, by decide, by decide, by decide⟩
  · intro level
    exact key level
  · intro level
    have hk := key level
    constructor
    · intro hf
      have hnot : ¬ (level = 0 ∨ level = 1 ∨ level = 2 ∨ level = 4 ∨ level = 6) := by
        intro hc
        rw [hk.2 hc] at hf
        exact absurd hf (by decide)
      simpa [not_or] using hnot
    · intro hne
      cases hv : IsIsolationLevelSupported level with
      | false => rfl
      | true =>
        rcases hk.1 hv with h | h | h | h | h
        · exact absurd h hne.1
        · exact absurd h hne.2.1
        · exact absurd h hne.2.2.1
        · exact absurd h hne.2.2.2.1
        · exact absurd h hne.2.2.2.2

/-! ## GetFieldConverter -/

theorem GetFieldConverter_default (std : Stdlib) (columnType : String)
    (h : ToLower std.caseTable columnType ∉ columnTypes) :
    GetFieldConverter std columnType = fun _ =>
      (Any.nil, some (Error.errorf ("unknown type " ++ columnType ++ ", please submit a PR"))) := by
  simp only [columnTypes, List.mem_cons, List.mem_singleton, not_or, List.not_mem_nil,
    not_false_eq_true, and_true] at h
  unfold GetFieldConverter
  generalize ToLower std.caseTable columnType = l at h
  split <;> first | rfl | (exfalso; simp at h)

/-- C8: when the lower-cased type name is none of the case labels,
`GetFieldConverter` still gives a converter, and on every field that converter
returns no value and the error whose message is "unknown type ", the type name
as the caller wrote it, and ", please submit a PR". -/
theorem GetFieldConverter_unknown_type (std : Stdlib) (columnType : String) (field : Field)
    (h : ToLower std.caseTable columnType ∉
      ["serial", "bool", "bpchar", "varchar", "text", "int2", "int4", "int8", "numeric",
       "float4", "date", "time", "timestamp"]) :
    ∃ msg : String,
      GetFieldConverter std columnType field = (Any.nil, some (Error.errorf msg)) ∧
      msg = "unknown type " ++ columnType ++ ", please submit a PR" ∧
      ∃ before after : String, msg = before ++ columnType ++ after := by
  refine ⟨"unknown type " ++ columnType ++ ", please submit a PR", ?_, rfl,
    "unknown type ", ", please submit a PR", rfl⟩
  rw [GetFieldConverter_default std columnType h]

theorem GetFieldConverter_unknown_type_witness :
    ToLower exampleStdlib.caseTable "Mystery" ∉
      ["serial", "bool", "bpchar", "varchar", "text", "int2", "int4", "int8", "numeric",
       "float4", "date", "time", "timestamp"] ∧
    ∃ msg : String,
      GetFieldConverter exampleStdlib "Mystery" exampleLongField
        = (Any.nil, some (Error.errorf msg)) ∧
      msg = "unknown type Mystery, please submit a PR" := by
  refine ⟨by decide, ?_⟩
  obtain ⟨msg, h1, h2, _⟩ :=
    GetFieldConverter_unknown_type exampleStdlib "Mystery" exampleLongField (by decide)
  exact ⟨msg, h1, h2.trans (by decide)⟩

/-! ### Case-insensitive matching -/

theorem unicodeToLower_plain (tbl : Char → Char) (c : Char) (hascii : c.toNat < 0x80)
    (hlow : ¬ ('A'.toNat ≤ c.toNat ∧ c.toNat ≤ 'Z'.toNat)) : unicodeToLower tbl c = c := by
  have h1 : c.toNat ≤ 0x7F := by omega
  unfold unicodeToLower
  rw [if_pos h1, if_neg hlow]

theorem unicodeToLower_upper (tbl : Char → Char) (c : Char)
    (hup : 'A'.toNat ≤ c.toNat ∧ c.toNat ≤ 'Z'.toNat) :
    unicodeToLower tbl c = Char.ofNat (c.toNat + ('a'.toNat - 'A'.toNat)) := by
  have hZ : 'Z'.toNat = 90 := by decide
  have h1 : c.toNat ≤ 0x7F := by omega
  unfold unicodeToLower
  rw [if_pos h1, if_pos hup]

/-- The three branches of `ToLower` compute the same rune-wise map. -/
theorem ToLower_eq_map (tbl : Char → Char) (s : String) :
    ToLower tbl s = String.mk (s.data.map (unicodeToLower tbl)) := by
  unfold ToLower
  by_cases hA : (s.data.all fun c => decide (c.toNat < 0x80)) = true
  · have hall : ∀ c ∈ s.data, c.toNat < 0x80 := by simpa using hA
    by_cases hU : (s.data.any fun c =>
        decide ('A'.toNat ≤ c.toNat ∧ c.toNat ≤ 'Z'.toNat)) = true
    · simp only [hA, hU, if_true, Bool.not_true, Bool.false_eq_true, if_false]
      congr 1
      apply List.map_congr_left
      intro c hc
      by_cases hup : 'A'.toNat ≤ c.toNat ∧ c.toNat ≤ 'Z'.toNat
      · rw [unicodeToLower_upper tbl c hup, if_pos hup]
      · rw [unicodeToLower_plain tbl c (hall c hc) hup, if_neg hup]
    · have hnone : ∀ c ∈ s.data, ¬ ('A'.toNat ≤ c.toNat ∧ c.toNat ≤ 'Z'.toNat) := by
        intro c hc hup
        apply hU
        simp only [List.any_eq_true, decide_eq_true_eq]
        exact ⟨c, hc, hup⟩
      have hUf : (s.data.any fun c =>
          decide ('A'.toNat ≤ c.toNat ∧ c.toNat ≤ 'Z'.toNat)) = false := by
        simpa using hU
      simp only [hA, hUf, if_true, Bool.not_false]
      have hid : s.data.map (unicodeToLower tbl) = s.data := by
        conv_rhs => rw [← List.map_id s.data]
        apply List.map_congr_left
        intro c hc
        simpa using unicodeToLower_plain tbl c (hall c hc) (hnone c hc)
      rw [hid]
  · simp only [hA, Bool.false_eq_true, if_false]

theorem sameLetter_lower (tbl : Char → Char) (a b : Char) (h : sameLetter a b = true)
    (hascii : b.toNat < 0x80) (hlow : ¬ ('A'.toNat ≤ b.toNat ∧ b.toNat ≤ 'Z'.toNat)) :
    unicodeToLower tbl a = b := by
  simp only [sameLetter, Bool.or_eq_true, Bool.and_eq_true, decide_eq_true_eq, beq_iff_eq] at h
  rcases h with (h | ⟨hup, hb⟩) | ⟨hup, _⟩
  · subst h
    exact unicodeToLower_plain tbl a hascii hlow
  · rw [unicodeToLower_upper tbl a hup]
    have h32 : 'a'.toNat - 'A'.toNat = 32 := by decide
    rw [h32, ← hb]
    exact Char.ofNat_toNat b
  · exact absurd hup hlow

theorem caseVariant_lower (tbl : Char → Char) (s t : List Char)
    (h : caseVariant s t = true)
    (ht : ∀ c ∈ t, c.toNat < 0x80 ∧ ¬ ('A'.toNat ≤ c.toNat ∧ c.toNat ≤ 'Z'.toNat)) :
    s.map (unicodeToLower tbl) = t := by
  induction s generalizing t with
  | nil =>
    cases t with
    | nil => rfl
    | cons b t => simp [caseVariant] at h
  | cons a s ih =>
    cases t with
    | nil => simp [caseVariant] at h
    | cons b t =>
      simp only [caseVariant, Bool.and_eq_true] at h
      have hb := ht b (List.mem_cons_self b t)
      rw [List.map_cons, sameLetter_lower tbl a b h.1 hb.1 hb.2,
        ih t h.2 (fun c hc => ht c (List.mem_cons_of_mem b hc))]

theorem columnTypes_plain (t : String) (ht : t ∈ columnTypes) :
    ∀ c ∈ t.data, c.toNat < 0x80 ∧ ¬ ('A'.toNat ≤ c.toNat ∧ c.toNat ≤ 'Z'.toNat) := by
  simp only [columnTypes, List.mem_cons, List.mem_singleton, List.not_mem_nil, or_false] at ht
  rcases ht with h | h | h | h | h | h | h | h | h | h | h | h | h <;> subst h <;> decide

theorem ToLower_caseVariant (tbl : Char → Char) (s t : String) (ht : t ∈ columnTypes)
    (h : caseVariant s.data t.data = true) : ToLower tbl s = t := by
  rw [ToLower_eq_map, caseVariant_lower tbl s.data t.data h (columnTypes_plain t ht)]

theorem ToLower_columnTypes (tbl : Char → Char) (t : String) (ht : t ∈ columnTypes) :
    ToLower tbl t = t := by
  simp only [columnTypes, List.mem_cons, List.mem_singleton, List.not_mem_nil, or_false] at ht
  rcases ht with e | e | e | e | e | e | e | e | e | e | e | e | e <;> subst e <;> rfl

theorem GetFieldConverter_of_lower (std : Stdlib) (s t : String) (ht : t ∈ columnTypes)
    (h : ToLower std.caseTable s = t) :
    GetFieldConverter std s = GetFieldConverter std t := by
  have et := ToLower_columnTypes std.caseTable t ht
  simp only [columnTypes, List.mem_cons, List.mem_singleton, List.not_mem_nil, or_false] at ht
  unfold GetFieldConverter
  rw [h, et]
  split <;> first | rfl | (exfalso; simp_all)

/-- C9: for a type name `t` of the table and two spellings `s1`, `s2` of it
that differ from it only in the case of letters, the converters obtained for
`s1` and for `s2` return the same pair (value, error) on every field. -/
theorem GetFieldConverter_case_insensitive (std : Stdlib) (t s1 s2 : String) (field : Field)
    (ht : t ∈ ["serial", "bool", "bpchar", "varchar", "text", "int2", "int4", "int8",
      "numeric", "float4", "date", "time", "timestamp"])
    (h1 : caseVariant s1.data t.data = true) (h2 : caseVariant s2.data t.data = true) :
    GetFieldConverter std s1 field = GetFieldConverter std s2 field := by
  rw [GetFieldConverter_of_lower std s1 t ht (ToLower_caseVariant std.caseTable s1 t ht h1),
    GetFieldConverter_of_lower std s2 t ht (ToLower_caseVariant std.caseTable s2 t ht h2)]

theorem GetFieldConverter_case_insensitive_witness :
    "int4" ∈ ["serial", "bool", "bpchar", "varchar", "text", "int2", "int4", "int8",
      "numeric", "float4", "date", "time", "timestamp"] ∧
    caseVariant "INT4".data "int4".data = true ∧ caseVariant "Int4".data "int4".data = true ∧
    GetFieldConverter exampleStdlib "INT4" exampleLongField
      = GetFieldConverter exampleStdlib "Int4" exampleLongField ∧
    GetFieldConverter exampleStdlib "INT4" exampleLongField = (Any.int64 42, none) :=
  ⟨by decide, by decide, by decide,
   GetFieldConverter_case_insensitive exampleStdlib "int4" "INT4" "Int4" exampleLongField
     (by decide) (by decide) (by decide),
   by decide⟩

/-! ### The pass-through rows -/

/-- C10: on every field, the converters for serial, int2, int4 and int8 return
the field's integer value (`aws.Int64Value` of `LongValue`) and no error, the
converter for bool returns the field's boolean value and no error, the
converters for bpchar, varchar, text and time return the field's string value
unchanged and no error, and the converter for float4 returns the field's
double value and no error; a member that is set is returned as it is. -/
theorem GetFieldConverter_pass_through (std : Stdlib) (field : Field) :
    (GetFieldConverter std "serial" field = (Any.int64 (Int64Value field.LongValue), none) ∧
     GetFieldConverter std "int2" field = (Any.int64 (Int64Value field.LongValue), none) ∧
     GetFieldConverter std "int4" field = (Any.int64 (Int64Value field.LongValue), none) ∧
     GetFieldConverter std "int8" field = (Any.int64 (Int64Value field.LongValue), none)) ∧
    GetFieldConverter std "bool" field = (Any.bool (BoolValue field.BooleanValue), none) ∧
    (GetFieldConverter std "bpchar" field = (Any.string (StringValue field.StringValue), none) ∧
     GetFieldConverter std "varchar" field = (Any.string (StringValue field.StringValue), none) ∧
     GetFieldConverter std "text" field = (Any.string (StringValue field.StringValue), none) ∧
     GetFieldConverter std "time" field = (Any.string (StringValue field.StringValue), none)) ∧
    GetFieldConverter std "float4" field = (Any.float64 (Float64Value field.DoubleValue), none) ∧
    (∀ n : Int, Int64Value (some n) = n) ∧ (∀ b : Bool, BoolValue (some b) = b) ∧
    (∀ s : String, StringValue (some s) = s) ∧ (∀ x : Float64, Float64Value (some x) = x) :=
  ⟨⟨rfl, rfl, rfl, rfl⟩, rfl, ⟨rfl, rfl, rfl, rfl⟩, rfl,
   fun _ => rfl, fun _ => rfl, fun _ => rfl, fun _ => rfl⟩

/-! ## The time parser and formatter -/

theorem isDigit_iff (c : Char) : isDigit c = true ↔ 48 ≤ c.toNat ∧ c.toNat ≤ 57 := by
  simp only [isDigit, Bool.and_eq_true, decide_eq_true_eq]
  exact Iff.rfl

theorem digitVal_le (c : Char) (h : isDigit c = true) : digitVal c ≤ 9 := by
  have := (isDigit_iff c).1 h
  show c.toNat - 48 ≤ 9
  omega

theorem utod_digitVal (c : Char) (h : isDigit c = true) : utod (digitVal c) = c := by
  have hc := (isDigit_iff c).1 h
  show Char.ofNat (48 + (c.toNat - 48)) = c
  have : 48 + (c.toNat - 48) = c.toNat := by omega
  rw [this]
  exact Char.ofNat_toNat c

theorem isDigit_not_sign (c : Char) (h : isDigit c = true) : c ≠ '-' ∧ c ≠ '+' ∧ c ≠ ' ' := by
  refine ⟨?_, ?_, ?_⟩ <;> (intro hc; subst hc; exact absurd h (by decide))

theorem leadingInt_nondigit (c : Char) (rest : List Char) (x : Nat) (h : isDigit c = false) :
    leadingInt (c :: rest) x = some (x, c :: rest) := by
  simp [leadingInt, h]

theorem leadingInt_digit (c : Char) (rest : List Char) (x : Nat) (h : isDigit c = true)
    (hx : x ≤ 99999999) :
    leadingInt (c :: rest) x = leadingInt rest (x * 10 + digitVal c) := by
  have hd := digitVal_le c h
  have h1 : ¬ x > 9223372036854775808 / 10 := by omega
  have h2 : ¬ x * 10 + digitVal c > 9223372036854775808 := by omega
  simp [leadingInt, h, h1, h2]

theorem atoi_four (a b c d : Char) (ha : isDigit a = true) :
    atoi [a, b, c, d] =
      if isDigit b = true ∧ isDigit c = true ∧ isDigit d = true then
        some ((((digitVal a * 10 + digitVal b) * 10 + digitVal c) * 10 + digitVal d : Nat) : Int)
      else none := by
  obtain ⟨hm, hp, _⟩ := isDigit_not_sign a ha
  have hda := digitVal_le a ha
  have hhead : ¬ ((a :: [b, c, d]).head? = some '-' ∨ (a :: [b, c, d]).head? = some '+') := by
    simp [hm, hp]
  have hneg : decide ((a :: [b, c, d]).head? = some '-') = false := by simp [hm]
  unfold atoi
  simp only [hhead, if_false, hneg]
  rw [leadingInt_digit a _ 0 ha (by omega)]
  cases hb : isDigit b with
  | false => simp [leadingInt_nondigit b _ _ hb]
  | true =>
    have hdb := digitVal_le b hb
    rw [leadingInt_digit b _ _ hb (by omega)]
    cases hc : isDigit c with
    | false => simp [leadingInt_nondigit c _ _ hc]
    | true =>
      have hdc := digitVal_le c hc
      rw [leadingInt_digit c _ _ hc (by omega)]
      cases hd : isDigit d with
      | false => simp [leadingInt_nondigit d _ _ hd]
      | true =>
        have hdd := digitVal_le d hd
        rw [leadingInt_digit d _ _ hd (by omega)]
        simp [leadingInt]

theorem getnum_fixed (v : List Char) :
    getnum v true =
      match v with
      | a :: b :: rest =>
        if isDigit a = true ∧ isDigit b = true then
          some ((digitVal a : Int) * 10 + (digitVal b : Int), rest)
        else none
      | _ => none := by
  rcases v with _ | ⟨a, _ | ⟨b, rest⟩⟩
  · rfl
  · cases ha : isDigit a <;> simp [getnum, ha]
  · cases ha : isDigit a <;> cases hb : isDigit b <;> simp [getnum, ha, hb]

theorem skipFrom_one (c : Char) (hc : c ≠ ' ') (v : List Char) :
    skipFrom false v [c] =
      match v with
      | x :: rest => if x = c then some rest else none
      | [] => none := by
  cases v with
  | nil => simp [skipFrom, hc]
  | cons x rest => simp [skipFrom, hc]

theorem skipFrom_nil (b : Bool) (v : List Char) : skipFrom b v [] = some v := by
  cases v <;> rfl

theorem parseStd_year (f : ParseFields) (v : List Char) :
    parseStd StdChunk.stdLongYear f v =
      match v with
      | a :: b :: c :: d :: rest =>
        if isDigit a = true ∧ isDigit b = true ∧ isDigit c = true ∧ isDigit d = true then
          some ({ f with year :=
            ((((digitVal a * 10 + digitVal b) * 10 + digitVal c) * 10 + digitVal d : Nat) : Int) },
            rest)
        else none
      | _ => none := by
  rcases v with _ | ⟨a, _ | ⟨b, _ | ⟨c, _ | ⟨d, rest⟩⟩⟩⟩
  · simp [parseStd]
  · simp [parseStd]
  · simp [parseStd]
  · simp [parseStd]
  · cases ha : isDigit a with
    | false => simp [parseStd, ha]
    | true =>
      have h4 : atoi (List.take 4 (a :: b :: c :: d :: rest)) = atoi [a, b, c, d] := by simp
      have hlen : ¬ (a :: b :: c :: d :: rest).length < 4 := by simp
      simp only [parseStd, List.head?_cons, Option.any_some, ha, h4, hlen, not_true_eq_false,
        or_self, if_false, true_and]
      rw [atoi_four a b c d ha]
      by_cases h : isDigit b = true ∧ isDigit c = true ∧ isDigit d = true
      · simp [h]
      · simp [h]

theorem parseStd_month (f : ParseFields) (v : List Char) :
    parseStd StdChunk.stdZeroMonth f v =
      match v with
      | a :: b :: rest =>
        if isDigit a = true ∧ isDigit b = true ∧
            1 ≤ digitVal a * 10 + digitVal b ∧ digitVal a * 10 + digitVal b ≤ 12 then
          some ({ f with month := ((digitVal a * 10 + digitVal b : Nat) : Int) }, rest)
        else none
      | _ => none := by
  rcases v with _ | ⟨a, _ | ⟨b, rest⟩⟩
  · simp [parseStd, getnum_fixed]
  · simp [parseStd, getnum_fixed]
  · simp only [parseStd, getnum_fixed]
    by_cases h : isDigit a = true ∧ isDigit b = true
    · by_cases hr : 1 ≤ digitVal a * 10 + digitVal b ∧ digitVal a * 10 + digitVal b ≤ 12
      · have hi : ¬ ((digitVal a : Int) * 10 + (digitVal b : Int) ≤ 0 ∨
            12 < (digitVal a : Int) * 10 + (digitVal b : Int)) := by omega
        simp [h, hr, hi]
      · have hi : ((digitVal a : Int) * 10 + (digitVal b : Int) ≤ 0 ∨
            12 < (digitVal a : Int) * 10 + (digitVal b : Int)) := by omega
        have hr2 : ¬ (isDigit a = true ∧ isDigit b = true ∧
            1 ≤ digitVal a * 10 + digitVal b ∧ digitVal a * 10 + digitVal b ≤ 12) :=
          fun hc => hr hc.2.2
        rw [if_neg hr2]
        simp [h, hi]
    · have hr2 : ¬ (isDigit a = true ∧ isDigit b = true ∧
          1 ≤ digitVal a * 10 + digitVal b ∧ digitVal a * 10 + digitVal b ≤ 12) :=
        fun hc => h ⟨hc.1, hc.2.1⟩
      rw [if_neg hr2]
      simp [h]

theorem parseStd_day (f : ParseFields) (v : List Char) :
    parseStd StdChunk.stdZeroDay f v =
      match v with
      | a :: b :: rest =>
        if isDigit a = true ∧ isDigit b = true then
          some ({ f with day := ((digitVal a * 10 + digitVal b : Nat) : Int) }, rest)
        else none
      | _ => none := by
  rcases v with _ | ⟨a, _ | ⟨b, rest⟩⟩
  · simp [parseStd, getnum_fixed]
  · simp [parseStd, getnum_fixed]
  · simp only [parseStd, getnum_fixed]
    by_cases h : isDigit a = true ∧ isDigit b = true
    · simp [h]
    · simp only [h, if_false]

theorem parseLoop_cons (lit : List Char) (std : StdChunk) (rest : List (List Char × StdChunk))
    (f : ParseFields) (v : List Char) :
    parseLoop ((lit, std) :: rest) f v =
      (skipFrom false v lit).bind fun v1 =>
        (parseStd std f v1).bind fun p => parseLoop rest p.1 p.2 := by
  simp only [parseLoop]
  cases skipFrom false v lit with
  | none => rfl
  | some v1 =>
    simp only [Option.bind]
    cases parseStd std f v1 with
    | none => rfl
    | some p => rfl

/-- The loop over the layout `2006-01-02` succeeds exactly on four digits, a
hyphen, two digits of a month from 1 to 12, a hyphen and two digits. -/
theorem parseLoop_date (f : ParseFields) (v : List Char) :
    parseLoop dateChunks f v =
      match v with
      | y1 :: y2 :: y3 :: y4 :: h1 :: m1 :: m2 :: h2 :: d1 :: d2 :: rest =>
        if (isDigit y1 = true ∧ isDigit y2 = true ∧ isDigit y3 = true ∧ isDigit y4 = true) ∧
            h1 = '-' ∧
            (isDigit m1 = true ∧ isDigit m2 = true ∧
              1 ≤ digitVal m1 * 10 + digitVal m2 ∧ digitVal m1 * 10 + digitVal m2 ≤ 12) ∧
            h2 = '-' ∧ (isDigit d1 = true ∧ isDigit d2 = true) then
          some ({ f with
              year := ((((digitVal y1 * 10 + digitVal y2) * 10 + digitVal y3) * 10
                + digitVal y4 : Nat) : Int)
              month := ((digitVal m1 * 10 + digitVal m2 : Nat) : Int)
              day := ((digitVal d1 * 10 + digitVal d2 : Nat) : Int) }, rest)
        else none
      | _ => none := by
  have hdash : '-' ≠ ' ' := by decide
  simp only [dateChunks, parseLoop_cons, skipFrom_nil, Option.some_bind]
  rcases v with _ | ⟨y1, _ | ⟨y2, _ | ⟨y3, _ | ⟨y4, v4⟩⟩⟩⟩ <;>
    try (simp only [parseStd_year, Option.none_bind])
  by_cases hy : isDigit y1 = true ∧ isDigit y2 = true ∧ isDigit y3 = true ∧ isDigit y4 = true
  swap
  · rw [if_neg hy]
    rcases v4 with _ | ⟨h1, _ | ⟨m1, _ | ⟨m2, _ | ⟨h2, _ | ⟨d1, _ | ⟨d2, rest⟩⟩⟩⟩⟩⟩ <;>
      simp [hy]
  rw [if_pos hy]
  simp only [Option.some_bind]
  rcases v4 with _ | ⟨h1, v5⟩
  · simp only [skipFrom_one '-' hdash, Option.none_bind]
  simp only [skipFrom_one '-' hdash]
  by_cases hh1 : h1 = '-'
  swap
  · rw [if_neg hh1]
    rcases v5 with _ | ⟨m1, _ | ⟨m2, _ | ⟨h2, _ | ⟨d1, _ | ⟨d2, rest⟩⟩⟩⟩⟩ <;> simp [hh1]
  rw [if_pos hh1]
  simp only [Option.some_bind]
  rcases v5 with _ | ⟨m1, _ | ⟨m2, v7⟩⟩ <;>
    try (simp only [parseStd_month, Option.none_bind])
  by_cases hm : isDigit m1 = true ∧ isDigit m2 = true ∧
      1 ≤ digitVal m1 * 10 + digitVal m2 ∧ digitVal m1 * 10 + digitVal m2 ≤ 12
  swap
  · rw [if_neg hm]
    rcases v7 with _ | ⟨h2, _ | ⟨d1, _ | ⟨d2, rest⟩⟩⟩ <;> simp [hm]
  rw [if_pos hm]
  simp only [Option.some_bind]
  rcases v7 with _ | ⟨h2, v8⟩
  · simp only [skipFrom_one '-' hdash, Option.none_bind]
  simp only [skipFrom_one '-' hdash]
  by_cases hh2 : h2 = '-'
  swap
  · rw [if_neg hh2]
    rcases v8 with _ | ⟨d1, _ | ⟨d2, rest⟩⟩ <;> simp [hh2]
  rw [if_pos hh2]
  simp only [Option.some_bind]
  rcases v8 with _ | ⟨d1, _ | ⟨d2, rest⟩⟩ <;>
    try (simp only [parseStd_day, Option.none_bind])
  by_cases hd : isDigit d1 = true ∧ isDigit d2 = true
  · simp [hy, hh1, hm, hh2, hd, parseLoop]
  · simp [hd]

theorem daysIn_eq_monthLength (y m : Nat) (h1 : 1 ≤ m) (h12 : m ≤ 12) :
    daysIn (m : Int) (y : Int) = (monthLength y m : Int) := by
  have hleap : isLeap (y : Int) = true ↔ ((y % 4 = 0 ∧ y % 100 ≠ 0) ∨ y % 400 = 0) := by
    simp only [isLeap, Bool.and_eq_true, Bool.or_eq_true, beq_iff_eq, bne_iff_ne, ne_eq]
    omega
  interval_cases m
  · simp [daysIn, daysBefore, monthLength]
  · by_cases hl : (y % 4 = 0 ∧ y % 100 ≠ 0) ∨ y % 400 = 0
    · have := hleap.2 hl
      simp [daysIn, monthLength, this, hl]
    · have : ¬ isLeap (y : Int) = true := fun hc => hl (hleap.1 hc)
      simp [daysIn, daysBefore, monthLength, this, hl]
  all_goals simp [daysIn, daysBefore, monthLength]

theorem appendInt_two (a b : Char) (ha : isDigit a = true) (hb : isDigit b = true) :
    appendInt ((digitVal a * 10 + digitVal b : Nat) : Int) 2 = [a, b] := by
  have hda := digitVal_le a ha
  have hdb := digitVal_le b hb
  have hneg : ¬ ((digitVal a * 10 + digitVal b : Nat) : Int) < 0 := by omega
  have hlt : digitVal a * 10 + digitVal b < 100 := by omega
  have h1 : (digitVal a * 10 + digitVal b) / 10 = digitVal a := by omega
  have h2 : (digitVal a * 10 + digitVal b) % 10 = digitVal b := by omega
  simp only [appendInt, hneg, if_false, Int.natAbs_ofNat, hlt, and_self, if_true, h1, h2,
    List.nil_append, utod_digitVal a ha, utod_digitVal b hb]

theorem appendInt_four (a b c d : Char) (ha : isDigit a = true) (hb : isDigit b = true)
    (hc : isDigit c = true) (hd : isDigit d = true) :
    appendInt ((((digitVal a * 10 + digitVal b) * 10 + digitVal c) * 10 + digitVal d : Nat) : Int) 4
      = [a, b, c, d] := by
  have hda := digitVal_le a ha
  have hdb := digitVal_le b hb
  have hdc := digitVal_le c hc
  have hdd := digitVal_le d hd
  generalize hn : ((digitVal a * 10 + digitVal b) * 10 + digitVal c) * 10 + digitVal d = n
  have hneg : ¬ ((n : Nat) : Int) < 0 := by omega
  have hlt : n < 10000 := by omega
  have h1 : n / 1000 = digitVal a := by omega
  have h2 : n / 100 % 10 = digitVal b := by omega
  have h3 : n / 10 % 10 = digitVal c := by omega
  have h4 : n % 10 = digitVal d := by omega
  have hw : ¬ ((4 : Nat) = 2 ∧ n < 100) := by omega
  simp only [appendInt, hneg, if_false, Int.natAbs_ofNat, hw, hlt, and_self, if_true, h1, h2, h3,
    h4, List.nil_append, utod_digitVal a ha, utod_digitVal b hb, utod_digitVal c hc,
    utod_digitVal d hd]

theorem appendInt_zero_two : appendInt 0 2 = ['0', '0'] := by decide

theorem GetFieldConverter_date (std : Stdlib) (field : Field) :
    GetFieldConverter std "date" field =
      if (std.timeParse "2006-01-02" (StringValue field.StringValue)).2 ≠ none then
        (Any.nil, (std.timeParse "2006-01-02" (StringValue field.StringValue)).2)
      else
        (Any.string (std.timeFormat
          (std.timeParse "2006-01-02" (StringValue field.StringValue)).1 RFC3339), none) := rfl

theorem GetFieldConverter_timestamp (std : Stdlib) (field : Field) :
    GetFieldConverter std "timestamp" field =
      if (std.timeParse "2006-01-02 15:04:05" (StringValue field.StringValue)).2 ≠ none then
        (Any.nil, (std.timeParse "2006-01-02 15:04:05" (StringValue field.StringValue)).2)
      else
        (Any.string (std.timeFormat
          (std.timeParse "2006-01-02 15:04:05" (StringValue field.StringValue)).1 RFC3339),
         none) := rfl

theorem goTimeParse_date_eq (s : String) :
    goTimeParse "2006-01-02" s =
      match parseLoop dateChunks {} s.data with
      | some (f, []) =>
        if f.day < 1 ∨ f.day > daysIn f.month f.year then (zeroTime, some parseError)
        else
          ({ year := f.year, month := f.month, day := f.day, hour := f.hour,
             minute := f.min, second := f.sec, nanosecond := f.nsec }, none)
      | _ => (zeroTime, some parseError) := by
  have hl : layoutChunks "2006-01-02" = some (dateChunks, []) := by decide
  unfold goTimeParse
  rw [hl]
  simp only []
  cases parseLoop dateChunks {} s.data with
  | none => rfl
  | some p =>
    obtain ⟨f, rest⟩ := p
    cases rest with
    | nil => simp [skipFrom_nil]
    | cons c rest => simp [skipFrom_nil]

theorem goTimeParse_date_invalid (s : String) (h : isCalendarDate s.data = false) :
    goTimeParse "2006-01-02" s = (zeroTime, some parseError) := by
  rw [goTimeParse_date_eq, parseLoop_date]
  rcases hs : s.data with _ | ⟨y1, _ | ⟨y2, _ | ⟨y3, _ | ⟨y4, _ | ⟨h1, _ | ⟨m1, _ | ⟨m2,
    _ | ⟨h2, _ | ⟨d1, _ | ⟨d2, rest⟩⟩⟩⟩⟩⟩⟩⟩⟩⟩ <;> try rfl
  simp only []
  split_ifs with hc
  · cases rest with
    | cons c rest => rfl
    | nil =>
      rw [hs] at h
      obtain ⟨⟨hy1, hy2, hy3, hy4⟩, hh1, ⟨hm1, hm2, hmlo, hmhi⟩, hh2, hd1, hd2⟩ := hc
      simp only [isCalendarDate, hy1, hy2, hy3, hy4, hh1, hm1, hm2, hh2, hd1, hd2, hmlo, hmhi,
        Bool.true_and, beq_self_eq_true, true_and, decide_eq_false_iff_not, not_and, not_le] at h
      have hdays := daysIn_eq_monthLength
        (((digitVal y1 * 10 + digitVal y2) * 10 + digitVal y3) * 10 + digitVal y4)
        (digitVal m1 * 10 + digitVal m2) hmlo hmhi
      simp only []
      rw [if_pos]
      rw [hdays]
      by_cases hlo : 1 ≤ digitVal d1 * 10 + digitVal d2
      · right
        have := h hlo
        omega
      · left
        omega
  · rfl

theorem isCalendarDate_shape (v : List Char) (h : isCalendarDate v = true) :
    ∃ y1 y2 y3 y4 m1 m2 d1 d2 : Char,
      v = [y1, y2, y3, y4, '-', m1, m2, '-', d1, d2] ∧
      (isDigit y1 = true ∧ isDigit y2 = true ∧ isDigit y3 = true ∧ isDigit y4 = true) ∧
      (isDigit m1 = true ∧ isDigit m2 = true ∧
        1 ≤ digitVal m1 * 10 + digitVal m2 ∧ digitVal m1 * 10 + digitVal m2 ≤ 12) ∧
      (isDigit d1 = true ∧ isDigit d2 = true) ∧
      1 ≤ digitVal d1 * 10 + digitVal d2 ∧
      digitVal d1 * 10 + digitVal d2 ≤
        monthLength (((digitVal y1 * 10 + digitVal y2) * 10 + digitVal y3) * 10 + digitVal y4)
          (digitVal m1 * 10 + digitVal m2) := by
  rcases v with _ | ⟨y1, _ | ⟨y2, _ | ⟨y3, _ | ⟨y4, _ | ⟨h1, _ | ⟨m1, _ | ⟨m2,
    _ | ⟨h2, _ | ⟨d1, _ | ⟨d2, _ | ⟨x, rest⟩⟩⟩⟩⟩⟩⟩⟩⟩⟩⟩ <;>
    try (simp [isCalendarDate] at h; done)
  simp only [isCalendarDate, Bool.and_eq_true, beq_iff_eq, decide_eq_true_eq] at h
  obtain ⟨⟨⟨⟨⟨⟨⟨⟨⟨⟨hy1, hy2⟩, hy3⟩, hy4⟩, hh1⟩, hm1⟩, hm2⟩, hh2⟩, hd1⟩, hd2⟩, hr⟩ := h
  subst hh1 hh2
  exact ⟨y1, y2, y3, y4, m1, m2, d1, d2, rfl, ⟨hy1, hy2, hy3, hy4⟩,
    ⟨hm1, hm2, hr.1, hr.2.1⟩, ⟨hd1, hd2⟩, hr.2.2.1, hr.2.2.2⟩

theorem goTimeParse_date_valid (s : String) (h : isCalendarDate s.data = true) :
    (goTimeParse "2006-01-02" s).2 = none ∧
    goTimeFormat (goTimeParse "2006-01-02" s).1 RFC3339 = s ++ "T00:00:00Z" := by
  obtain ⟨y1, y2, y3, y4, m1, m2, d1, d2, hv, hy, hm, hd, hlo, hhi⟩ :=
    isCalendarDate_shape s.data h
  have hdays := daysIn_eq_monthLength
    (((digitVal y1 * 10 + digitVal y2) * 10 + digitVal y3) * 10 + digitVal y4)
    (digitVal m1 * 10 + digitVal m2) hm.2.2.1 hm.2.2.2
  have hday : ¬ (((digitVal d1 * 10 + digitVal d2 : Nat) : Int) < 1 ∨
      ((digitVal d1 * 10 + digitVal d2 : Nat) : Int) >
        daysIn ((digitVal m1 * 10 + digitVal m2 : Nat) : Int)
          ((((digitVal y1 * 10 + digitVal y2) * 10 + digitVal y3) * 10 + digitVal y4 : Nat)
            : Int)) := by
    rw [hdays]
    omega
  have hcond : (isDigit y1 = true ∧ isDigit y2 = true ∧ isDigit y3 = true ∧ isDigit y4 = true) ∧
      True ∧
      (isDigit m1 = true ∧ isDigit m2 = true ∧
        1 ≤ digitVal m1 * 10 + digitVal m2 ∧ digitVal m1 * 10 + digitVal m2 ≤ 12) ∧
      True ∧ (isDigit d1 = true ∧ isDigit d2 = true) := ⟨hy, trivial, hm, trivial, hd⟩
  have hparse : goTimeParse "2006-01-02" s =
      ({ year := ((((digitVal y1 * 10 + digitVal y2) * 10 + digitVal y3) * 10
            + digitVal y4 : Nat) : Int)
         month := ((digitVal m1 * 10 + digitVal m2 : Nat) : Int)
         day := ((digitVal d1 * 10 + digitVal d2 : Nat) : Int)
         hour := 0, minute := 0, second := 0, nanosecond := 0 }, none) := by
    rw [goTimeParse_date_eq, parseLoop_date, hv]
    simp only []
    rw [if_pos hcond]
    simp only []
    rw [if_neg hday]
  rw [hparse]
  refine ⟨rfl, ?_⟩
  have hs : s = String.mk [y1, y2, y3, y4, '-', m1, m2, '-', d1, d2] := by
    rw [← hv]
  have hfmt : RFC3339 = RFC3339 := rfl
  simp only [goTimeFormat, if_true, appendInt_four y1 y2 y3 y4 hy.1 hy.2.1 hy.2.2.1 hy.2.2.2,
    appendInt_two m1 m2 hm.1 hm.2.1, appendInt_two d1 d2 hd.1 hd.2, appendInt_zero_two]
  rw [hs]
  rfl

theorem parseLoop_append (a b : List (List Char × StdChunk)) (f : ParseFields)
    (v : List Char) :
    parseLoop (a ++ b) f v = (parseLoop a f v).bind fun p => parseLoop b p.1 p.2 := by
  induction a generalizing f v with
  | nil => simp [parseLoop]
  | cons c a ih =>
    obtain ⟨lit, std⟩ := c
    simp only [List.cons_append, parseLoop_cons, ih]
    cases skipFrom false v lit with
    | none => rfl
    | some v1 =>
      simp only [Option.some_bind]
      cases parseStd std f v1 with
      | none => rfl
      | some p => rfl

theorem getnum_two (a b : Char) (rest : List Char) (fixed : Bool) (ha : isDigit a = true)
    (hb : isDigit b = true) :
    getnum (a :: b :: rest) fixed = some ((digitVal a : Int) * 10 + (digitVal b : Int), rest) := by
  simp [getnum, ha, hb]

theorem isClockTime_shape (v : List Char) (h : isClockTime v = true) :
    ∃ h1 h2 m1 m2 s1 s2 : Char,
      v = [h1, h2, ':', m1, m2, ':', s1, s2] ∧
      (isDigit h1 = true ∧ isDigit h2 = true) ∧ (isDigit m1 = true ∧ isDigit m2 = true) ∧
      (isDigit s1 = true ∧ isDigit s2 = true) ∧
      digitVal h1 * 10 + digitVal h2 ≤ 23 ∧ digitVal m1 * 10 + digitVal m2 ≤ 59 ∧
      digitVal s1 * 10 + digitVal s2 ≤ 59 := by
  rcases v with _ | ⟨h1, _ | ⟨h2, _ | ⟨c1, _ | ⟨m1, _ | ⟨m2, _ | ⟨c2, _ | ⟨s1, _ | ⟨s2,
    _ | ⟨x, rest⟩⟩⟩⟩⟩⟩⟩⟩⟩ <;>
    try (simp [isClockTime] at h; done)
  simp only [isClockTime, Bool.and_eq_true, beq_iff_eq, decide_eq_true_eq] at h
  obtain ⟨⟨⟨⟨⟨⟨⟨⟨hh1, hh2⟩, hc1⟩, hm1⟩, hm2⟩, hc2⟩, hs1⟩, hs2⟩, hr⟩ := h
  subst hc1 hc2
  exact ⟨h1, h2, m1, m2, s1, s2, rfl, ⟨hh1, hh2⟩, ⟨hm1, hm2⟩, ⟨hs1, hs2⟩, hr.1, hr.2.1, hr.2.2⟩

theorem isTimestamp_shape (v : List Char) (h : isTimestamp v = true) :
    ∃ d t : List Char, v = d ++ ' ' :: t ∧ d.length = 10 ∧ isCalendarDate d = true ∧
      isClockTime t = true := by
  simp only [isTimestamp, Bool.and_eq_true, beq_iff_eq] at h
  obtain ⟨⟨hd, hsp⟩, ht⟩ := h
  obtain ⟨y1, y2, y3, y4, m1, m2, d1, d2, hv, _⟩ := isCalendarDate_shape _ hd
  refine ⟨v.take 10, v.drop 11, ?_, ?_, hd, ht⟩
  · have h1 : v = v.take 10 ++ v.drop 10 := (List.take_append_drop 10 v).symm
    have h2 : v.drop 10 = ' ' :: v.drop 11 := by
      cases hdr : v.drop 10 with
      | nil => rw [hdr] at hsp; simp at hsp
      | cons c r =>
        rw [hdr] at hsp
        have hc : c = ' ' := by simpa using hsp
        have : v.drop 11 = r := by
          have : v.drop 11 = (v.drop 10).drop 1 := by simp [List.drop_drop]
          rw [this, hdr]
          rfl
        rw [this, hc]
    rw [← h2]
    exact h1
  · rw [hv]
    rfl

theorem goTimeParse_timestamp_eq (s : String) :
    goTimeParse "2006-01-02 15:04:05" s =
      match parseLoop timestampChunks {} s.data with
      | some (f, []) =>
        if f.day < 1 ∨ f.day > daysIn f.month f.year then (zeroTime, some parseError)
        else
          ({ year := f.year, month := f.month, day := f.day, hour := f.hour,
             minute := f.min, second := f.sec, nanosecond := f.nsec }, none)
      | _ => (zeroTime, some parseError) := by
  have hl : layoutChunks "2006-01-02 15:04:05" = some (timestampChunks, []) := by decide
  unfold goTimeParse
  rw [hl]
  simp only []
  cases parseLoop timestampChunks {} s.data with
  | none => rfl
  | some p =>
    obtain ⟨f, rest⟩ := p
    cases rest with
    | nil => simp [skipFrom_nil]
    | cons c rest => simp [skipFrom_nil]

theorem parseLoop_clock (f : ParseFields) (h1 h2 m1 m2 s1 s2 : Char)
    (hh : isDigit h1 = true ∧ isDigit h2 = true) (hm : isDigit m1 = true ∧ isDigit m2 = true)
    (hs : isDigit s1 = true ∧ isDigit s2 = true)
    (hhr : digitVal h1 * 10 + digitVal h2 ≤ 23) (hmr : digitVal m1 * 10 + digitVal m2 ≤ 59)
    (hsr : digitVal s1 * 10 + digitVal s2 ≤ 59) :
    parseLoop [([' '], StdChunk.stdHour), ([':'], StdChunk.stdZeroMinute),
        ([':'], StdChunk.stdZeroSecond)] f (' ' :: [h1, h2, ':', m1, m2, ':', s1, s2]) =
      some ({ f with
          hour := ((digitVal h1 * 10 + digitVal h2 : Nat) : Int)
          min := ((digitVal m1 * 10 + digitVal m2 : Nat) : Int)
          sec := ((digitVal s1 * 10 + digitVal s2 : Nat) : Int) }, []) := by
  have hsp : h1 ≠ ' ' := (isDigit_not_sign h1 hh.1).2.2
  have hcolon : ':' ≠ ' ' := by decide
  have hskip : skipFrom false (' ' :: [h1, h2, ':', m1, m2, ':', s1, s2]) [' ']
      = some [h1, h2, ':', m1, m2, ':', s1, s2] := by
    simp [skipFrom, cutspace, hsp]
  have hhi : ¬ ((digitVal h1 : Int) * 10 + (digitVal h2 : Int) < 0 ∨
      24 ≤ (digitVal h1 : Int) * 10 + (digitVal h2 : Int)) := by omega
  have hmi : ¬ ((digitVal m1 : Int) * 10 + (digitVal m2 : Int) < 0 ∨
      60 ≤ (digitVal m1 : Int) * 10 + (digitVal m2 : Int)) := by omega
  have hsi : ¬ ((digitVal s1 : Int) * 10 + (digitVal s2 : Int) < 0 ∨
      60 ≤ (digitVal s1 : Int) * 10 + (digitVal s2 : Int)) := by omega
  rw [parseLoop_cons, hskip]
  simp only [Option.some_bind, parseStd, getnum_two h1 h2 _ _ hh.1 hh.2, if_neg hhi]
  rw [parseLoop_cons, skipFrom_one ':' hcolon]
  simp only [if_true, Option.some_bind, parseStd, getnum_two m1 m2 _ _ hm.1 hm.2, if_neg hmi]
  rw [parseLoop_cons, skipFrom_one ':' hcolon]
  simp only [if_true, Option.some_bind, parseStd, getnum_two s1 s2 _ _ hs.1 hs.2, if_neg hsi,
    parseLoop]
  simp

theorem goTimeParse_timestamp_valid (s : String) (h : isTimestamp s.data = true) :
    (goTimeParse "2006-01-02 15:04:05" s).2 = none ∧
    goTimeFormat (goTimeParse "2006-01-02 15:04:05" s).1 RFC3339
      = String.mk (s.data.take 10 ++ 'T' :: (s.data.drop 11 ++ ['Z'])) := by
  obtain ⟨d, t, hv, hlen, hd, ht⟩ := isTimestamp_shape s.data h
  obtain ⟨y1, y2, y3, y4, m1, m2, d1, d2, hdv, hy, hm, hdd, hlo, hhi⟩ :=
    isCalendarDate_shape d hd
  obtain ⟨h1, h2, n1, n2, s1, s2, htv, hh, hn, hs, hhr, hnr, hsr⟩ := isClockTime_shape t ht
  subst hdv htv
  have hdays := daysIn_eq_monthLength
    (((digitVal y1 * 10 + digitVal y2) * 10 + digitVal y3) * 10 + digitVal y4)
    (digitVal m1 * 10 + digitVal m2) hm.2.2.1 hm.2.2.2
  have hday : ¬ (((digitVal d1 * 10 + digitVal d2 : Nat) : Int) < 1 ∨
      ((digitVal d1 * 10 + digitVal d2 : Nat) : Int) >
        daysIn ((digitVal m1 * 10 + digitVal m2 : Nat) : Int)
          ((((digitVal y1 * 10 + digitVal y2) * 10 + digitVal y3) * 10 + digitVal y4 : Nat)
            : Int)) := by
    rw [hdays]
    omega
  have hcond : (isDigit y1 = true ∧ isDigit y2 = true ∧ isDigit y3 = true ∧ isDigit y4 = true) ∧
      True ∧
      (isDigit m1 = true ∧ isDigit m2 = true ∧
        1 ≤ digitVal m1 * 10 + digitVal m2 ∧ digitVal m1 * 10 + digitVal m2 ≤ 12) ∧
      True ∧ (isDigit d1 = true ∧ isDigit d2 = true) := ⟨hy, trivial, hm, trivial, hdd⟩
  have hparse : goTimeParse "2006-01-02 15:04:05" s =
      ({ year := ((((digitVal y1 * 10 + digitVal y2) * 10 + digitVal y3) * 10
            + digitVal y4 : Nat) : Int)
         month := ((digitVal m1 * 10 + digitVal m2 : Nat) : Int)
         day := ((digitVal d1 * 10 + digitVal d2 : Nat) : Int)
         hour := ((digitVal h1 * 10 + digitVal h2 : Nat) : Int)
         minute := ((digitVal n1 * 10 + digitVal n2 : Nat) : Int)
         second := ((digitVal s1 * 10 + digitVal s2 : Nat) : Int)
         nanosecond := 0 }, none) := by
    rw [goTimeParse_timestamp_eq]
    unfold timestampChunks
    rw [parseLoop_append, parseLoop_date, hv]
    simp only [List.cons_append, List.nil_append]
    rw [if_pos hcond]
    simp only [Option.some_bind]
    rw [parseLoop_clock _ h1 h2 n1 n2 s1 s2 hh hn hs hhr hnr hsr]
    simp only []
    rw [if_neg hday]
  rw [hparse]
  refine ⟨rfl, ?_⟩
  simp only [goTimeFormat, if_true, appendInt_four y1 y2 y3 y4 hy.1 hy.2.1 hy.2.2.1 hy.2.2.2,
    appendInt_two m1 m2 hm.1 hm.2.1, appendInt_two d1 d2 hdd.1 hdd.2,
    appendInt_two h1 h2 hh.1 hh.2, appendInt_two n1 n2 hn.1 hn.2, appendInt_two s1 s2 hs.1 hs.2]
  rw [hv]
  rfl

/-! ### The date converter -/

theorem GetFieldConverter_date_of_valid (std : Stdlib) (field : Field)
    (h : isCalendarDate (StringValue field.StringValue).data = true) :
    GetFieldConverter (withGoTime std) "date" field
      = (Any.string (StringValue field.StringValue ++ "T00:00:00Z"), none) := by
  obtain ⟨h1, h2⟩ := goTimeParse_date_valid (StringValue field.StringValue) h
  rw [GetFieldConverter_date]
  show (if (goTimeParse "2006-01-02" (StringValue field.StringValue)).2 ≠ none then _ else _) = _
  rw [if_neg (by rw [h1]; exact fun hc => hc rfl)]
  show (Any.string (goTimeFormat (goTimeParse "2006-01-02" (StringValue field.StringValue)).1
    RFC3339), none) = _
  rw [h2]

theorem GetFieldConverter_date_of_invalid (std : Stdlib) (field : Field)
    (h : isCalendarDate (StringValue field.StringValue).data = false) :
    GetFieldConverter (withGoTime std) "date" field = (Any.nil, some parseError) := by
  have h1 := goTimeParse_date_invalid (StringValue field.StringValue) h
  rw [GetFieldConverter_date]
  show (if (goTimeParse "2006-01-02" (StringValue field.StringValue)).2 ≠ none then
    (Any.nil, (goTimeParse "2006-01-02" (StringValue field.StringValue)).2) else _) = _
  rw [h1]
  rfl

/-- C11: with Go's time parser and formatter, the date converter applied to a
field whose string value `s` is a valid calendar date written as `YYYY-MM-DD`
returns `s` followed by `T00:00:00Z` and no error ("2024-01-02" gives
"2024-01-02T00:00:00Z"); applied to any other string (wrong shape, month or
day out of range, no string at all) it returns no value and a parse error. -/
theorem GetFieldConverter_date_converts (std : Stdlib) (field : Field) :
    (isCalendarDate (StringValue field.StringValue).data = true →
      GetFieldConverter (withGoTime std) "date" field
        = (Any.string (StringValue field.StringValue ++ "T00:00:00Z"), none)) ∧
    (isCalendarDate (StringValue field.StringValue).data = false →
      GetFieldConverter (withGoTime std) "date" field = (Any.nil, some parseError)) ∧
    GetFieldConverter (withGoTime std) "date" { emptyField with StringValue := some "2024-01-02" }
      = (Any.string "2024-01-02T00:00:00Z", none) ∧
    GetFieldConverter (withGoTime std) "date" { emptyField with StringValue := some "2024-13-02" }
      = (Any.nil, some parseError) ∧
    GetFieldConverter (withGoTime std) "date" { emptyField with StringValue := some "2023-02-29" }
      = (Any.nil, some parseError) ∧
    GetFieldConverter (withGoTime std) "date" { emptyField with StringValue := some "2024-1-2" }
      = (Any.nil, some parseError) ∧
    GetFieldConverter (withGoTime std) "date"
        { emptyField with StringValue := some "2024-01-02 10:00:00" }
      = (Any.nil, some parseError) :=
  ⟨GetFieldConverter_date_of_valid std field, GetFieldConverter_date_of_invalid std field,
   GetFieldConverter_date_of_valid std _ (by decide),
   GetFieldConverter_date_of_invalid std _ (by decide),
   GetFieldConverter_date_of_invalid std _ (by decide),
   GetFieldConverter_date_of_invalid std _ (by decide),
   GetFieldConverter_date_of_invalid std _ (by decide)⟩

/-! ### The timestamp layout -/

theorem parseStd_clock_keeps_date (std : StdChunk) (hstd : std = StdChunk.stdHour ∨
    std = StdChunk.stdZeroMinute ∨ std = StdChunk.stdZeroSecond) (f f2 : ParseFields)
    (v r : List Char) (h : parseStd std f v = some (f2, r)) :
    f2.year = f.year ∧ f2.month = f.month ∧ f2.day = f.day := by
  rcases hstd with e | e | e <;> subst e <;> simp only [parseStd] at h
  · split at h
    · split_ifs at h
      simp only [Option.some.injEq, Prod.mk.injEq] at h
      rw [← h.1]
      exact ⟨rfl, rfl, rfl⟩
    · exact absurd h (by simp)
  · split at h
    · split_ifs at h
      simp only [Option.some.injEq, Prod.mk.injEq] at h
      rw [← h.1]
      exact ⟨rfl, rfl, rfl⟩
    · exact absurd h (by simp)
  · split at h
    · exact absurd h (by simp)
    · split_ifs at h
      split at h
      · split_ifs at h
        · split at h
          · simp only [Option.some.injEq, Prod.mk.injEq] at h
            rw [← h.1]
            exact ⟨rfl, rfl, rfl⟩
          · exact absurd h (by simp)
        · simp only [Option.some.injEq, Prod.mk.injEq] at h
          rw [← h.1]
          exact ⟨rfl, rfl, rfl⟩
      · simp only [Option.some.injEq, Prod.mk.injEq] at h
        rw [← h.1]
        exact ⟨rfl, rfl, rfl⟩

theorem parseLoop_clock_keeps_date (f f2 : ParseFields) (v r : List Char)
    (h : parseLoop [([' '], StdChunk.stdHour), ([':'], StdChunk.stdZeroMinute),
        ([':'], StdChunk.stdZeroSecond)] f v = some (f2, r)) :
    f2.year = f.year ∧ f2.month = f.month ∧ f2.day = f.day := by
  simp only [parseLoop_cons, Option.bind_eq_some] at h
  obtain ⟨v1, _, p1, hp1, v2, _, p2, hp2, v3, _, p3, hp3, hend⟩ := h
  simp only [parseLoop, Option.some.injEq] at hend
  have e1 := parseStd_clock_keeps_date _ (Or.inl rfl) f p1.1 v1 p1.2 hp1
  have e2 := parseStd_clock_keeps_date _ (Or.inr (Or.inl rfl)) p1.1 p2.1 v2 p2.2 hp2
  have e3 := parseStd_clock_keeps_date _ (Or.inr (Or.inr rfl)) p2.1 p3.1 v3 p3.2 hp3
  have hf : p3.1 = f2 := congrArg Prod.fst hend
  rw [← hf]
  exact ⟨by rw [e3.1, e2.1, e1.1], by rw [e3.2.1, e2.2.1, e1.2.1], by rw [e3.2.2, e2.2.2, e1.2.2]⟩

theorem goTimeParse_timestamp_bad_date (s : String)
    (h : isCalendarDate (s.data.take 10) = false) :
    goTimeParse "2006-01-02 15:04:05" s = (zeroTime, some parseError) := by
  rw [goTimeParse_timestamp_eq]
  unfold timestampChunks
  rw [parseLoop_append, parseLoop_date]
  rcases hs : s.data with _ | ⟨y1, _ | ⟨y2, _ | ⟨y3, _ | ⟨y4, _ | ⟨h1, _ | ⟨m1, _ | ⟨m2,
    _ | ⟨h2, _ | ⟨d1, _ | ⟨d2, rest⟩⟩⟩⟩⟩⟩⟩⟩⟩⟩ <;> try rfl
  simp only []
  split_ifs with hc
  swap
  · rfl
  simp only [Option.some_bind]
  cases hp : parseLoop [([' '], StdChunk.stdHour), ([':'], StdChunk.stdZeroMinute),
      ([':'], StdChunk.stdZeroSecond)] _ rest with
  | none => rfl
  | some p =>
    obtain ⟨f2, r⟩ := p
    cases r with
    | cons c r => rfl
    | nil =>
      obtain ⟨ey, em, ed⟩ := parseLoop_clock_keeps_date _ f2 rest [] hp
      rw [hs] at h
      obtain ⟨⟨hy1, hy2, hy3, hy4⟩, hh1, ⟨hm1, hm2, hmlo, hmhi⟩, hh2, hd1, hd2⟩ := hc
      simp only [List.take_succ_cons, List.take_zero, isCalendarDate, hy1, hy2, hy3, hy4, hh1,
        hm1, hm2, hh2, hd1, hd2, hmlo, hmhi, Bool.true_and, beq_self_eq_true, true_and,
        decide_eq_false_iff_not, not_and, not_le] at h
      have hdays := daysIn_eq_monthLength
        (((digitVal y1 * 10 + digitVal y2) * 10 + digitVal y3) * 10 + digitVal y4)
        (digitVal m1 * 10 + digitVal m2) hmlo hmhi
      simp only []
      rw [if_pos]
      rw [ey, em, ed]
      simp only []
      rw [hdays]
      by_cases hlo : 1 ≤ digitVal d1 * 10 + digitVal d2
      · right
        have := h hlo
        omega
      · left
        omega

theorem GetFieldConverter_timestamp_of_valid (std : Stdlib) (field : Field)
    (h : isTimestamp (StringValue field.StringValue).data = true) :
    GetFieldConverter (withGoTime std) "timestamp" field
      = (Any.string (String.mk ((StringValue field.StringValue).data.take 10 ++
          'T' :: ((StringValue field.StringValue).data.drop 11 ++ ['Z']))), none) := by
  obtain ⟨h1, h2⟩ := goTimeParse_timestamp_valid (StringValue field.StringValue) h
  rw [GetFieldConverter_timestamp]
  show (if (goTimeParse "2006-01-02 15:04:05" (StringValue field.StringValue)).2 ≠ none then _
    else _) = _
  rw [if_neg (by rw [h1]; exact fun hc => hc rfl)]
  show (Any.string (goTimeFormat
    (goTimeParse "2006-01-02 15:04:05" (StringValue field.StringValue)).1 RFC3339), none) = _
  rw [h2]

theorem GetFieldConverter_timestamp_of_error (std : Stdlib) (field : Field)
    (h : (goTimeParse "2006-01-02 15:04:05" (StringValue field.StringValue)).2 ≠ none) :
    GetFieldConverter (withGoTime std) "timestamp" field
      = (Any.nil, (goTimeParse "2006-01-02 15:04:05" (StringValue field.StringValue)).2) := by
  rw [GetFieldConverter_timestamp]
  show (if (goTimeParse "2006-01-02 15:04:05" (StringValue field.StringValue)).2 ≠ none then
    (Any.nil, (goTimeParse "2006-01-02 15:04:05" (StringValue field.StringValue)).2) else _) = _
  rw [if_pos h]

/-! ### SQL NULL -/

theorem GetFieldConverter_numeric (std : Stdlib) (field : Field) :
    GetFieldConverter std "numeric" field =
      (Any.float64 (std.ParseFloat (StringValue field.StringValue) 64).1,
       (std.ParseFloat (StringValue field.StringValue) 64).2) := rfl

/-- C12, as stated, fails: on the field of a SQL NULL the date converter and
the timestamp converter return no value and a parse error (they parse the
empty string), not a zero-equivalent string. -/
theorem GetFieldConverter_null_date_fails :
    nullField.BooleanValue = none ∧ nullField.DoubleValue = none ∧
    nullField.LongValue = none ∧ nullField.StringValue = none ∧
    GetFieldConverter (withGoTime exampleStdlib) "date" nullField
      = (Any.nil, some parseError) ∧
    GetFieldConverter (withGoTime exampleStdlib) "timestamp" nullField
      = (Any.nil, some parseError) := by
  decide

/-- C12, amended: on a field with no value member set, the converters for
serial, int2, int4 and int8 return 0, the one for bool returns false, the ones
for bpchar, varchar, text and time return the empty string and the one for
float4 returns 0, all without an error; the numeric converter returns what
`strconv.ParseFloat` returns for the empty string, and the date and timestamp
converters return no value and the error of `time.Parse` on the empty
string. -/
theorem GetFieldConverter_null_field (std : Stdlib) (field : Field)
    (hbool : field.BooleanValue = none) (hdouble : field.DoubleValue = none)
    (hlong : field.LongValue = none) (hstring : field.StringValue = none) :
    (GetFieldConverter std "serial" field = (Any.int64 0, none) ∧
     GetFieldConverter std "int2" field = (Any.int64 0, none) ∧
     GetFieldConverter std "int4" field = (Any.int64 0, none) ∧
     GetFieldConverter std "int8" field = (Any.int64 0, none)) ∧
    GetFieldConverter std "bool" field = (Any.bool false, none) ∧
    (GetFieldConverter std "bpchar" field = (Any.string "", none) ∧
     GetFieldConverter std "varchar" field = (Any.string "", none) ∧
     GetFieldConverter std "text" field = (Any.string "", none) ∧
     GetFieldConverter std "time" field = (Any.string "", none)) ∧
    GetFieldConverter std "float4" field = (Any.float64 { bits := 0 }, none) ∧
    GetFieldConverter std "numeric" field
      = (Any.float64 (std.ParseFloat "" 64).1, (std.ParseFloat "" 64).2) ∧
    GetFieldConverter (withGoTime std) "date" field = (Any.nil, some parseError) ∧
    GetFieldConverter (withGoTime std) "timestamp" field = (Any.nil, some parseError) := by
  have hs : StringValue field.StringValue = "" := by rw [hstring]; rfl
  have hl : Int64Value field.LongValue = 0 := by rw [hlong]; rfl
  have hb : BoolValue field.BooleanValue = false := by rw [hbool]; rfl
  have hd : Float64Value field.DoubleValue = { bits := 0 } := by rw [hdouble]; rfl
  refine ⟨⟨?_, ?_, ?_, ?_⟩, ?_, ⟨?_, ?_, ?_, ?_⟩, ?_, ?_, ?_, ?_⟩
  · show (Any.int64 (Int64Value field.LongValue), none) = _
    rw [hl]
  · show (Any.int64 (Int64Value field.LongValue), none) = _
    rw [hl]
  · show (Any.int64 (Int64Value field.LongValue), none) = _
    rw [hl]
  · show (Any.int64 (Int64Value field.LongValue), none) = _
    rw [hl]
  · show (Any.bool (BoolValue field.BooleanValue), none) = _
    rw [hb]
  · show (Any.string (StringValue field.StringValue), none) = _
    rw [hs]
  · show (Any.string (StringValue field.StringValue), none) = _
    rw [hs]
  · show (Any.string (StringValue field.StringValue), none) = _
    rw [hs]
  · show (Any.string (StringValue field.StringValue), none) = _
    rw [hs]
  · show (Any.float64 (Float64Value field.DoubleValue), none) = _
    rw [hd]
  · rw [GetFieldConverter_numeric, hs]
  · exact GetFieldConverter_date_of_invalid std field (by rw [hs]; decide)
  · have h1 : goTimeParse "2006-01-02 15:04:05" (StringValue field.StringValue)
        = (zeroTime, some parseError) := by rw [hs]; decide
    rw [GetFieldConverter_timestamp_of_error std field (by rw [h1]; exact fun hc => by cases hc),
      h1]

theorem GetFieldConverter_null_field_witness :
    nullField.BooleanValue = none ∧ nullField.DoubleValue = none ∧
    nullField.LongValue = none ∧ nullField.StringValue = none ∧
    GetFieldConverter exampleStdlib "int4" nullField = (Any.int64 0, none) ∧
    GetFieldConverter exampleStdlib "text" nullField = (Any.string "", none) ∧
    GetFieldConverter (withGoTime exampleStdlib) "date" nullField
      = (Any.nil, some parseError) :=
  have h := GetFieldConverter_null_field exampleStdlib nullField rfl rfl rfl rfl
  ⟨rfl, rfl, rfl, rfl, h.1.2.2.1, h.2.2.1.2.2.1, h.2.2.2.2.2.1⟩

/-! ## MigrateQuery: placeholders and parameters -/

theorem colonAt_drop (s : List Char) (k : Nat) : (colonAt s).drop k = colonAt (s.drop k) := by
  induction s generalizing k with
  | nil => simp [colonAt]
  | cons c rest ih =>
    cases k with
    | zero => rfl
    | succ k => simpa [colonAt] using ih k

theorem isDigit_colon : isDigit ':' = false := by decide

theorem digitRun_colonAt (s : List Char) : digitRun (colonAt s) = digitRun s := by
  induction s with
  | nil => rfl
  | cons c rest ih =>
    by_cases hd : isDigit c = true
    · have hc : c ≠ '$' := isDigit_ne_dollar c hd
      simp [colonAt, digitRun, hc, hd, ih]
    · by_cases hp : c = '$' ∧ 1 ≤ digitRun rest
      · obtain ⟨hc, hr⟩ := hp
        subst hc
        have hdol : isDigit '$' = false := by decide
        simp [colonAt, digitRun, hr, hdol, isDigit_colon]
      · simp [colonAt, digitRun, hp, hd]

theorem take_digitRun_colonAt (s : List Char) :
    (colonAt s).take (digitRun s) = s.take (digitRun s) := by
  induction s with
  | nil => rfl
  | cons c rest ih =>
    by_cases hd : isDigit c = true
    · have hc : c ≠ '$' := isDigit_ne_dollar c hd
      simp [colonAt, digitRun, hc, hd, ih]
    · simp [digitRun, hd]

theorem placeholderAt_colonAt (s : List Char) (i : Nat) (N : List Char)
    (h : placeholderAt '$' s i = some N) : placeholderAt ':' (colonAt s) i = some N := by
  unfold placeholderAt at h ⊢
  rw [colonAt_drop]
  cases hs : s.drop i with
  | nil => rw [hs] at h; simp at h
  | cons c rest =>
    rw [hs] at h
    simp only [] at h
    split_ifs at h with hc
    simp only [colonAt, hc, and_self, if_true, digitRun_colonAt, take_digitRun_colonAt]
    exact h

/-- C13, as stated, fails: for the query `SELECT $2` with one parameter of
ordinal 1, `MigrateQuery` returns without error the text `SELECT :2`, whose
placeholder `:2` has no parameter named "2": the list handed to the encoder,
and the encoded list, hold the one parameter named "1". -/
theorem MigrateQuery_placeholder_without_parameter :
    (MigrateQuery exampleEncoder "SELECT $2"
      [{ Name := "", Ordinal := 1, Value := DriverValue.int64 7 }]).2 = none ∧
    (MigrateQuery exampleEncoder "SELECT $2"
      [{ Name := "", Ordinal := 1, Value := DriverValue.int64 7 }]).1.map (fun r => r.Sql)
      = some "SELECT :2" ∧
    (MigrateQuery exampleEncoder "SELECT $2"
      [{ Name := "", Ordinal := 1, Value := DriverValue.int64 7 }]).1.map
        (fun r => r.Parameters.map fun p => p.Name) = some [some "1"] ∧
    (∀ enc : Encoder,
      MigrateQuery enc "SELECT $2" [{ Name := "", Ordinal := 1, Value := DriverValue.int64 7 }]
        = (some { Parameters := (enc [{ Name := "1", Ordinal := 0,
                                        Value := DriverValue.int64 7 }]).1
                  Sql := "SELECT :2" },
           (enc [{ Name := "1", Ordinal := 0, Value := DriverValue.int64 7 }]).2)) ∧
    placeholderAt ':' "SELECT :2".data 7 = some ['2'] ∧
    (∀ p ∈ [({ Name := "1", Ordinal := 0, Value := DriverValue.int64 7 } : NamedValue)],
      p.Name ≠ "2") := by
  refine ⟨by decide, by decide, by decide, ?_, by decide, by decide⟩
  intro enc
  rw [MigrateQuery_ordinal enc _ _ (by decide) (by decide)]
  have h1 : renameArgs [{ Name := "", Ordinal := 1, Value := DriverValue.int64 7 }]
      = [{ Name := "1", Ordinal := 0, Value := DriverValue.int64 7 }] := by decide
  have h2 : ReplaceAllStringFunc postgresRegex "SELECT $2" (fun s => Replace s '$' [':'] 1)
      = "SELECT :2" := by decide
  rw [h1, h2]

/-- C13, amended: on the rewrite path (no parameter named, some ordinal
positive), a placeholder `$N` of the query whose number `N` is the decimal
ordinal of one of the parameters appears as `:N` at the same position of the
returned SQL, and the list handed to the encoder has a parameter named `N`
that carries that parameter's value. -/
theorem MigrateQuery_placeholder_parameter (query : String) (args : List NamedValue)
    (i : Nat) (N : List Char) (a : NamedValue)
    (hnames : ∀ b ∈ args, b.Name = "") (hord : ∃ b ∈ args, b.Ordinal > 0)
    (hph : placeholderAt '$' query.data i = some N)
    (ha : a ∈ args) (hN : (Itoa a.Ordinal).data = N) :
    ∃ (L : List NamedValue) (sql : String),
      (∀ enc : Encoder,
        MigrateQuery enc query args
          = (some { Parameters := (enc L).1, Sql := sql }, (enc L).2)) ∧
      placeholderAt ':' sql.data i = some N ∧
      ∃ p ∈ L, p.Name.data = N ∧ p.Value = a.Value := by
  have hn : hasNamed args = false := hasNamed_eq_false args hnames
  have ho : hasOrdinal args = true := (hasOrdinal_iff args).2 hord
  refine ⟨renameArgs args,
    ReplaceAllStringFunc postgresRegex query (fun s => Replace s '$' [':'] 1),
    fun enc => MigrateQuery_ordinal enc query args hn ho, ?_, ?_⟩
  · show placeholderAt ':'
      (replaceAllFrom postgresRegex (fun m => Replace m '$' [':'] 1) query.data 0) i = some N
    rw [replaceAllFrom_postgres]
    exact placeholderAt_colonAt query.data i N hph
  · refine ⟨{ Name := Itoa a.Ordinal, Ordinal := 0, Value := a.Value }, ?_, hN, rfl⟩
    exact List.mem_map.2 ⟨a, ha, rfl⟩

theorem MigrateQuery_placeholder_parameter_witness :
    (∀ b ∈ exampleOrdinalArgs, b.Name = "") ∧ (∃ b ∈ exampleOrdinalArgs, b.Ordinal > 0) ∧
    placeholderAt '$' "SELECT * FROM t WHERE a=$1 AND b=$2".data 33 = some ['2'] ∧
    ({ Name := "", Ordinal := 2, Value := DriverValue.string "x" } : NamedValue)
      ∈ exampleOrdinalArgs ∧
    (Itoa 2).data = ['2'] ∧
    ∃ (L : List NamedValue) (sql : String),
      (∀ enc : Encoder,
        MigrateQuery enc "SELECT * FROM t WHERE a=$1 AND b=$2" exampleOrdinalArgs
          = (some { Parameters := (enc L).1, Sql := sql }, (enc L).2)) ∧
      placeholderAt ':' sql.data 33 = some ['2'] ∧
      ∃ p ∈ L, p.Name.data = ['2'] ∧ p.Value = DriverValue.string "x" :=
  ⟨by decide, by decide, by decide, by decide, by decide,
   MigrateQuery_placeholder_parameter "SELECT * FROM t WHERE a=$1 AND b=$2" exampleOrdinalArgs
     33 ['2'] { Name := "", Ordinal := 2, Value := DriverValue.string "x" }
     (by decide) (by decide) (by decide) (by decide) (by decide)⟩

/-! ## The numeric converter -/

theorem goParseFloat_pi : goParseFloat "3.14" 64 = ({ bits := 0x40091EB851EB851F }, none) := by
  decide

theorem goParseFloat_abc : goParseFloat "abc" 64 = ({ bits := 0 }, some errSyntax) := by
  decide

theorem GetFieldConverter_numeric_go (std : Stdlib) (field : Field) :
    GetFieldConverter (withGoFloat std) "numeric" field =
      (Any.float64 (goParseFloat (StringValue field.StringValue) 64).1,
       (goParseFloat (StringValue field.StringValue) 64).2) := rfl

/-- C14: the numeric converter parses the string member of the field as a
64-bit float.  With the float parser of the standard library in place, the
converter returns, for every field, exactly what `strconv.ParseFloat` returns
for the string member and bit size 64.  For the string `3.14` it succeeds with
the `float64` of bit pattern `0x40091EB851EB851F`: positive, significand
7070651414971679, exponent -51, which lies within half a unit of the last
place of 314/100, so it is the float 3.14.  For the string `abc` it fails with
the syntax error of the parser (the value beside the error is the float 0 that
`ParseFloat` returns); the empty string, a number followed by other text and a
blank before the number fail likewise, and a number too large for a `float64`
fails with the range error. -/
theorem GetFieldConverter_numeric_parses (std : Stdlib) (field : Field) :
    GetFieldConverter (withGoFloat std) "numeric" field =
        (Any.float64 (goParseFloat (StringValue field.StringValue) 64).1,
         (goParseFloat (StringValue field.StringValue) 64).2) ∧
      GetFieldConverter (withGoFloat std) "numeric" { field with StringValue := some "3.14" } =
        (Any.float64 { bits := 0x40091EB851EB851F }, none) ∧
      (goParseFloat "3.14" 64).1.negative = false ∧
      (goParseFloat "3.14" 64).1.significand = 7070651414971679 ∧
      (goParseFloat "3.14" 64).1.exponent = -51 ∧
      2 * (((goParseFloat "3.14" 64).1.significand : Int) * 100 - 314 * 2 ^ 51).natAbs ≤ 100 ∧
      GetFieldConverter (withGoFloat std) "numeric" { field with StringValue := some "abc" } =
        (Any.float64 { bits := 0 }, some errSyntax) ∧
      GetFieldConverter (withGoFloat std) "numeric" { field with StringValue := some "" } =
        (Any.float64 { bits := 0 }, some errSyntax) ∧
      GetFieldConverter (withGoFloat std) "numeric" { field with StringValue := some "3.14abc" } =
        (Any.float64 { bits := 0 }, some errSyntax) ∧
      GetFieldConverter (withGoFloat std) "numeric" { field with StringValue := some " 3.14" } =
        (Any.float64 { bits := 0 }, some errSyntax) ∧
      GetFieldConverter (withGoFloat std) "numeric" { field with StringValue := some "1e400" } =
        (Any.float64 { bits := 0x7FF0000000000000 }, some errRange) := by
  have hpi := goParseFloat_pi
  refine ⟨rfl, ?_, ?_, ?_, ?_, ?_, ?_, ?_, ?_, ?_, ?_⟩
  · rw [GetFieldConverter_numeric_go]
    show (Any.float64 (goParseFloat "3.14" 64).1, (goParseFloat "3.14" 64).2) = _
    rw [hpi]
  · rw [hpi]; decide
  · rw [hpi]; decide
  · rw [hpi]; decide
  · rw [hpi]; decide
  · rw [GetFieldConverter_numeric_go]
    show (Any.float64 (goParseFloat "abc" 64).1, (goParseFloat "abc" 64).2) = _
    rw [goParseFloat_abc]
  · rw [GetFieldConverter_numeric_go]
    show (Any.float64 (goParseFloat "" 64).1, (goParseFloat "" 64).2) = _
    have h : goParseFloat "" 64 = ({ bits := 0 }, some errSyntax) := by decide
    rw [h]
  · rw [GetFieldConverter_numeric_go]
    show (Any.float64 (goParseFloat "3.14abc" 64).1, (goParseFloat "3.14abc" 64).2) = _
    have h : goParseFloat "3.14abc" 64 = ({ bits := 0 }, some errSyntax) := by decide
    rw [h]
  · rw [GetFieldConverter_numeric_go]
    show (Any.float64 (goParseFloat " 3.14" 64).1, (goParseFloat " 3.14" 64).2) = _
    have h : goParseFloat " 3.14" 64 = ({ bits := 0 }, some errSyntax) := by decide
    rw [h]
  · rw [GetFieldConverter_numeric_go]
    show (Any.float64 (goParseFloat "1e400" 64).1, (goParseFloat "1e400" 64).2) = _
    have h : goParseFloat "1e400" 64 = ({ bits := 0x7FF0000000000000 }, some errRange) := by
      decide
    rw [h]

/-! ## MigrateQuery: the shape of the outcome -/

/-- C15, as stated, fails: when the encoder fails (here on a time value, which
the example encoder cannot encode), `MigrateQuery` returns a request together
with the encoder's error. -/
theorem MigrateQuery_request_with_error :
    (exampleEncoder [{ Name := "1", Ordinal := 0, Value := DriverValue.time zeroTime }]).2
      = some (Error.foreign "unsupported type") ∧
    (MigrateQuery exampleEncoder "SELECT $1"
      [{ Name := "", Ordinal := 1, Value := DriverValue.time zeroTime }]).2
      = some (Error.foreign "unsupported type") ∧
    (MigrateQuery exampleEncoder "SELECT $1"
      [{ Name := "", Ordinal := 1, Value := DriverValue.time zeroTime }]).1.map (fun r => r.Sql)
      = some "SELECT :1" ∧
    (MigrateQuery exampleEncoder "SELECT $1"
      [{ Name := "", Ordinal := 1, Value := DriverValue.time zeroTime }]).1 ≠ none := by
  refine ⟨by decide, by decide, by decide, ?_⟩
  rw [MigrateQuery_ordinal exampleEncoder _ _ (by decide) (by decide)]
  simp

/-- C15, amended: `MigrateQuery` returns no request only together with
`ErrNoMixedParams`; in every other case it returns a request whose parameters
are the encoder's result, paired with the encoder's error, so that a failure
of the encoder comes with a request and a success comes with a request and no
error. -/
theorem MigrateQuery_outcomes (enc : Encoder) (query : String) (args : List NamedValue) :
    MigrateQuery enc query args = (none, some Error.ErrNoMixedParams) ∨
    ∃ (r : ExecuteStatementInput) (L : List NamedValue),
      (L = args ∨ L = renameArgs args) ∧
      MigrateQuery enc query args = (some r, (enc L).2) ∧
      r.Parameters = (enc L).1 := by
  cases ho : hasOrdinal args with
  | false =>
    exact Or.inr ⟨_, args, Or.inl rfl, MigrateQuery_plain enc query args ho, rfl⟩
  | true =>
    cases hn : hasNamed args with
    | true => exact Or.inl (MigrateQuery_mixed enc query args hn ho)
    | false =>
      exact Or.inr ⟨_, renameArgs args, Or.inr rfl, MigrateQuery_ordinal enc query args hn ho,
        rfl⟩

/-! ### The timestamp converter: everything that is accepted -/

theorem leadingInt_digits (l : List Char) (hl : ∀ c ∈ l, isDigit c = true) (k : Nat)
    (hk : l.length + k ≤ 18) (x : Nat) (hx : x < 10 ^ k) :
    ∃ y, leadingInt l x = some (y, []) := by
  induction l generalizing k x with
  | nil => exact ⟨x, rfl⟩
  | cons c rest ih =>
    have hc := hl c (List.mem_cons_self c rest)
    have hd := digitVal_le c hc
    have hk17 : k ≤ 17 := by simp only [List.length_cons] at hk; omega
    have hpow : 10 ^ k ≤ 10 ^ 17 := Nat.pow_le_pow_right (by decide) hk17
    have h17 : (10 : Nat) ^ 17 = 100000000000000000 := by norm_num
    have h1 : ¬ x > 9223372036854775808 / 10 := by omega
    have h2 : ¬ x * 10 + digitVal c > 9223372036854775808 := by omega
    have hstep : leadingInt (c :: rest) x = leadingInt rest (x * 10 + digitVal c) := by
      simp [leadingInt, hc, h1, h2]
    rw [hstep]
    apply ih (fun c' hc' => hl c' (List.mem_cons_of_mem c hc')) (k + 1)
    · simp only [List.length_cons] at hk; omega
    · rw [Nat.pow_succ]; omega

theorem atoi_digits (l : List Char) (hne : l ≠ []) (hl : ∀ c ∈ l, isDigit c = true)
    (hlen : l.length ≤ 9) : ∃ n : Int, atoi l = some n ∧ 0 ≤ n := by
  cases l with
  | nil => exact absurd rfl hne
  | cons a rest =>
    have ha := hl a (List.mem_cons_self a rest)
    obtain ⟨hm, hp, _⟩ := isDigit_not_sign a ha
    have hhead : ¬ ((a :: rest).head? = some '-' ∨ (a :: rest).head? = some '+') := by
      simp [hm, hp]
    have hneg : decide ((a :: rest).head? = some '-') = false := by simp [hm]
    obtain ⟨y, hy⟩ := leadingInt_digits (a :: rest) hl 0 (by omega) 0 (by norm_num)
    refine ⟨(y : Int), ?_, Int.natCast_nonneg y⟩
    unfold atoi
    simp only [hhead, if_false, hneg, hy]
    rfl

theorem take_digitRun_digits (l : List Char) (m : Nat) (hm : m ≤ digitRun l) :
    ∀ c ∈ l.take m, isDigit c = true := by
  induction l generalizing m with
  | nil => simp
  | cons a rest ih =>
    cases m with
    | zero => simp
    | succ m =>
      by_cases ha : isDigit a = true
      · simp only [digitRun, ha, if_true] at hm
        intro c hc
        simp only [List.take_succ_cons, List.mem_cons] at hc
        rcases hc with e | hc
        · rw [e]; exact ha
        · exact ih m (by omega) c hc
      · simp [digitRun, ha] at hm

theorem digitRun_le_length (l : List Char) : digitRun l ≤ l.length := by
  induction l with
  | nil => simp [digitRun]
  | cons a rest ih =>
    by_cases ha : isDigit a = true
    · simp only [digitRun, ha, if_true, List.length_cons]; omega
    · simp [digitRun, ha]

theorem digitRun_eq_length_iff (l : List Char) :
    digitRun l = l.length ↔ l.all isDigit = true := by
  induction l with
  | nil => simp [digitRun]
  | cons a rest ih =>
    by_cases ha : isDigit a = true
    · simp only [digitRun, ha, if_true, List.length_cons, List.all_cons, Bool.true_and]
      rw [← ih]
      omega
    · simp [digitRun, ha]

theorem parseNanoseconds_fraction (c d : Char) (rest : List Char)
    (hc : commaOrPeriod c = true) (hd : isDigit d = true) :
    ∃ ns : Int, parseNanoseconds (c :: d :: rest) (2 + digitRun rest) = some ns := by
  have hlen := digitRun_le_length rest
  have htake : ∀ m, 1 ≤ m → m ≤ 1 + digitRun rest → m ≤ 9 →
      ∃ n : Int, atoi ((d :: rest).take m) = some n ∧ 0 ≤ n := by
    intro m h1 h2 h3
    apply atoi_digits
    · cases m with
      | zero => omega
      | succ m => simp
    · have hrun : digitRun (d :: rest) = digitRun rest + 1 := by simp [digitRun, hd]
      exact take_digitRun_digits (d :: rest) m (by omega)
    · rw [List.length_take]; omega
  by_cases hbig : 2 + digitRun rest > 10
  · obtain ⟨n, hn, hn0⟩ := htake 9 (by omega) (by omega) (by omega)
    refine ⟨n * 10 ^ (10 - 10), ?_⟩
    have ht : List.drop 1 (List.take 10 (c :: d :: rest)) = (d :: rest).take 9 := by simp
    simp only [parseNanoseconds, hc, if_true, hbig, ht, hn]
    rw [if_neg (by omega)]
  · obtain ⟨n, hn, hn0⟩ := htake (1 + digitRun rest) (by omega) (by omega) (by omega)
    refine ⟨n * 10 ^ (10 - (2 + digitRun rest)), ?_⟩
    have ht : List.drop 1 (List.take (2 + digitRun rest) (c :: d :: rest))
        = (d :: rest).take (1 + digitRun rest) := by
      have : 2 + digitRun rest = (1 + digitRun rest) + 1 := by omega
      rw [this, List.take_succ_cons]
      rfl
    simp only [parseNanoseconds, hc, if_true, hbig, if_false, ht, hn]
    rw [if_neg (by omega)]

theorem isFraction_cons (c : Char) (rest : List Char) :
    isFraction (c :: rest) = true ↔
      commaOrPeriod c = true ∧ ∃ d r, rest = d :: r ∧ isDigit d = true ∧ r.all isDigit = true := by
  cases rest with
  | nil => simp [isFraction]
  | cons d r =>
    simp only [isFraction, commaOrPeriod, Bool.and_eq_true, Bool.or_eq_true, beq_iff_eq,
      decide_eq_true_eq, List.isEmpty_cons, Bool.not_false, and_true, List.all_cons,
      List.cons.injEq]
    constructor
    · rintro ⟨hc, hd, hr⟩
      exact ⟨hc, d, r, ⟨rfl, rfl⟩, hd, hr⟩
    · rintro ⟨hc, d', r', ⟨e1, e2⟩, hd, hr⟩
      subst e1 e2
      exact ⟨hc, hd, hr⟩

theorem parseStd_second_accept (f : ParseFields) (s1 s2 : Char) (frac : List Char)
    (h1 : isDigit s1 = true) (h2 : isDigit s2 = true)
    (hr : digitVal s1 * 10 + digitVal s2 ≤ 59) (hf : isFraction frac = true) :
    ∃ ns : Int, parseStd StdChunk.stdZeroSecond f (s1 :: s2 :: frac) =
      some ({ f with sec := ((digitVal s1 * 10 + digitVal s2 : Nat) : Int), nsec := ns }, []) := by
  have hsi : ¬ ((digitVal s1 : Int) * 10 + (digitVal s2 : Int) < 0 ∨
      60 ≤ (digitVal s1 : Int) * 10 + (digitVal s2 : Int)) := by omega
  cases frac with
  | nil =>
    refine ⟨f.nsec, ?_⟩
    simp [parseStd, getnum_two s1 s2 _ _ h1 h2, hsi]
  | cons c rest =>
    obtain ⟨hc, d, r, hrest, hd, hall⟩ := (isFraction_cons c rest).1 hf
    subst hrest
    obtain ⟨ns, hns⟩ := parseNanoseconds_fraction c d r hc hd
    have hrun : digitRun r = r.length := (digitRun_eq_length_iff r).2 hall
    have hdrop : List.drop (2 + digitRun r) (c :: d :: r) = [] := by
      rw [hrun]
      have : 2 + r.length = r.length + 1 + 1 := by omega
      rw [this]
      simp
    refine ⟨ns, ?_⟩
    simp only [parseStd, getnum_two s1 s2 _ _ h1 h2, if_neg hsi, hc, hd, Bool.and_self, if_true,
      hns, hdrop]
    simp

theorem parseStd_second_reject (f f2 : ParseFields) (v : List Char)
    (h : parseStd StdChunk.stdZeroSecond f v = some (f2, [])) :
    ∃ (s1 s2 : Char) (frac : List Char), v = s1 :: s2 :: frac ∧
      isDigit s1 = true ∧ isDigit s2 = true ∧ digitVal s1 * 10 + digitVal s2 ≤ 59 ∧
      isFraction frac = true ∧
      f2.sec = ((digitVal s1 * 10 + digitVal s2 : Nat) : Int) ∧ f2.year = f.year ∧
      f2.month = f.month ∧ f2.day = f.day ∧ f2.hour = f.hour ∧ f2.min = f.min := by
  simp only [parseStd, getnum_fixed] at h
  rcases v with _ | ⟨s1, _ | ⟨s2, frac⟩⟩
  · simp at h
  · simp at h
  simp only [] at h
  by_cases hd : isDigit s1 = true ∧ isDigit s2 = true
  swap
  · rw [if_neg hd] at h
    simp at h
  rw [if_pos hd] at h
  simp only [] at h
  by_cases hr : ((digitVal s1 : Int) * 10 + (digitVal s2 : Int) < 0 ∨
      60 ≤ (digitVal s1 : Int) * 10 + (digitVal s2 : Int))
  · rw [if_pos hr] at h
    simp at h
  rw [if_neg hr] at h
  have hle : digitVal s1 * 10 + digitVal s2 ≤ 59 := by omega
  refine ⟨s1, s2, frac, rfl, hd.1, hd.2, hle, ?_⟩
  rcases frac with _ | ⟨c, _ | ⟨d, r⟩⟩
  · simp only [Option.some.injEq, Prod.mk.injEq, and_true] at h
    rw [← h]
    exact ⟨rfl, by push_cast; rfl, rfl, rfl, rfl, rfl, rfl⟩
  · simp at h
  · simp only [] at h
    by_cases hc : (commaOrPeriod c && isDigit d) = true
    swap
    · rw [if_neg hc] at h
      simp at h
    rw [if_pos hc] at h
    simp only [Bool.and_eq_true] at hc
    cases hp : parseNanoseconds (c :: d :: r) (2 + digitRun r) with
    | none => rw [hp] at h; simp at h
    | some ns =>
      rw [hp] at h
      simp only [Option.some.injEq, Prod.mk.injEq] at h
      obtain ⟨hf2, hdrop⟩ := h
      have hlen : r.length ≤ digitRun r := by
        have := congrArg List.length hdrop
        simp only [List.length_drop, List.length_cons, List.length_nil] at this
        omega
      have hrun : digitRun r = r.length := Nat.le_antisymm (digitRun_le_length r) hlen
      refine ⟨?_, ?_⟩
      · exact (isFraction_cons c (d :: r)).2
          ⟨hc.1, d, r, rfl, hc.2, (digitRun_eq_length_iff r).1 hrun⟩
      · rw [← hf2]
        exact ⟨by push_cast; rfl, rfl, rfl, rfl, rfl, rfl⟩

theorem appendInt_one (a : Char) (ha : isDigit a = true) :
    appendInt ((digitVal a : Nat) : Int) 2 = ['0', a] := by
  have hda := digitVal_le a ha
  have hneg : ¬ ((digitVal a : Nat) : Int) < 0 := by omega
  have hlt : digitVal a < 100 := by omega
  have h1 : digitVal a / 10 = 0 := by omega
  have h2 : digitVal a % 10 = digitVal a := by omega
  have h0 : utod 0 = '0' := by decide
  simp only [appendInt, hneg, if_false, Int.natAbs_ofNat, hlt, and_self, if_true, h1, h2,
    List.nil_append, utod_digitVal a ha, h0]

theorem isMinuteSecond_shape (v : List Char) (h : isMinuteSecond v = true) :
    ∃ (m1 m2 s1 s2 : Char) (frac : List Char), v = m1 :: m2 :: ':' :: s1 :: s2 :: frac ∧
      (isDigit m1 = true ∧ isDigit m2 = true) ∧ (isDigit s1 = true ∧ isDigit s2 = true) ∧
      digitVal m1 * 10 + digitVal m2 ≤ 59 ∧ digitVal s1 * 10 + digitVal s2 ≤ 59 ∧
      isFraction frac = true := by
  rcases v with _ | ⟨m1, _ | ⟨m2, _ | ⟨c, _ | ⟨s1, _ | ⟨s2, frac⟩⟩⟩⟩⟩ <;>
    try (simp [isMinuteSecond] at h; done)
  simp only [isMinuteSecond, Bool.and_eq_true, beq_iff_eq, decide_eq_true_eq] at h
  obtain ⟨⟨⟨⟨⟨⟨hm1, hm2⟩, hc⟩, hs1⟩, hs2⟩, hr⟩, hf⟩ := h
  subst hc
  exact ⟨m1, m2, s1, s2, frac, rfl, ⟨hm1, hm2⟩, ⟨hs1, hs2⟩, hr.1, hr.2, hf⟩

theorem parseLoop_minsec_accept (f : ParseFields) (v : List Char)
    (h : isMinuteSecond v = true) :
    ∃ f2 : ParseFields,
      parseLoop [([':'], StdChunk.stdZeroMinute), ([':'], StdChunk.stdZeroSecond)] f (':' :: v)
        = some (f2, []) ∧
      f2.year = f.year ∧ f2.month = f.month ∧ f2.day = f.day ∧ f2.hour = f.hour ∧
      appendInt f2.min 2 ++ ':' :: appendInt f2.sec 2 = v.take 5 := by
  obtain ⟨m1, m2, s1, s2, frac, hv, hm, hs, hmr, hsr, hf⟩ := isMinuteSecond_shape v h
  subst hv
  have hcolon : ':' ≠ ' ' := by decide
  have hmi : ¬ ((digitVal m1 : Int) * 10 + (digitVal m2 : Int) < 0 ∨
      60 ≤ (digitVal m1 : Int) * 10 + (digitVal m2 : Int)) := by omega
  obtain ⟨ns, hns⟩ := parseStd_second_accept
    { f with min := ((digitVal m1 : Int) * 10 + (digitVal m2 : Int)) } s1 s2 frac hs.1 hs.2 hsr hf
  refine ⟨{ f with min := ((digitVal m1 : Int) * 10 + (digitVal m2 : Int))
                   sec := ((digitVal s1 * 10 + digitVal s2 : Nat) : Int), nsec := ns }, ?_, ?_⟩
  · rw [parseLoop_cons, skipFrom_one ':' hcolon]
    simp only [if_true, Option.some_bind, parseStd, getnum_two m1 m2 _ _ hm.1 hm.2, if_neg hmi]
    rw [parseLoop_cons, skipFrom_one ':' hcolon]
    simp only [if_true, Option.some_bind]
    rw [hns]
    simp only [Option.some_bind, parseLoop]
  · refine ⟨rfl, rfl, rfl, rfl, ?_⟩
    have e1 : ((digitVal m1 : Int) * 10 + (digitVal m2 : Int))
        = ((digitVal m1 * 10 + digitVal m2 : Nat) : Int) := by push_cast; rfl
    simp only [e1, appendInt_two m1 m2 hm.1 hm.2, appendInt_two s1 s2 hs.1 hs.2]
    rfl

theorem parseLoop_minsec_reject (f f2 : ParseFields) (w : List Char)
    (h : parseLoop [([':'], StdChunk.stdZeroMinute), ([':'], StdChunk.stdZeroSecond)] f w
      = some (f2, [])) :
    ∃ v, w = ':' :: v ∧ isMinuteSecond v = true ∧
      f2.year = f.year ∧ f2.month = f.month ∧ f2.day = f.day := by
  have hcolon : ':' ≠ ' ' := by decide
  simp only [parseLoop_cons, Option.bind_eq_some, skipFrom_one ':' hcolon] at h
  obtain ⟨v1, hv1, p1, hp1, v2, hv2, p2, hp2, hend⟩ := h
  simp only [parseLoop, Option.some.injEq] at hend
  rcases w with _ | ⟨c, v⟩
  · simp at hv1
  simp only [] at hv1
  by_cases hc : c = ':'
  swap
  · rw [if_neg hc] at hv1
    simp at hv1
  rw [if_pos hc] at hv1
  simp only [Option.some.injEq] at hv1
  subst hc hv1
  refine ⟨v, rfl, ?_⟩
  -- the minute
  simp only [parseStd, getnum_fixed] at hp1
  rcases v with _ | ⟨m1, _ | ⟨m2, rest⟩⟩
  · simp at hp1
  · simp at hp1
  simp only [] at hp1
  by_cases hd : isDigit m1 = true ∧ isDigit m2 = true
  swap
  · rw [if_neg hd] at hp1
    simp at hp1
  rw [if_pos hd] at hp1
  simp only [] at hp1
  by_cases hr : ((digitVal m1 : Int) * 10 + (digitVal m2 : Int) < 0 ∨
      60 ≤ (digitVal m1 : Int) * 10 + (digitVal m2 : Int))
  · rw [if_pos hr] at hp1
    simp at hp1
  rw [if_neg hr] at hp1
  simp only [Option.some.injEq] at hp1
  have hmle : digitVal m1 * 10 + digitVal m2 ≤ 59 := by omega
  -- the second colon
  rw [← hp1] at hv2 hp2
  simp only [] at hv2 hp2
  rcases rest with _ | ⟨c2, rest2⟩
  · simp at hv2
  simp only [] at hv2
  by_cases hc2 : c2 = ':'
  swap
  · rw [if_neg hc2] at hv2
    simp at hv2
  rw [if_pos hc2] at hv2
  simp only [Option.some.injEq] at hv2
  subst hc2 hv2
  have hp2' : parseStd StdChunk.stdZeroSecond
      { f with min := (digitVal m1 : Int) * 10 + (digitVal m2 : Int) } rest2 = some (f2, []) := by
    rw [hp2]
    exact congrArg some (Prod.ext (congrArg Prod.fst hend) (congrArg Prod.snd hend))
  obtain ⟨s1, s2, frac, hrest2, hs1, hs2, hsle, hfrac, _, hy, hmo, hda, _, _⟩ :=
    parseStd_second_reject _ f2 rest2 hp2'
  subst hrest2
  refine ⟨?_, hy, hmo, hda⟩
  simp [isMinuteSecond, hd.1, hd.2, hs1, hs2, hmle, hsle, hfrac]

theorem isDigit_colon_false : isDigit ':' = false := by decide

theorem cutspace_head (r : List Char) : (cutspace r).head? ≠ some ' ' := by
  induction r with
  | nil => simp [cutspace]
  | cons c rest ih =>
    by_cases hc : c = ' '
    · simpa [cutspace, hc] using ih
    · simp [cutspace, hc]

theorem skipFrom_space (r : List Char) (h : r.head? = some ' ') :
    skipFrom false r [' '] = some (cutspace r) := by
  cases r with
  | nil => simp at h
  | cons c rest =>
    have hc : c = ' ' := by simpa using h
    subst hc
    simp [skipFrom]

theorem skipFrom_space_some (r v : List Char) (hv : v ≠ [])
    (h : skipFrom false r [' '] = some v) : r.head? = some ' ' ∧ v = cutspace r := by
  cases r with
  | nil =>
    simp [skipFrom] at h
    exact absurd h hv
  | cons c rest =>
    by_cases hc : c = ' '
    · subst hc
      simp [skipFrom] at h
      exact ⟨rfl, h.symm⟩
    · simp [skipFrom, hc] at h

theorem parseLoop_clock_accept (f : ParseFields) (r : List Char) (hsp : r.head? = some ' ')
    (h : isLenientClock (cutspace r) = true) :
    ∃ f2 : ParseFields,
      parseLoop [([' '], StdChunk.stdHour), ([':'], StdChunk.stdZeroMinute),
          ([':'], StdChunk.stdZeroSecond)] f r = some (f2, []) ∧
      f2.year = f.year ∧ f2.month = f.month ∧ f2.day = f.day ∧
      appendInt f2.hour 2 ++ ':' :: (appendInt f2.min 2 ++ ':' :: appendInt f2.sec 2)
        = clockText (cutspace r) := by
  rw [parseLoop_cons, skipFrom_space r hsp]
  simp only [Option.some_bind]
  generalize cutspace r = t at h
  rcases t with _ | ⟨h1, _ | ⟨c, rest⟩⟩
  · simp [isLenientClock] at h
  · simp [isLenientClock] at h
  by_cases hc : c = ':'
  · subst hc
    simp only [isLenientClock, if_true, Bool.and_eq_true] at h
    obtain ⟨hd1, hms⟩ := h
    have hda := digitVal_le h1 hd1
    have hhi : ¬ ((digitVal h1 : Int) < 0 ∨ 24 ≤ (digitVal h1 : Int)) := by omega
    obtain ⟨f2, hf2, hy, hmo, hda2, hho, htxt⟩ :=
      parseLoop_minsec_accept { f with hour := (digitVal h1 : Int) } rest hms
    refine ⟨f2, ?_, hy, hmo, hda2, ?_⟩
    · simp only [parseStd, getnum, hd1, isDigit_colon_false, if_true, if_neg hhi, Bool.false_eq_true,
        if_false, Option.some_bind]
      exact hf2
    · rw [hho]
      show appendInt ((digitVal h1 : Nat) : Int) 2 ++ ':' :: (appendInt f2.min 2 ++
        ':' :: appendInt f2.sec 2) = _
      rw [appendInt_one h1 hd1, htxt]
      simp [clockText]
  · rcases rest with _ | ⟨c2, rest2⟩
    · simp [isLenientClock, hc] at h
    simp only [isLenientClock, if_neg hc, Bool.and_eq_true, beq_iff_eq, decide_eq_true_eq] at h
    obtain ⟨⟨⟨⟨hd1, hd2⟩, hc2⟩, hr⟩, hms⟩ := h
    subst hc2
    have hhi : ¬ ((digitVal h1 : Int) * 10 + (digitVal c : Int) < 0 ∨
        24 ≤ (digitVal h1 : Int) * 10 + (digitVal c : Int)) := by omega
    obtain ⟨f2, hf2, hy, hmo, hda2, hho, htxt⟩ :=
      parseLoop_minsec_accept { f with hour := (digitVal h1 : Int) * 10 + (digitVal c : Int) }
        rest2 hms
    refine ⟨f2, ?_, hy, hmo, hda2, ?_⟩
    · simp only [parseStd, getnum_two h1 c _ _ hd1 hd2, if_neg hhi, Option.some_bind]
      exact hf2
    · rw [hho]
      have e1 : ((digitVal h1 : Int) * 10 + (digitVal c : Int))
          = ((digitVal h1 * 10 + digitVal c : Nat) : Int) := by push_cast; rfl
      show appendInt ((digitVal h1 : Int) * 10 + (digitVal c : Int)) 2 ++ ':' ::
        (appendInt f2.min 2 ++ ':' :: appendInt f2.sec 2) = _
      rw [e1, appendInt_two h1 c hd1 hd2, htxt]
      simp [clockText, hc]

theorem parseLoop_clock_reject (f f2 : ParseFields) (r : List Char)
    (h : parseLoop [([' '], StdChunk.stdHour), ([':'], StdChunk.stdZeroMinute),
        ([':'], StdChunk.stdZeroSecond)] f r = some (f2, [])) :
    r.head? = some ' ' ∧ isLenientClock (cutspace r) = true ∧
      f2.year = f.year ∧ f2.month = f.month ∧ f2.day = f.day := by
  rw [parseLoop_cons] at h
  simp only [Option.bind_eq_some] at h
  obtain ⟨v1, hv1, p, hp, hms⟩ := h
  have hne : v1 ≠ [] := by
    intro e
    rw [e] at hp
    simp [parseStd, getnum] at hp
  obtain ⟨hsp, hcut⟩ := skipFrom_space_some r v1 hne hv1
  refine ⟨hsp, ?_⟩
  rw [← hcut]
  obtain ⟨w, hw, hmsv, hy, hmo, hda⟩ := parseLoop_minsec_reject p.1 f2 p.2 hms
  have hkeep := parseStd_clock_keeps_date StdChunk.stdHour (Or.inl rfl) f p.1 v1 p.2 hp
  refine ⟨?_, by rw [hy, hkeep.1], by rw [hmo, hkeep.2.1], by rw [hda, hkeep.2.2]⟩
  simp only [parseStd] at hp
  rcases v1 with _ | ⟨a, _ | ⟨b, rest⟩⟩
  · exact absurd rfl hne
  · -- one character: nothing is left for the colon
    by_cases ha : isDigit a = true
    · simp [getnum, ha] at hp
      rw [← hp.2] at hw
      simp at hw
    · simp [getnum, ha] at hp
  · by_cases ha : isDigit a = true
    swap
    · simp [getnum, ha] at hp
    by_cases hb : isDigit b = true
    · rw [getnum_two a b rest false ha hb] at hp
      simp only [] at hp
      by_cases hr : ((digitVal a : Int) * 10 + (digitVal b : Int) < 0 ∨
          24 ≤ (digitVal a : Int) * 10 + (digitVal b : Int))
      · rw [if_pos hr] at hp
        simp at hp
      rw [if_neg hr] at hp
      simp only [Option.some.injEq] at hp
      rw [← hp] at hw
      simp only [] at hw
      subst hw
      have hbc : b ≠ ':' := fun e => by rw [e] at hb; exact absurd hb (by decide)
      have hle : digitVal a * 10 + digitVal b ≤ 23 := by omega
      simp [isLenientClock, hbc, ha, hb, hle, hmsv]
    · have hbf : isDigit b = false := by simpa using hb
      simp only [getnum, ha, hbf, if_true, Bool.false_eq_true, if_false] at hp
      have hda := digitVal_le a ha
      have hr : ¬ ((digitVal a : Int) < 0 ∨ 24 ≤ (digitVal a : Int)) := by omega
      rw [if_neg hr] at hp
      simp only [Option.some.injEq] at hp
      rw [← hp] at hw
      simp only [List.cons.injEq] at hw
      obtain ⟨hbc, hrest⟩ := hw
      subst hbc hrest
      simp [isLenientClock, ha, hmsv]

theorem parseLoop_date_some (f0 : ParseFields) (v : List Char) (p : ParseFields × List Char)
    (h : parseLoop dateChunks f0 v = some p) :
    ∃ y1 y2 y3 y4 m1 m2 d1 d2 : Char,
      v = y1 :: y2 :: y3 :: y4 :: '-' :: m1 :: m2 :: '-' :: d1 :: d2 :: p.2 ∧
      (isDigit y1 = true ∧ isDigit y2 = true ∧ isDigit y3 = true ∧ isDigit y4 = true) ∧
      (isDigit m1 = true ∧ isDigit m2 = true ∧
        1 ≤ digitVal m1 * 10 + digitVal m2 ∧ digitVal m1 * 10 + digitVal m2 ≤ 12) ∧
      (isDigit d1 = true ∧ isDigit d2 = true) ∧
      p.1 = { f0 with
        year := ((((digitVal y1 * 10 + digitVal y2) * 10 + digitVal y3) * 10
          + digitVal y4 : Nat) : Int)
        month := ((digitVal m1 * 10 + digitVal m2 : Nat) : Int)
        day := ((digitVal d1 * 10 + digitVal d2 : Nat) : Int) } := by
  rw [parseLoop_date] at h
  rcases v with _ | ⟨y1, _ | ⟨y2, _ | ⟨y3, _ | ⟨y4, _ | ⟨h1, _ | ⟨m1, _ | ⟨m2,
    _ | ⟨h2, _ | ⟨d1, _ | ⟨d2, rest⟩⟩⟩⟩⟩⟩⟩⟩⟩⟩ <;> try (simp at h; done)
  simp only [] at h
  split_ifs at h with hc
  obtain ⟨hy, hh1, hm, hh2, hd⟩ := hc
  subst hh1 hh2
  simp only [Option.some.injEq] at h
  rw [← h]
  exact ⟨y1, y2, y3, y4, m1, m2, d1, d2, rfl, hy, hm, hd, rfl⟩

theorem isCalendarDate_of_parts (y1 y2 y3 y4 m1 m2 d1 d2 : Char)
    (hy : isDigit y1 = true ∧ isDigit y2 = true ∧ isDigit y3 = true ∧ isDigit y4 = true)
    (hm : isDigit m1 = true ∧ isDigit m2 = true ∧
      1 ≤ digitVal m1 * 10 + digitVal m2 ∧ digitVal m1 * 10 + digitVal m2 ≤ 12)
    (hd : isDigit d1 = true ∧ isDigit d2 = true)
    (hday : ¬ (((digitVal d1 * 10 + digitVal d2 : Nat) : Int) < 1 ∨
      ((digitVal d1 * 10 + digitVal d2 : Nat) : Int) >
        daysIn ((digitVal m1 * 10 + digitVal m2 : Nat) : Int)
          ((((digitVal y1 * 10 + digitVal y2) * 10 + digitVal y3) * 10 + digitVal y4 : Nat)
            : Int))) :
    isCalendarDate [y1, y2, y3, y4, '-', m1, m2, '-', d1, d2] = true := by
  have hdays := daysIn_eq_monthLength
    (((digitVal y1 * 10 + digitVal y2) * 10 + digitVal y3) * 10 + digitVal y4)
    (digitVal m1 * 10 + digitVal m2) hm.2.2.1 hm.2.2.2
  rw [hdays] at hday
  have h1 : 1 ≤ digitVal d1 * 10 + digitVal d2 := by omega
  have h2 : digitVal d1 * 10 + digitVal d2 ≤
      monthLength (((digitVal y1 * 10 + digitVal y2) * 10 + digitVal y3) * 10 + digitVal y4)
        (digitVal m1 * 10 + digitVal m2) := by omega
  simp [isCalendarDate, hy.1, hy.2.1, hy.2.2.1, hy.2.2.2, hm.1, hm.2.1, hm.2.2.1, hm.2.2.2,
    hd.1, hd.2, h1, h2]

theorem goTimeParse_timestamp_reject (s : String) (h : isGoTimestamp s.data = false) :
    goTimeParse "2006-01-02 15:04:05" s = (zeroTime, some parseError) := by
  rw [goTimeParse_timestamp_eq]
  cases hp : parseLoop timestampChunks {} s.data with
  | none => rfl
  | some q =>
    obtain ⟨f, rest⟩ := q
    cases rest with
    | cons c rest => rfl
    | nil =>
      simp only []
      rw [if_pos]
      by_contra hday
      unfold timestampChunks at hp
      rw [parseLoop_append] at hp
      simp only [Option.bind_eq_some] at hp
      obtain ⟨p1, hp1, hclock⟩ := hp
      obtain ⟨y1, y2, y3, y4, m1, m2, d1, d2, hv, hy, hm, hd, hf1⟩ :=
        parseLoop_date_some {} s.data p1 hp1
      obtain ⟨hsp, hlen, ey, em, ed⟩ := parseLoop_clock_reject p1.1 f p1.2 hclock
      rw [ey, em, ed, hf1] at hday
      have hcal := isCalendarDate_of_parts y1 y2 y3 y4 m1 m2 d1 d2 hy hm hd hday
      have htake : s.data.take 10 = [y1, y2, y3, y4, '-', m1, m2, '-', d1, d2] := by
        rw [hv]; rfl
      have hdrop : s.data.drop 10 = p1.2 := by
        rw [hv]; rfl
      have : isGoTimestamp s.data = true := by
        simp [isGoTimestamp, htake, hdrop, hcal, hsp, hlen]
      rw [this] at h
      exact absurd h (by decide)

theorem goTimeParse_timestamp_accept (s : String) (h : isGoTimestamp s.data = true) :
    (goTimeParse "2006-01-02 15:04:05" s).2 = none ∧
    goTimeFormat (goTimeParse "2006-01-02 15:04:05" s).1 RFC3339
      = String.mk (s.data.take 10 ++ 'T' :: (clockText (cutspace (s.data.drop 10)) ++ ['Z'])) := by
  simp only [isGoTimestamp, Bool.and_eq_true, beq_iff_eq] at h
  obtain ⟨⟨hd, hsp⟩, hc⟩ := h
  obtain ⟨y1, y2, y3, y4, m1, m2, d1, d2, hdv, hy, hm, hdd, hlo, hhi⟩ :=
    isCalendarDate_shape _ hd
  have hv : s.data = y1 :: y2 :: y3 :: y4 :: '-' :: m1 :: m2 :: '-' :: d1 :: d2 ::
      s.data.drop 10 := by
    have := (List.take_append_drop 10 s.data).symm
    rw [hdv] at this
    exact this
  have hdays := daysIn_eq_monthLength
    (((digitVal y1 * 10 + digitVal y2) * 10 + digitVal y3) * 10 + digitVal y4)
    (digitVal m1 * 10 + digitVal m2) hm.2.2.1 hm.2.2.2
  have hday : ¬ (((digitVal d1 * 10 + digitVal d2 : Nat) : Int) < 1 ∨
      ((digitVal d1 * 10 + digitVal d2 : Nat) : Int) >
        daysIn ((digitVal m1 * 10 + digitVal m2 : Nat) : Int)
          ((((digitVal y1 * 10 + digitVal y2) * 10 + digitVal y3) * 10 + digitVal y4 : Nat)
            : Int)) := by
    rw [hdays]
    omega
  have hcond : (isDigit y1 = true ∧ isDigit y2 = true ∧ isDigit y3 = true ∧ isDigit y4 = true) ∧
      True ∧
      (isDigit m1 = true ∧ isDigit m2 = true ∧
        1 ≤ digitVal m1 * 10 + digitVal m2 ∧ digitVal m1 * 10 + digitVal m2 ≤ 12) ∧
      True ∧ (isDigit d1 = true ∧ isDigit d2 = true) := ⟨hy, trivial, hm, trivial, hdd⟩
  obtain ⟨f2, hf2, ey, em, ed, htxt⟩ := parseLoop_clock_accept
    { year := ((((digitVal y1 * 10 + digitVal y2) * 10 + digitVal y3) * 10
          + digitVal y4 : Nat) : Int)
      month := ((digitVal m1 * 10 + digitVal m2 : Nat) : Int)
      day := ((digitVal d1 * 10 + digitVal d2 : Nat) : Int) } (s.data.drop 10) hsp hc
  have hloop : parseLoop timestampChunks {} s.data = some (f2, []) := by
    unfold timestampChunks
    rw [parseLoop_append, parseLoop_date]
    conv_lhs => rw [hv]
    simp only []
    rw [if_pos hcond]
    simp only [Option.some_bind]
    exact hf2
  have hparse : goTimeParse "2006-01-02 15:04:05" s =
      ({ year := f2.year, month := f2.month, day := f2.day, hour := f2.hour,
         minute := f2.min, second := f2.sec, nanosecond := f2.nsec }, none) := by
    rw [goTimeParse_timestamp_eq, hloop]
    simp only []
    rw [if_neg (by rw [ey, em, ed]; exact hday)]
  rw [hparse]
  refine ⟨rfl, ?_⟩
  simp only [goTimeFormat, if_true, ey, em, ed,
    appendInt_four y1 y2 y3 y4 hy.1 hy.2.1 hy.2.2.1 hy.2.2.2,
    appendInt_two m1 m2 hm.1 hm.2.1, appendInt_two d1 d2 hdd.1 hdd.2]
  rw [hdv, ← htxt]
  simp

theorem GetFieldConverter_timestamp_of_accepted (std : Stdlib) (field : Field)
    (h : isGoTimestamp (StringValue field.StringValue).data = true) :
    GetFieldConverter (withGoTime std) "timestamp" field
      = (Any.string (String.mk ((StringValue field.StringValue).data.take 10 ++
          'T' :: (clockText (cutspace ((StringValue field.StringValue).data.drop 10))
            ++ ['Z']))), none) := by
  obtain ⟨h1, h2⟩ := goTimeParse_timestamp_accept (StringValue field.StringValue) h
  rw [GetFieldConverter_timestamp]
  show (if (goTimeParse "2006-01-02 15:04:05" (StringValue field.StringValue)).2 ≠ none then _
    else _) = _
  rw [if_neg (by rw [h1]; exact fun hc => hc rfl)]
  show (Any.string (goTimeFormat
    (goTimeParse "2006-01-02 15:04:05" (StringValue field.StringValue)).1 RFC3339), none) = _
  rw [h2]

theorem GetFieldConverter_timestamp_of_rejected (std : Stdlib) (field : Field)
    (h : isGoTimestamp (StringValue field.StringValue).data = false) :
    GetFieldConverter (withGoTime std) "timestamp" field = (Any.nil, some parseError) := by
  have h1 := goTimeParse_timestamp_reject (StringValue field.StringValue) h
  rw [GetFieldConverter_timestamp_of_error std field (by rw [h1]; exact fun hc => by cases hc), h1]

/-- C16, as stated, fails: the timestamp converter also succeeds on strings
that are not written as `YYYY-MM-DD HH:MM:SS`.  A fractional second after the
seconds is accepted and dropped, an hour of one digit is accepted and padded,
and several spaces before the time are accepted. -/
theorem GetFieldConverter_timestamp_accepts_more :
    isTimestamp "2024-01-02 15:04:05.123456".data = false ∧
    GetFieldConverter (withGoTime exampleStdlib) "timestamp"
        { emptyField with StringValue := some "2024-01-02 15:04:05.123456" }
      = (Any.string "2024-01-02T15:04:05Z", none) ∧
    isTimestamp "2024-01-02 5:04:05".data = false ∧
    GetFieldConverter (withGoTime exampleStdlib) "timestamp"
        { emptyField with StringValue := some "2024-01-02 5:04:05" }
      = (Any.string "2024-01-02T05:04:05Z", none) ∧
    isTimestamp "2024-01-02   15:04:05".data = false ∧
    GetFieldConverter (withGoTime exampleStdlib) "timestamp"
        { emptyField with StringValue := some "2024-01-02   15:04:05" }
      = (Any.string "2024-01-02T15:04:05Z", none) := by
  decide

/-- C16, amended: with Go's time parser and formatter, the timestamp converter
applied to a field whose string value is a valid date and time written as
`YYYY-MM-DD HH:MM:SS` returns the same digits with the space replaced by `T`
and `Z` appended, and no error.  It succeeds exactly on the wider form that
`time.Parse` takes for the layout (a valid date, one or more spaces, an hour
of one or two digits up to 23, `:MM:SS`, and an optional fraction of a second
after a period or a comma) and then returns the date, `T`, the hour on two
digits, `:MM:SS` and `Z`, the fraction left out; on every other string it
returns no value and a parse error. -/
theorem GetFieldConverter_timestamp_converts (std : Stdlib) (field : Field) :
    (isTimestamp (StringValue field.StringValue).data = true →
      GetFieldConverter (withGoTime std) "timestamp" field
        = (Any.string (String.mk ((StringValue field.StringValue).data.take 10 ++
            'T' :: ((StringValue field.StringValue).data.drop 11 ++ ['Z']))), none)) ∧
    (isGoTimestamp (StringValue field.StringValue).data = true →
      GetFieldConverter (withGoTime std) "timestamp" field
        = (Any.string (String.mk ((StringValue field.StringValue).data.take 10 ++
            'T' :: (clockText (cutspace ((StringValue field.StringValue).data.drop 10))
              ++ ['Z']))), none)) ∧
    (isGoTimestamp (StringValue field.StringValue).data = false →
      GetFieldConverter (withGoTime std) "timestamp" field = (Any.nil, some parseError)) ∧
    GetFieldConverter (withGoTime std) "timestamp"
        { emptyField with StringValue := some "2024-01-02 15:04:05" }
      = (Any.string "2024-01-02T15:04:05Z", none) ∧
    GetFieldConverter (withGoTime std) "timestamp"
        { emptyField with StringValue := some "2024-01-02 5:04:05,5" }
      = (Any.string "2024-01-02T05:04:05Z", none) ∧
    GetFieldConverter (withGoTime std) "timestamp"
        { emptyField with StringValue := some "2024-01-02T15:04:05" }
      = (Any.nil, some parseError) ∧
    GetFieldConverter (withGoTime std) "timestamp"
        { emptyField with StringValue := some "2024-01-02 24:00:00" }
      = (Any.nil, some parseError) ∧
    GetFieldConverter (withGoTime std) "timestamp"
        { emptyField with StringValue := some "2024-02-30 10:00:00" }
      = (Any.nil, some parseError) ∧
    GetFieldConverter (withGoTime std) "timestamp"
        { emptyField with StringValue := some "2024-01-02 15:04:05." }
      = (Any.nil, some parseError) ∧
    GetFieldConverter (withGoTime std) "timestamp"
        { emptyField with StringValue := some "2024-01-02" }
      = (Any.nil, some parseError) :=
  ⟨GetFieldConverter_timestamp_of_valid std field,
   GetFieldConverter_timestamp_of_accepted std field,
   GetFieldConverter_timestamp_of_rejected std field,
   GetFieldConverter_timestamp_of_valid std _ (by decide),
   GetFieldConverter_timestamp_of_accepted std _ (by decide),
   GetFieldConverter_timestamp_of_rejected std _ (by decide),
   GetFieldConverter_timestamp_of_rejected std _ (by decide),
   GetFieldConverter_timestamp_of_rejected std _ (by decide),
   GetFieldConverter_timestamp_of_rejected std _ (by decide),
   GetFieldConverter_timestamp_of_rejected std _ (by decide)⟩

/-- C17: when no parameter is named, some ordinal is positive and some ordinal
is not, `MigrateQuery` does not reject the list: it returns a request whose SQL
is the rewritten query and whose parameters are the encoder's result on the
list in which every parameter, those of ordinal `≤ 0` included, is named by
the decimal string of its ordinal ("0", "-1", ...) and keeps its value; the
error is the encoder's. -/
theorem MigrateQuery_any_ordinal_rewrites (enc : Encoder) (query : String)
    (args : List NamedValue)
    (hnames : ∀ a ∈ args, a.Name = "") (hpos : ∃ a ∈ args, a.Ordinal > 0)
    (hnonpos : ∃ a ∈ args, a.Ordinal ≤ 0) :
    MigrateQuery enc query args ≠ (none, some Error.ErrNoMixedParams) ∧
    MigrateQuery enc query args
      = (some { Parameters :=
                  (enc (args.map fun v =>
                    { Name := Itoa v.Ordinal, Ordinal := 0, Value := v.Value })).1
                Sql := ReplaceAllStringFunc postgresRegex query
                  (fun s => Replace s '$' [':'] 1) },
         (enc (args.map fun v =>
            { Name := Itoa v.Ordinal, Ordinal := 0, Value := v.Value })).2) ∧
    (∃ a ∈ args, a.Ordinal ≤ 0 ∧
      ({ Name := Itoa a.Ordinal, Ordinal := 0, Value := a.Value } : NamedValue)
        ∈ args.map (fun v => { Name := Itoa v.Ordinal, Ordinal := 0, Value := v.Value })) ∧
    Itoa 0 = "0" ∧ Itoa (-1) = "-1" := by
  have hn : hasNamed args = false := hasNamed_eq_false args hnames
  have ho : hasOrdinal args = true := (hasOrdinal_iff args).2 hpos
  have heq := MigrateQuery_ordinal enc query args hn ho
  refine ⟨?_, heq, ?_, by decide, by decide⟩
  · rw [heq]
    simp
  · obtain ⟨a, ha, hle⟩ := hnonpos
    exact ⟨a, ha, hle, List.mem_map.2 ⟨a, ha, rfl⟩⟩

theorem MigrateQuery_any_ordinal_rewrites_witness :
    (∀ a ∈ exampleSparseArgs, a.Name = "") ∧ (∃ a ∈ exampleSparseArgs, a.Ordinal > 0) ∧
    (∃ a ∈ exampleSparseArgs, a.Ordinal ≤ 0) ∧
    MigrateQuery exampleEncoder "SELECT $1, $0" exampleSparseArgs
      ≠ (none, some Error.ErrNoMixedParams) ∧
    (MigrateQuery exampleEncoder "SELECT $1, $0" exampleSparseArgs).1.map
        (fun r => (r.Sql, r.Parameters.map fun p => p.Name))
      = some ("SELECT :1, :0", [some "1", some "0", some "-1"]) :=
  ⟨by decide, by decide, by decide,
   (MigrateQuery_any_ordinal_rewrites exampleEncoder "SELECT $1, $0" exampleSparseArgs
      (by decide) (by decide) (by decide)).1,
   by decide⟩

/-! ## The placeholder rewrite: completeness and idempotence -/

theorem colonAt_of_no_placeholder (s : List Char)
    (h : ∀ (i : Nat) (d : Char), s[i]? = some '$' → s[i + 1]? = some d → isDigit d = false) :
    colonAt s = s := by
  induction s with
  | nil => rfl
  | cons c rest ih =>
    have hrest : ∀ (i : Nat) (d : Char), rest[i]? = some '$' → rest[i + 1]? = some d →
        isDigit d = false := by
      intro i d h0 h1
      exact h (i + 1) d (by simpa using h0) (by simpa using h1)
    have hhead : ¬ (c = '$' ∧ 1 ≤ digitRun rest) := by
      rintro ⟨hc, hr⟩
      obtain ⟨d, hd0, hd⟩ := (digitRun_pos_iff rest).1 hr
      have := h 0 d (by simp [hc]) (by simpa using hd0)
      rw [hd] at this
      exact absurd this (by decide)
    simp [colonAt, hhead, ih hrest]

theorem colonAt_complete (s : List Char) (i : Nat) (d : Char)
    (h0 : (colonAt s)[i]? = some '$') (h1 : (colonAt s)[i + 1]? = some d) :
    isDigit d = false := by
  by_cases hp : s[i]? = some '$' ∧ ∃ d', s[i + 1]? = some d' ∧ isDigit d' = true
  · obtain ⟨hs0, d', hs1, hd'⟩ := hp
    rw [colonAt_get_placeholder s i d' hs0 hs1 hd'] at h0
    exact absurd h0 (by decide)
  · by_cases hq : s[i + 1]? = some '$' ∧ ∃ d', s[i + 1 + 1]? = some d' ∧ isDigit d' = true
    · obtain ⟨hs0, d', hs1, hd'⟩ := hq
      rw [colonAt_get_placeholder s (i + 1) d' hs0 hs1 hd'] at h1
      have : d = ':' := by
        simp only [Option.some.injEq] at h1
        exact h1.symm
      rw [this]
      decide
    · rw [colonAt_get_other s i hp] at h0
      rw [colonAt_get_other s (i + 1) hq] at h1
      cases hd : isDigit d with
      | false => rfl
      | true => exact absurd ⟨h0, d, h1, hd⟩ hp

/-- C18: for every query text, the rewritten text has no `$` directly followed
by a decimal digit, rewriting the rewritten text gives it back unchanged, and
a text with no `$` directly followed by a digit is returned unchanged. -/
theorem ReplaceAllStringFunc_complete_idempotent (query : String) :
    (∀ (i : Nat) (d : Char),
      (ReplaceAllStringFunc postgresRegex query (fun s => Replace s '$' [':'] 1)).data[i]?
          = some '$' →
      (ReplaceAllStringFunc postgresRegex query (fun s => Replace s '$' [':'] 1)).data[i + 1]?
          = some d →
      isDigit d = false) ∧
    ReplaceAllStringFunc postgresRegex
        (ReplaceAllStringFunc postgresRegex query (fun s => Replace s '$' [':'] 1))
        (fun s => Replace s '$' [':'] 1)
      = ReplaceAllStringFunc postgresRegex query (fun s => Replace s '$' [':'] 1) ∧
    ((∀ (i : Nat) (d : Char), query.data[i]? = some '$' → query.data[i + 1]? = some d →
        isDigit d = false) →
      ReplaceAllStringFunc postgresRegex query (fun s => Replace s '$' [':'] 1) = query) ∧
    ReplaceAllStringFunc postgresRegex "a=$1, b=$22, c='$', d=$x" (fun s => Replace s '$' [':'] 1)
      = "a=:1, b=:22, c='$', d=$x" := by
  have hout : (ReplaceAllStringFunc postgresRegex query (fun s => Replace s '$' [':'] 1)).data
      = colonAt query.data := replaceAllFrom_postgres query.data
  refine ⟨?_, ?_, ?_, by decide⟩
  · intro i d h0 h1
    rw [hout] at h0 h1
    exact colonAt_complete query.data i d h0 h1
  · show String.mk (replaceAllFrom postgresRegex (fun m => Replace m '$' [':'] 1)
        (ReplaceAllStringFunc postgresRegex query (fun s => Replace s '$' [':'] 1)).data 0)
      = String.mk (replaceAllFrom postgresRegex (fun m => Replace m '$' [':'] 1) query.data 0)
    rw [replaceAllFrom_postgres, replaceAllFrom_postgres, hout,
      colonAt_of_no_placeholder (colonAt query.data) (colonAt_complete query.data)]
  · intro h
    show String.mk (replaceAllFrom postgresRegex (fun m => Replace m '$' [':'] 1) query.data 0)
      = query
    rw [replaceAllFrom_postgres, colonAt_of_no_placeholder query.data h]

/-! ### One member per converter -/

theorem GetFieldConverter_long (std : Stdlib) (t : String)
    (ht : t ∈ ["serial", "int2", "int4", "int8"]) (field : Field) :
    GetFieldConverter std t field = (Any.int64 (Int64Value field.LongValue), none) := by
  simp only [List.mem_cons, List.mem_singleton, List.not_mem_nil, or_false] at ht
  rcases ht with e | e | e | e <;> subst e <;> rfl

theorem GetFieldConverter_string (std : Stdlib) (t : String)
    (ht : t ∈ ["bpchar", "varchar", "text", "time"]) (field : Field) :
    GetFieldConverter std t field = (Any.string (StringValue field.StringValue), none) := by
  simp only [List.mem_cons, List.mem_singleton, List.not_mem_nil, or_false] at ht
  rcases ht with e | e | e | e <;> subst e <;> rfl

/-- C19: a converter reads one member of the field and nothing else.  Two
fields with the same `LongValue` get the same result from the serial, int2,
int4 and int8 converters, two with the same `BooleanValue` from the bool
converter, two with the same `DoubleValue` from the float4 converter, and two
with the same `StringValue` from the bpchar, varchar, text, time, numeric, date
and timestamp converters, whatever their other members are.  So the int4
converter returns 0 without error on a field that holds only a string, and
the text converter returns the empty string without error on a field that
holds only an integer. -/
theorem GetFieldConverter_reads_one_member (std : Stdlib) (f g : Field) :
    (f.LongValue = g.LongValue →
      ∀ t ∈ ["serial", "int2", "int4", "int8"],
        GetFieldConverter std t f = GetFieldConverter std t g) ∧
    (f.BooleanValue = g.BooleanValue →
      GetFieldConverter std "bool" f = GetFieldConverter std "bool" g) ∧
    (f.DoubleValue = g.DoubleValue →
      GetFieldConverter std "float4" f = GetFieldConverter std "float4" g) ∧
    (f.StringValue = g.StringValue →
      ∀ t ∈ ["bpchar", "varchar", "text", "time", "numeric", "date", "timestamp"],
        GetFieldConverter std t f = GetFieldConverter std t g) ∧
    (∀ s : String,
      GetFieldConverter std "int4" { emptyField with StringValue := some s }
        = (Any.int64 0, none)) ∧
    (∀ n : Int,
      GetFieldConverter std "text" { emptyField with LongValue := some n }
        = (Any.string "", none)) := by
  refine ⟨?_, ?_, ?_, ?_, fun _ => rfl, fun _ => rfl⟩
  · intro h t ht
    rw [GetFieldConverter_long std t ht f, GetFieldConverter_long std t ht g, h]
  · intro h
    show (Any.bool (BoolValue f.BooleanValue), none) = (Any.bool (BoolValue g.BooleanValue), none)
    rw [h]
  · intro h
    show (Any.float64 (Float64Value f.DoubleValue), none)
      = (Any.float64 (Float64Value g.DoubleValue), none)
    rw [h]
  · intro h t ht
    simp only [List.mem_cons, List.mem_singleton, List.not_mem_nil, or_false] at ht
    rcases ht with e | e | e | e | e | e | e
    · rw [GetFieldConverter_string std t (by simp [e]) f,
        GetFieldConverter_string std t (by simp [e]) g, h]
    · rw [GetFieldConverter_string std t (by simp [e]) f,
        GetFieldConverter_string std t (by simp [e]) g, h]
    · rw [GetFieldConverter_string std t (by simp [e]) f,
        GetFieldConverter_string std t (by simp [e]) g, h]
    · rw [GetFieldConverter_string std t (by simp [e]) f,
        GetFieldConverter_string std t (by simp [e]) g, h]
    · subst e
      rw [GetFieldConverter_numeric, GetFieldConverter_numeric, h]
    · subst e
      rw [GetFieldConverter_date, GetFieldConverter_date, h]
    · subst e
      rw [GetFieldConverter_timestamp, GetFieldConverter_timestamp, h]

end RDS
